import Mathlib

/-!
# Object-Labeling-Toolkit: localization pipeline

A shallow embedding of `src/localization.cpp`: the 2D trajectory loop of `main`
(`trajectoryICP2D`, the accept gate, `processPending3DRangeScans`) and the
four-sensor set aggregation of the refinement loop.

Numbers (`double`) are elements of a linearly ordered field `K` with a floor
function, so the arithmetic on `double` values is exact; the theorems about
trigonometry are stated for the real numbers.  The two `float` variables of
`isKeyPose` and the `float` constant `DEG2RAD((float)20)` are rounded to single
precision (`toFloat32`).  The functions `cos` and `sin`, the constant pi, the
conversion to `float` and the ICP solver are parameters of the definitions.  The MRPT pose
operations the program calls (`CPose2D` composition and inverse composition,
`CPose2D + CPose3D`, `setFromValues`, `wrapToPi`, `timeDifference`) are written
out as the library computes them, a `CPose3D` being held by the six coordinates
`getAsVector` returns.
-/

namespace Localization

/-! ## Numbers and angles -/

/-- The trigonometric functions and the constant pi the pose algebra uses, and
the conversion of a `double` value to `float`, which is `toFloat32` in the
theorems about `isKeyPose`. -/
structure MathEnv (K : Type) where
  cos : K → K
  sin : K → K
  pi : K
  toFloat : K → K

section Defs

variable {K : Type} [LinearOrderedField K] [FloorRing K]

/-- The C function `fmod`: the remainder of `a / m` with the quotient truncated
towards zero. -/
def fmod (a m : K) : K :=
  if 0 ≤ a / m then a - m * (⌊a / m⌋ : K) else a - m * (⌈a / m⌉ : K)

/-- Rounding to the nearest integer, a tie to the even one. -/
def roundEven (x : K) : ℤ :=
  if x - ⌊x⌋ < 1 / 2 then ⌊x⌋
  else if 1 / 2 < x - ⌊x⌋ then ⌊x⌋ + 1
  else if ⌊x⌋ % 2 = 0 then ⌊x⌋ else ⌊x⌋ + 1

/-- The conversion of a `double` value to `float` (binary32) in the default
rounding mode: the nearest value with 24 significant bits and an exponent of at
least -126, a tie to the even one. A value too large for `float` is not
modelled. -/
def toFloat32 (x : K) : K :=
  if x = 0 then 0
  else
    let e := max (Int.log 2 |x|) (-126)
    (roundEven (x / 2 ^ (e - 23)) : K) * 2 ^ (e - 23)

/-- MRPT `wrapTo2Pi`: `fmod` by two pi, shifted up by two pi for a negative
argument. -/
def wrapTo2Pi (env : MathEnv K) (a : K) : K :=
  if a < 0 then fmod a (2 * env.pi) + 2 * env.pi else fmod a (2 * env.pi)

/-- MRPT `wrapToPi(a) = wrapTo2Pi(a + pi) - pi`. -/
def wrapToPi (env : MathEnv K) (a : K) : K :=
  wrapTo2Pi env (a + env.pi) - env.pi

/-- Two angles that differ by a whole number of turns. -/
def SameAngle (env : MathEnv K) (a b : K) : Prop :=
  ∃ k : ℤ, a = b + 2 * env.pi * (k : K)

/-- The range of angles `wrapToPi` leaves alone. -/
def InPiRange (env : MathEnv K) (a : K) : Prop :=
  -env.pi ≤ a ∧ a < env.pi

/-! ## Poses -/

/-- MRPT `CPose2D`: a planar pose. -/
structure CPose2D (K : Type) where
  x : K
  y : K
  phi : K
deriving DecidableEq

/-- MRPT `CPose3D`, by the coordinates `getAsVector` gives:
`x y z yaw pitch roll`. -/
structure CPose3D (K : Type) where
  x : K
  y : K
  z : K
  yaw : K
  pitch : K
  roll : K
deriving DecidableEq

/-- The constructor `CPose2D(x, y, phi)`, which normalizes `phi`. -/
def CPose2D.make (env : MathEnv K) (x y phi : K) : CPose2D K :=
  ⟨x, y, wrapToPi env phi⟩

/-- Pose composition `A + B` of two planar poses. -/
def CPose2D.compose (env : MathEnv K) (A B : CPose2D K) : CPose2D K :=
  CPose2D.make env
    (A.x + B.x * env.cos A.phi - B.y * env.sin A.phi)
    (A.y + B.x * env.sin A.phi + B.y * env.cos A.phi)
    (A.phi + B.phi)

/-- Inverse pose composition `A - B`: the pose `A` as seen from `B`. -/
def CPose2D.inverseCompose (env : MathEnv K) (A B : CPose2D K) : CPose2D K :=
  ⟨(A.x - B.x) * env.cos B.phi + (A.y - B.y) * env.sin B.phi,
   -(A.x - B.x) * env.sin B.phi + (A.y - B.y) * env.cos B.phi,
   wrapToPi env (A.phi - B.phi)⟩

/-- The method `CPose3D::setFromValues`: the position is stored and each of the
three angles is wrapped by `wrapToPi`. -/
def CPose3D.setFromValues (env : MathEnv K) (x y z yaw pitch roll : K) : CPose3D K :=
  ⟨x, y, z, wrapToPi env yaw, wrapToPi env pitch, wrapToPi env roll⟩

/-- The composition `CPose2D + CPose3D`: the planar pose, as the 3D pose
`(x, y, 0, phi, 0, 0)`, composed with a 3D pose. It turns the 3D pose about
the z axis by `phi` and translates it: the yaw angles add, pitch and roll
stay. -/
def CPose2D.compose3D (env : MathEnv K) (A : CPose2D K) (B : CPose3D K) : CPose3D K :=
  ⟨A.x + B.x * env.cos A.phi - B.y * env.sin A.phi,
   A.y + B.x * env.sin A.phi + B.y * env.cos A.phi,
   B.z,
   wrapToPi env (A.phi + B.yaw),
   B.pitch,
   B.roll⟩

/-! ## Observations and the program state -/

/-- MRPT `TTimeStamp`: a count of 100 ns ticks. -/
abbrev TTimeStamp := Nat

/-- MRPT `timeDifference(t1, t2)`: the seconds from `t1` to `t2`. -/
def timeDifference (t1 t2 : TTimeStamp) : K :=
  (((t2 : ℤ) - (t1 : ℤ) : ℤ) : K) / 10000000

/-- A 2D laser scan of the stream. -/
structure CObservation2DRangeScan (K : Type) where
  sensorLabel : String
  timestamp : TTimeStamp
  scan : List K
deriving DecidableEq

/-- A 3D range frame of the stream. -/
structure CObservation3DRangeScan (K : Type) where
  sensorLabel : String
  timestamp : TTimeStamp
  sensorPose : CPose3D K
deriving DecidableEq

/-- An entry of the rawlog: the loops of `main` treat every observation that
is not a 2D scan as a 3D frame. -/
inductive CObservation (K : Type) where
  | scan2D (o : CObservation2DRangeScan K)
  | range3D (o : CObservation3DRangeScan K)
deriving DecidableEq

/-- The timestamp of a rawlog entry. -/
def CObservation.timestamp : CObservation K → TTimeStamp
  | .scan2D o => o.timestamp
  | .range3D o => o.timestamp

/-- An accepted robot pose (`struct TRobotPose`). -/
structure TRobotPose (K : Type) where
  time : TTimeStamp
  pose : CPose2D K
  goodness : K
deriving DecidableEq

/-- A located frame (`struct T3DRangeScan`): the observation and its convex
hull, empty until the overlap stage fills it. -/
structure T3DRangeScan (K : Type) where
  obs : CObservation3DRangeScan K
  convexHullCloud : List (K × K × K)
  polygons : List (List Nat)
deriving DecidableEq

/-- The constructor `T3DRangeScan()` followed by `Obs3D.obs = o`. -/
def T3DRangeScan.ofObs (o : CObservation3DRangeScan K) : T3DRangeScan K :=
  ⟨o, [], []⟩

/-- The result of `ICP.Align` on the reference map and a scan, from an initial
guess: the mean of the estimated pose and `info.goodness * 100`. -/
abbrev Aligner (K : Type) := CPose2D K → CObservation2DRangeScan K → CPose2D K × K

/-- The globals the 2D trajectory loop reads and writes. -/
structure State (K : Type) where
  initialPose : CPose2D K
  v_robotPoses : List (TRobotPose K)
  v_3DRangeScans : List (T3DRangeScan K)
  v_pending3DRangeScans : List (CObservation3DRangeScan K)
  RGBD_sensors : List String
  trajectoryFile : List (CPose2D K)

/-- The globals at program start: `initialPose(0.8f, 0, 0)` (the literal taken
as the rational 8/10), empty vectors and a truncated trajectory file. -/
def State.init (env : MathEnv K) : State K :=
  { initialPose := CPose2D.make env (8 / 10) 0 0
    v_robotPoses := []
    v_3DRangeScans := []
    v_pending3DRangeScans := []
    RGBD_sensors := []
    trajectoryFile := [] }

/-! ## trajectoryICP2D -/

/-- The function `trajectoryICP2D`: aligns the scan from the carried initial
guess, stores the estimated pose in `initialPose`, writes it to the trajectory
file and gives the goodness back. -/
def trajectoryICP2D (icp : Aligner K) (s : State K) (obs2D : CObservation2DRangeScan K) :
    State K × K :=
  let r := icp s.initialPose obs2D
  let goodness := r.2
  let s1 := { s with initialPose := r.1 }
  let s2 := { s1 with trajectoryFile := s1.trajectoryFile ++ [s1.initialPose] }
  (s2, goodness)

/-! ## processPending3DRangeScans -/

/-- The value of `interpolationFactor` for a frame time. -/
def interpolationFactor (rp1 rp2 : TRobotPose K) (obsTime : TTimeStamp) : K :=
  let tdPositions : K := timeDifference rp1.time rp2.time
  let tdPos1Obs : K := timeDifference rp1.time obsTime
  tdPos1Obs / tdPositions

/-- The value of `poseToSum` for a frame time: the interpolated robot pose. -/
def poseToSum (env : MathEnv K) (rp1 rp2 : TRobotPose K) (obsTime : TTimeStamp) : CPose2D K :=
  let f := interpolationFactor rp1 rp2 obsTime
  let posPoseDif := CPose2D.inverseCompose env rp2.pose rp1.pose
  let intermediatePose := CPose2D.make env (posPoseDif.x * f) (posPoseDif.y * f) (posPoseDif.phi * f)
  CPose2D.compose env rp1.pose intermediatePose

/-- The pose the loop body of `processPending3DRangeScans` gives a pending
frame: `poseToSum + pose`, read as a vector and set again from its values. -/
def finalPose (env : MathEnv K) (rp1 rp2 : TRobotPose K) (obs : CObservation3DRangeScan K) :
    CPose3D K :=
  let pose := obs.sensorPose
  let fp := CPose2D.compose3D env (poseToSum env rp1 rp2 obs.timestamp) pose
  CPose3D.setFromValues env fp.x fp.y fp.z fp.yaw fp.pitch fp.roll

/-- One turn of the loop over the pending frames: the frame with its new
pose, as pushed onto `v_3DRangeScans`. -/
def locatePending (env : MathEnv K) (rp1 rp2 : TRobotPose K) (obs : CObservation3DRangeScan K) :
    T3DRangeScan K :=
  T3DRangeScan.ofObs { obs with sensorPose := finalPose env rp1 rp2 obs }

/-- The function `processPending3DRangeScans`. -/
def processPending3DRangeScans (env : MathEnv K) (s : State K) : State K :=
  let N_robotPoses := s.v_robotPoses.length
  let s1 :=
    if h : 1 < N_robotPoses then
      let rp1 := s.v_robotPoses.get ⟨N_robotPoses - 2, by omega⟩
      let rp2 := s.v_robotPoses.get ⟨N_robotPoses - 1, by omega⟩
      { s with v_3DRangeScans :=
          s.v_3DRangeScans ++ s.v_pending3DRangeScans.map (locatePending env rp1 rp2) }
    else s
  { s1 with v_pending3DRangeScans := [] }

/-! ## The 2D trajectory loop of main -/

/-- The body of the loop `for obsIndex` of `main` when the 2D guess is on. -/
def mainStep (env : MathEnv K) (icp : Aligner K) (s : State K) : CObservation K → State K
  | .scan2D obs2D =>
    let r := trajectoryICP2D icp s obs2D
    let s1 := r.1
    let goodness := r.2
    let robotPose : TRobotPose K := ⟨obs2D.timestamp, s1.initialPose, goodness⟩
    let s2 :=
      if goodness > 80 then { s1 with v_robotPoses := s1.v_robotPoses ++ [robotPose] }
      else { s1 with v_pending3DRangeScans := [] }
    if !s2.v_pending3DRangeScans.isEmpty then processPending3DRangeScans env s2 else s2
  | .range3D obs3D =>
    let label := obs3D.sensorLabel
    let s1 :=
      if label ∈ s.RGBD_sensors then s else { s with RGBD_sensors := s.RGBD_sensors ++ [label] }
    { s1 with v_pending3DRangeScans := s1.v_pending3DRangeScans ++ [obs3D] }

/-- The loop over the rawlog, from a given state. -/
def mainLoopFrom (env : MathEnv K) (icp : Aligner K) (s : State K) (rawlog : List (CObservation K)) :
    State K :=
  rawlog.foldl (mainStep env icp) s

/-- The 2D trajectory loop of `main` on a rawlog, from the globals at start. -/
def mainLoop (env : MathEnv K) (icp : Aligner K) (rawlog : List (CObservation K)) : State K :=
  mainLoopFrom env icp (State.init env) rawlog

/-! ## The four-sensor refinement loop: forming the sets -/

/-- The variables of the four-sensor loop that hold the current set:
`v_obs2`, `v_obs2_indices` and `v_obs_loaded`. -/
structure SetState (K : Type) where
  v_obs2 : List (T3DRangeScan K)
  v_obs2_indices : List Nat
  v_obs_loaded : List Bool

/-- The value `T3DRangeScan()`: a fresh observation and an empty hull. -/
def T3DRangeScan.empty : T3DRangeScan K :=
  ⟨⟨"", 0, ⟨0, 0, 0, 0, 0, 0⟩⟩, [], []⟩

/-- The set variables as declared before the loop: `v_obs2(4)`,
`v_obs2_indices(4)` and `v_obs_loaded(4, false)`. -/
def SetState.init : SetState K :=
  ⟨List.replicate 4 T3DRangeScan.empty, List.replicate 4 0, List.replicate 4 false⟩

/-- The slot the chain of tests on `sensorLabel` selects. -/
def sensorSlot (label : String) : Option Nat :=
  if label = "RGBD_1" then some 0
  else if label = "RGBD_2" then some 1
  else if label = "RGBD_3" then some 2
  else if label = "RGBD_4" then some 3
  else none

/-- The assignments of the selected branch: the frame, its flag and its index
go to the slot; a frame with another label changes nothing. -/
def loadObs (st : SetState K) (obsIndex : Nat) (obs : T3DRangeScan K) : SetState K :=
  match sensorSlot obs.obs.sensorLabel with
  | some k =>
    { v_obs2 := st.v_obs2.set k obs
      v_obs_loaded := st.v_obs_loaded.set k true
      v_obs2_indices := st.v_obs2_indices.set k obsIndex }
  | none => st

/-- The value of `sum`: the four flags added up. -/
def loadedSum (st : SetState K) : Nat :=
  (st.v_obs_loaded.getD 0 false).toNat + (st.v_obs_loaded.getD 1 false).toNat +
    (st.v_obs_loaded.getD 2 false).toNat + (st.v_obs_loaded.getD 3 false).toNat

/-- The head of the loop body for the frame `obs = v_3DRangeScans[obsIndex]`:
the frame is loaded, and when `sum == 4` the flags are cleared and resized to
four `false`. The result tells whether the set is complete; the rest of the
body, run for a complete set, assigns none of the three variables (the
registration changes the poses of the observations the slots point to). -/
def setStep (st : SetState K) (obsIndex : Nat) (obs : T3DRangeScan K) : SetState K × Bool :=
  let st1 := loadObs st obsIndex obs
  if loadedSum st1 = 4 then ({ st1 with v_obs_loaded := List.replicate 4 false }, true)
  else (st1, false)

/-- The set variables when the loop has run for the indices below `n`. -/
def setStateAt (scans : List (T3DRangeScan K)) : Nat → SetState K
  | 0 => SetState.init
  | n + 1 =>
    match scans[n]? with
    | some obs => (setStep (setStateAt scans n) n obs).1
    | none => setStateAt scans n

/-- Whether the turn of the loop for index `i` completes a set. -/
def completesAt (scans : List (T3DRangeScan K)) (i : Nat) : Bool :=
  match scans[i]? with
  | some obs => (setStep (setStateAt scans i) i obs).2
  | none => false

/-- The index after the last set completed before index `n`, zero when there
is none. -/
def segStart (scans : List (T3DRangeScan K)) : Nat → Nat
  | 0 => 0
  | n + 1 => if completesAt scans n then n + 1 else segStart scans n

/-- The labels of the four sensors, by slot. -/
def rgbdLabels : List String := ["RGBD_1", "RGBD_2", "RGBD_3", "RGBD_4"]

/-- The frame at index `j` carries the label of slot `k`. -/
def LabelledAt (scans : List (T3DRangeScan K)) (j k : Nat) : Prop :=
  ∃ obs, scans[j]? = some obs ∧ rgbdLabels[k]? = some obs.obs.sensorLabel

/-- A frame with the label of slot `k` occurs at an index from `lo` to `hi`. -/
def SeenBetween (scans : List (T3DRangeScan K)) (lo hi k : Nat) : Prop :=
  ∃ j, lo ≤ j ∧ j ≤ hi ∧ LabelledAt scans j k

/-- Every one of the four labels occurs at an index from `lo` to `hi`. -/
def AllSeen (scans : List (T3DRangeScan K)) (lo hi : Nat) : Prop :=
  ∀ k, k < 4 → SeenBetween scans lo hi k

/-- The invariant of the set variables at index `n`, for a set begun at `lo`:
the flag of a slot is up exactly when its label was seen since `lo`, and then
the slot holds the latest such frame and its index. -/
structure SetInv (scans : List (T3DRangeScan K)) (lo n : Nat) (st : SetState K) : Prop where
  len_obs2 : st.v_obs2.length = 4
  len_indices : st.v_obs2_indices.length = 4
  len_loaded : st.v_obs_loaded.length = 4
  lo_le : lo ≤ n
  loaded_of_seen : ∀ k j, k < 4 → lo ≤ j → j < n → LabelledAt scans j k →
    st.v_obs_loaded[k]? = some true
  slot_of_loaded : ∀ k, k < 4 → st.v_obs_loaded[k]? = some true →
    ∃ j, lo ≤ j ∧ j < n ∧ LabelledAt scans j k ∧
      (∀ j', j < j' → j' < n → ¬ LabelledAt scans j' k) ∧
      st.v_obs2[k]? = scans[j]? ∧ st.v_obs2_indices[k]? = some j

/-- The slots of a completed set: each holds the latest frame with its label
and that frame's index. -/
def SlotsFilled (scans : List (T3DRangeScan K)) (i : Nat) (st : SetState K) : Prop :=
  ∀ k, k < 4 → ∃ j, j ≤ i ∧ LabelledAt scans j k ∧
    (∀ j', j < j' → j' ≤ i → ¬ LabelledAt scans j' k) ∧
    st.v_obs2[k]? = scans[j]? ∧ st.v_obs2_indices[k]? = some j

/-! ## Key poses -/

/-- The constant `const double KEY_POSE_DIST_THRESHOLD = 0.3`, taken as 3/10:
no `float` value lies between 3/10 and the `double` nearest to it, so a `float`
compares with both in the same way. -/
def KEY_POSE_DIST_THRESHOLD : K := 3 / 10

/-- MRPT `M_PIf`, the `float` literal `3.14159265358979f`. -/
def M_PIf (env : MathEnv K) : K :=
  env.toFloat (314159265358979 / 100000000000000)

/-- MRPT `DEG2RAD(const float x)`, which is `x*M_PIf/180.0f` in `float`
arithmetic: the product and the quotient are rounded to `float`. -/
def DEG2RAD_float (env : MathEnv K) (x : K) : K :=
  env.toFloat (env.toFloat (x * M_PIf env) / 180)

/-- The constant `const double KEY_POSE_ANGLE_THRESHOLD = DEG2RAD((float)20)`:
the `float` result, held in a `double`. -/
def KEY_POSE_ANGLE_THRESHOLD (env : MathEnv K) : K :=
  DEG2RAD_float env (env.toFloat 20)

/-- The function `isKeyPose`. The argument `sqrt` is the square root of the C
library; `pose_v[0]`, `pose_v[1]` and `pose_v[3]` are x, y and yaw. The
variables `dist` and `angle` are declared `float`, so the square root and the
absolute value are converted to `float` before they are compared with the
`double` thresholds. -/
def isKeyPose (env : MathEnv K) (sqrt : K → K) (pose lastPose : CPose3D K) : Bool :=
  let dist := env.toFloat (sqrt ((pose.x - lastPose.x) ^ 2 + (pose.y - lastPose.y) ^ 2))
  let angle := env.toFloat |pose.yaw - lastPose.yaw|
  if dist > KEY_POSE_DIST_THRESHOLD ∨ angle > KEY_POSE_ANGLE_THRESHOLD env then true else false

/-! ## The registration functions -/

/-- The library functions the 3D registration calls. -/
structure Registration (K : Type) where
  /-- The pose composition `CPose3D + CPose3D`. -/
  compose : CPose3D K → CPose3D K → CPose3D K
  /-- The call `icp.Align3D(&M2, &M1, CPose3D(), ..)` on the maps of the frames
  to align and of the reference frames: the mean pose and `100 * goodness`. -/
  align3D : List (CObservation3DRangeScan K) → List (CObservation3DRangeScan K) → CPose3D K × K
  /-- The points of a map into which the observations were inserted. -/
  pointsOf : List (CObservation3DRangeScan K) → List (K × K × K)
  /-- The GICP solver on the source and the target cloud: the pose of the final
  transformation and the fitness score. -/
  gicp : List (K × K × K) → List (K × K × K) → CPose3D K × K
  /-- The filter `pcl::CropHull`: the points of the input cloud kept by the hull
  given by its polygons and its cloud. -/
  cropHull : List (K × K × K) → List (List Nat) → List (K × K × K) → List (K × K × K)

/-- The configuration globals, with their values at program start. -/
structure Config where
  initialGuessICP2D : Bool := true
  refineWithICP3D : Bool := false
  accumulatePast : Bool := false
  useKeyPoses : Bool := false
  smooth3DObs : Bool := false
  useOverlappingObs : Bool := false
  ICP3D_method : String := ""

/-- The globals the registration functions write: `lastGoodICP3Dpose`,
`oneGoodICP3DPose` and `v_goodness`. -/
structure RefineGlobals (K : Type) where
  lastGoodICP3Dpose : CPose3D K
  oneGoodICP3DPose : Bool
  v_goodness : List K

/-- The value `CPose3D(0,0,0,0,0,0)`, also the value of `CPose3D()`. -/
def CPose3D.zero : CPose3D K := ⟨0, 0, 0, 0, 0, 0⟩

/-- The registration globals at program start. -/
def RefineGlobals.init : RefineGlobals K := ⟨CPose3D.zero, false, []⟩

/-- The call `f.obs->setSensorPose(p)`. -/
def T3DRangeScan.setSensorPose (f : T3DRangeScan K) (p : CPose3D K) : T3DRangeScan K :=
  { f with obs := { f.obs with sensorPose := p } }

/-- The index `v_obs.size() - v_obs2.size() + i` in `size_t` arithmetic. -/
def seedIndex (nRef nCur i : Nat) : Nat :=
  (nRef + (2 ^ 64 - nCur % 2 ^ 64) + i) % 2 ^ 64

/-- The loop that copies poses when the 2D guess is off, from index `i` on:
frame `i` of the current set takes the pose of the reference entry
`seedIndex`; there is no result when that entry does not exist. -/
def seedFrom (v_obs : List (T3DRangeScan K)) (nCur : Nat) :
    Nat → List (T3DRangeScan K) → Option (List (T3DRangeScan K))
  | _, [] => some []
  | i, f :: rest =>
    match v_obs[seedIndex v_obs.length nCur i]? with
    | none => none
    | some r =>
      match seedFrom v_obs nCur (i + 1) rest with
      | none => none
      | some rest' => some (f.setSensorPose r.obs.sensorPose :: rest')

/-- The first block of both registration functions: the poses are copied from
the reference when `initialGuessICP2D` is off. -/
def seedStage (cfg : Config) (v_obs v_obs2 : List (T3DRangeScan K)) :
    Option (List (T3DRangeScan K)) :=
  if !cfg.initialGuessICP2D then seedFrom v_obs v_obs2.length 0 v_obs2 else some v_obs2

/-- The transform `mean` after the test `goodness < 96` of
`refineLocationICP3D`. -/
def gatedMean (g : RefineGlobals K) (mean : CPose3D K) (goodness : K) : CPose3D K :=
  if goodness < 96 then
    if g.oneGoodICP3DPose then g.lastGoodICP3Dpose else CPose3D.zero
  else mean

/-- The loop `finalPose = mean + pose` over the current set. -/
def applyTransform (lib : Registration K) (mean : CPose3D K)
    (cur : List (T3DRangeScan K)) : List (T3DRangeScan K) :=
  cur.map fun f => f.setSensorPose (lib.compose mean f.obs.sensorPose)

/-- The function `refineLocationICP3D`: the new globals and the frames of
`v_obs2` with their new poses; no result when the seeding reads outside
`v_obs`. -/
def refineLocationICP3D (cfg : Config) (lib : Registration K) (g : RefineGlobals K)
    (v_obs v_obs2 : List (T3DRangeScan K)) :
    Option (RefineGlobals K × List (T3DRangeScan K)) :=
  match seedStage cfg v_obs v_obs2 with
  | none => none
  | some cur =>
    let r := lib.align3D (cur.map T3DRangeScan.obs) (v_obs.map T3DRangeScan.obs)
    let goodness := r.2
    let g1 := { g with v_goodness := g.v_goodness ++ [goodness] }
    let mean := gatedMean g1 r.1 goodness
    some ({ g1 with oneGoodICP3DPose := true, lastGoodICP3Dpose := mean },
      applyTransform lib mean cur)

/-- The overlap test of one reference frame and one frame of the current set:
the hull points of the new frame cropped by the hull of the old one, and when
there are none the hull points of the old frame cropped by the hull of the new
one. -/
def overlapping (lib : Registration K) (old new : T3DRangeScan K) : Bool :=
  if (lib.cropHull new.convexHullCloud old.polygons old.convexHullCloud).length = 0 then
    if (lib.cropHull old.convexHullCloud new.polygons new.convexHullCloud).length ≠ 0 then true
    else false
  else true

/-- The loop `while ( !insert && ( j < v_obs2.size() ) )`: the value of
`insert` for a reference frame. -/
def insertDecision (lib : Registration K) (old : T3DRangeScan K) :
    List (T3DRangeScan K) → Bool
  | [] => false
  | new :: rest => if overlapping lib old new then true else insertDecision lib old rest

/-- The reference frames inserted into the map `M1` by `refineLocationGICP3D`. -/
def referenceFrames (cfg : Config) (lib : Registration K)
    (v_obs cur : List (T3DRangeScan K)) : List (T3DRangeScan K) :=
  if !cfg.useOverlappingObs then v_obs else v_obs.filter fun old => insertDecision lib old cur

/-- The points at the indices 0, 2, 4, .. of a list. -/
def everyOther {α : Type} : List α → List α
  | [] => []
  | [a] => [a]
  | a :: _ :: rest => a :: everyOther rest

/-- The function `refineLocationGICP3D`: the new globals and the frames of
`v_obs2` with their new poses. -/
def refineLocationGICP3D (cfg : Config) (lib : Registration K) (g : RefineGlobals K)
    (v_obs v_obs2 : List (T3DRangeScan K)) :
    Option (RefineGlobals K × List (T3DRangeScan K)) :=
  match seedStage cfg v_obs v_obs2 with
  | none => none
  | some cur =>
    let xs := lib.pointsOf ((referenceFrames cfg lib v_obs cur).map T3DRangeScan.obs)
    let xs2 := lib.pointsOf (cur.map T3DRangeScan.obs)
    let cloud_old := if cfg.accumulatePast then everyOther xs else xs
    let cloud_new := xs2
    if cloud_new.length < 100 then some (g, cur)
    else
      let r := lib.gicp cloud_new cloud_old
      let score := r.2
      let g1 := { g with v_goodness := g.v_goodness ++ [score] }
      let estimated_pose := r.1
      some (g1, applyTransform lib estimated_pose cur)

/-! ## The four-sensor refinement loop: the body -/

/-- The variables of the four-sensor refinement loop: the current set, the
reference `v_obs`, the deletion list, the flag `first`, the located frames
(whose observations the sets share by pointer) and the registration globals.
The two counters are ghost variables: the number of evaluations of `isKeyPose`
and the number of calls of a registration function. -/
structure LoopState (K : Type) where
  set : SetState K
  v_obs : List (T3DRangeScan K)
  v_obsToDelete : List Nat
  first : Bool
  v_3DRangeScans : List (T3DRangeScan K)
  globals : RefineGlobals K
  keyPoseCalls : Nat
  refineCalls : Nat

/-- The loop variables before the first turn. -/
def LoopState.init (g : RefineGlobals K) (scans : List (T3DRangeScan K)) : LoopState K :=
  { set := SetState.init
    v_obs := []
    v_obsToDelete := []
    first := true
    v_3DRangeScans := scans
    globals := g
    keyPoseCalls := 0
    refineCalls := 0 }

/-- The index `n - c` in `size_t` arithmetic. -/
def subIndex (n c : Nat) : Nat :=
  (n + (2 ^ 64 - c)) % 2 ^ 64

/-- The key-pose test of a completed set: the poses of the last four reference
entries and of the four slots are read, and `isKeyPose` is evaluated sensor by
sensor while `keyPose` is true. The result is `keyPose` and the number of
evaluations; there is none when an entry read does not exist. -/
def keyPoseTest (env : MathEnv K) (sqrt : K → K) (v_obs v_obs2 : List (T3DRangeScan K)) :
    Option (Bool × Nat) :=
  let N_prevObs := v_obs.length
  match v_obs[subIndex N_prevObs 4]?, v_obs[subIndex N_prevObs 3]?,
    v_obs[subIndex N_prevObs 2]?, v_obs[subIndex N_prevObs 1]?,
    v_obs2[0]?, v_obs2[1]?, v_obs2[2]?, v_obs2[3]? with
  | some o1, some o2, some o3, some o4, some n1, some n2, some n3, some n4 =>
    if isKeyPose env sqrt n1.obs.sensorPose o1.obs.sensorPose = false then some (false, 1)
    else if isKeyPose env sqrt n2.obs.sensorPose o2.obs.sensorPose = false then some (false, 2)
    else if isKeyPose env sqrt n3.obs.sensorPose o3.obs.sensorPose = false then some (false, 3)
    else some (isKeyPose env sqrt n4.obs.sensorPose o4.obs.sensorPose, 4)
  | _, _, _, _, _, _, _, _ => none

/-- The registration function selected by `ICP3D_method`. -/
def refineLocation (cfg : Config) (lib : Registration K) (g : RefineGlobals K)
    (v_obs v_obs2 : List (T3DRangeScan K)) :
    Option (RefineGlobals K × List (T3DRangeScan K)) :=
  if cfg.ICP3D_method = "GICP" then refineLocationGICP3D cfg lib g v_obs v_obs2
  else refineLocationICP3D cfg lib g v_obs v_obs2

/-- The calls with the one-frame vectors `v1`, `v2`, .. of the accumulate mode,
one after the other. -/
def refineEach (cfg : Config) (lib : Registration K) (v_obs : List (T3DRangeScan K)) :
    RefineGlobals K → List (T3DRangeScan K) → Option (RefineGlobals K × List (T3DRangeScan K))
  | g, [] => some (g, [])
  | g, f :: rest =>
    match refineLocation cfg lib g v_obs [f] with
    | none => none
    | some r1 =>
      match refineEach cfg lib v_obs r1.1 rest with
      | none => none
      | some r2 => some (r2.1, r1.2 ++ r2.2)

/-- The registration of a set: one call per frame when `accumulatePast` is on,
one call for the set otherwise. The result has the new globals, the frames with
their new poses and the number of calls. -/
def registerSet (cfg : Config) (lib : Registration K) (g : RefineGlobals K)
    (v_obs v_obs2 : List (T3DRangeScan K)) :
    Option (RefineGlobals K × List (T3DRangeScan K) × Nat) :=
  if cfg.accumulatePast then
    match refineEach cfg lib v_obs g v_obs2 with
    | none => none
    | some r => some (r.1, r.2, v_obs2.length)
  else
    match refineLocation cfg lib g v_obs v_obs2 with
    | none => none
    | some r => some (r.1, r.2, 1)

/-- The frames of a set written to their places in `v_3DRangeScans`: the set
and the vector share the observations. -/
def writeBack (scans : List (T3DRangeScan K)) :
    List Nat → List (T3DRangeScan K) → List (T3DRangeScan K)
  | i :: is, f :: fs => writeBack (scans.set i f) is fs
  | _, _ => scans

/-- The branch `if ( first )`: the set becomes the reference. -/
def seedStep (s : LoopState K) (st1 : SetState K) : LoopState K :=
  { s with set := st1, v_obs := st1.v_obs2, first := false }

/-- The branch `if (!keyPose)`: the four indices go to `v_obsToDelete`. -/
def rejectStep (s : LoopState K) (st1 : SetState K) (calls : Nat) : LoopState K :=
  { s with
    set := st1
    v_obsToDelete := s.v_obsToDelete ++
      [st1.v_obs2_indices.getD 0 0, st1.v_obs2_indices.getD 1 0,
        st1.v_obs2_indices.getD 2 0, st1.v_obs2_indices.getD 3 0]
    keyPoseCalls := s.keyPoseCalls + calls }

/-- The end of the body for an accepted set: the registration and the update
of the reference `v_obs`. -/
def registerStep (cfg : Config) (lib : Registration K) (s : LoopState K) (st1 : SetState K)
    (calls : Nat) : Option (LoopState K) :=
  match registerSet cfg lib s.globals s.v_obs st1.v_obs2 with
  | none => none
  | some r =>
    some
      { s with
        set := { st1 with v_obs2 := r.2.1 }
        v_obs := if cfg.accumulatePast then s.v_obs ++ r.2.1 else r.2.1
        v_3DRangeScans := writeBack s.v_3DRangeScans st1.v_obs2_indices r.2.1
        globals := r.1
        keyPoseCalls := s.keyPoseCalls + calls
        refineCalls := s.refineCalls + r.2.2 }

/-- The body of the four-sensor loop for the index `obsIndex`. -/
def loopBody (cfg : Config) (lib : Registration K) (env : MathEnv K) (sqrt : K → K)
    (s : LoopState K) (obsIndex : Nat) : Option (LoopState K) :=
  match s.v_3DRangeScans[obsIndex]? with
  | none => none
  | some obs =>
    let r := setStep s.set obsIndex obs
    if r.2 = false then some { s with set := r.1 }
    else if s.first then some (seedStep s r.1)
    else if cfg.useKeyPoses then
      match keyPoseTest env sqrt s.v_obs r.1.v_obs2 with
      | none => none
      | some t =>
        if t.1 = false then some (rejectStep s r.1 t.2) else registerStep cfg lib s r.1 t.2
    else registerStep cfg lib s r.1 0

/-- The four-sensor loop for `n` turns from the index `i`. -/
def fourSensorLoopFrom (cfg : Config) (lib : Registration K) (env : MathEnv K) (sqrt : K → K) :
    Nat → Nat → LoopState K → Option (LoopState K)
  | _, 0, s => some s
  | i, n + 1, s =>
    match loopBody cfg lib env sqrt s i with
    | none => none
    | some s1 => fourSensorLoopFrom cfg lib env sqrt (i + 1) n s1

/-- The four-sensor loop over the located frames. -/
def fourSensorLoop (cfg : Config) (lib : Registration K) (env : MathEnv K) (sqrt : K → K)
    (g : RefineGlobals K) (scans : List (T3DRangeScan K)) : Option (LoopState K) :=
  fourSensorLoopFrom cfg lib env sqrt 0 scans.length (LoopState.init g scans)

/-- The loop that saves the located frames: every entry of `v_3DRangeScans`
goes to the output rawlog. -/
def outputRawlog (s : LoopState K) : List (CObservation3DRangeScan K) :=
  s.v_3DRangeScans.map T3DRangeScan.obs

/-- The Euclidean distance of the points `(a, b)` and `(c, d)` of the plane
stands in the relation `R` to `r`. -/
def PlaneDist (R : ℝ → ℝ → Prop) (a b c d r : ℝ) : Prop :=
  R (dist ((WithLp.equiv 2 (Fin 2 → ℝ)).symm ![a, b] : EuclideanSpace ℝ (Fin 2))
    ((WithLp.equiv 2 (Fin 2 → ℝ)).symm ![c, d])) r

/-! ## The one-frame refinement loop and the stages of main -/

/-- The variables of the refinement loop that takes one frame at a time: the
reference `v_obs`, the one-entry vector `v_obs2`, the flag `first`, the located
frames and the registration globals. The counter is a ghost variable: the number
of calls of a registration function. -/
structure SingleState (K : Type) where
  v_obs : List (T3DRangeScan K)
  v_obs2 : List (T3DRangeScan K)
  first : Bool
  v_3DRangeScans : List (T3DRangeScan K)
  globals : RefineGlobals K
  refineCalls : Nat

/-- The variables of the one-frame loop before the first turn. -/
def SingleState.init (g : RefineGlobals K) (scans : List (T3DRangeScan K)) : SingleState K :=
  { v_obs := []
    v_obs2 := [T3DRangeScan.empty]
    first := true
    v_3DRangeScans := scans
    globals := g
    refineCalls := 0 }

/-- The body of the one-frame loop for the index `obsIndex`: the frame goes to
`v_obs2[0]`; the first frame becomes the reference, every later one is given to
the registration function (as `v1` or as `v_obs2`, the same one frame) and the
reference is updated. -/
def singleBody (cfg : Config) (lib : Registration K) (s : SingleState K) (obsIndex : Nat) :
    Option (SingleState K) :=
  match s.v_3DRangeScans[obsIndex]? with
  | none => none
  | some obs =>
    if s.first then some { s with v_obs2 := [obs], v_obs := [obs], first := false }
    else
      match refineLocation cfg lib s.globals s.v_obs [obs] with
      | none => none
      | some r =>
        some
          { s with
            v_obs2 := r.2
            v_obs := if cfg.accumulatePast then s.v_obs ++ r.2 else r.2
            v_3DRangeScans := writeBack s.v_3DRangeScans [obsIndex] r.2
            globals := r.1
            refineCalls := s.refineCalls + 1 }

/-- The one-frame loop for `n` turns from the index `i`. -/
def singleLoopFrom (cfg : Config) (lib : Registration K) :
    Nat → Nat → SingleState K → Option (SingleState K)
  | _, 0, s => some s
  | i, n + 1, s =>
    match singleBody cfg lib s i with
    | none => none
    | some s1 => singleLoopFrom cfg lib (i + 1) n s1

/-- The one-frame loop over the located frames. -/
def singleLoop (cfg : Config) (lib : Registration K) (g : RefineGlobals K)
    (scans : List (T3DRangeScan K)) : Option (SingleState K) :=
  singleLoopFrom cfg lib 0 scans.length (SingleState.init g scans)

/-- The loop of `main` that collects the frames when the 2D guess is off: every
observation that is not a 2D scan becomes a located frame, with the pose it
has. -/
def collectFrames (rawlog : List (CObservation K)) : List (T3DRangeScan K) :=
  rawlog.filterMap fun o =>
    match o with
    | .scan2D _ => none
    | .range3D obs3D => some (T3DRangeScan.ofObs obs3D)

/-- The first stage of `main`: the labels in `RGBD_sensors` and the located
frames `v_3DRangeScans`, by the 2D trajectory loop when `initialGuessICP2D` is
on and by the collecting loop otherwise. -/
def locateStage (cfg : Config) (env : MathEnv K) (icp : Aligner K)
    (rawlog : List (CObservation K)) : List String × List (T3DRangeScan K) :=
  if cfg.initialGuessICP2D then
    ((mainLoop env icp rawlog).RGBD_sensors, (mainLoop env icp rawlog).v_3DRangeScans)
  else ([], collectFrames rawlog)

/-- The stage `if ( useOverlappingObs )`: the convex hull of every located
frame is computed; `hullOf` is the reconstruction of PCL, which gives the hull
cloud and its polygons. -/
def hullStage (cfg : Config)
    (hullOf : CObservation3DRangeScan K → List (K × K × K) × List (List Nat))
    (scans : List (T3DRangeScan K)) : List (T3DRangeScan K) :=
  if cfg.useOverlappingObs then
    scans.map fun f => { f with convexHullCloud := (hullOf f.obs).1, polygons := (hullOf f.obs).2 }
  else scans

/-- What the refinement stage of `main` ran. -/
inductive RefineOutcome (K : Type) where
  | skipped (scans : List (T3DRangeScan K))
  | fourSensor (r : Option (LoopState K))
  | oneFrame (r : Option (SingleState K))

/-- The stage `if ( refineWithICP3D )`: the four-sensor loop when `RGBD_sensors`
has four labels, the one-frame loop otherwise. -/
def refineStage (cfg : Config) (lib : Registration K) (env : MathEnv K) (sqrt : K → K)
    (g : RefineGlobals K) (sensors : List String) (scans : List (T3DRangeScan K)) :
    RefineOutcome K :=
  if cfg.refineWithICP3D then
    if sensors.length = 4 then .fourSensor (fourSensorLoop cfg lib env sqrt g scans)
    else .oneFrame (singleLoop cfg lib g scans)
  else .skipped scans

/-- The stages of `main` from the rawlog to the end of the refinement. -/
def pipeline (cfg : Config) (lib : Registration K) (env : MathEnv K) (sqrt : K → K)
    (icp : Aligner K) (hullOf : CObservation3DRangeScan K → List (K × K × K) × List (List Nat))
    (g : RefineGlobals K) (rawlog : List (CObservation K)) : RefineOutcome K :=
  refineStage cfg lib env sqrt g (locateStage cfg env icp rawlog).1
    (hullStage cfg hullOf (locateStage cfg env icp rawlog).2)

/-! ## The command line -/

/-- What `main` prints or opens while it reads its arguments. -/
inductive Event where
  | usage
  | unknownParameter (arg : String)
  | info (msg : String)
  | loadRawlog (file : String)
deriving DecidableEq

/-- The configuration and the events so far. -/
structure ArgsState where
  cfg : Config
  out : List Event

/-- The optional parameters that set a configuration global. -/
def recognisedFlags : List String :=
  ["-disable_ICP2D", "-enable_ICP3D", "-enable_GICP3D", "-enable_memory",
    "-enable_keyPoses", "-enable_overlapping", "-enable_smoothing"]

/-- The body of the loop over `argv[3]`, `argv[4]`, ..: the new state, and the
return code when the body returns from `main`. -/
def parseStep (st : ArgsState) (arg : String) : ArgsState × Option Int :=
  if arg = "-disable_ICP2D" then
    ({ cfg := { st.cfg with initialGuessICP2D := false },
       out := st.out ++ [.info "[INFO] Disabled ICP2D to guess the robot localization."] }, none)
  else if arg = "-enable_ICP3D" then
    ({ cfg := { st.cfg with refineWithICP3D := true, ICP3D_method := "ICP" },
       out := st.out ++ [.info "[INFO] Enabled ICP3D."] }, none)
  else if arg = "-enable_GICP3D" then
    ({ cfg := { st.cfg with refineWithICP3D := true, ICP3D_method := "GICP" },
       out := st.out ++ [.info "[INFO] Enabled GICP3D."] }, none)
  else if arg = "-enable_memory" then
    ({ cfg := { st.cfg with accumulatePast := true },
       out := st.out ++ [.info "[INFO] Enabled (G)ICP3D memory."] }, none)
  else if arg = "-enable_keyPoses" then
    ({ cfg := { st.cfg with useKeyPoses := true },
       out := st.out ++ [.info "[INFO] Enabled key poses."] }, none)
  else if arg = "-enable_overlapping" then
    ({ cfg := { st.cfg with useOverlappingObs := true },
       out := st.out ++ [.info "[INFO] Enabled overlapping obs."] }, none)
  else if arg = "-enable_smoothing" then
    ({ cfg := { st.cfg with smooth3DObs := true },
       out := st.out ++ [.info "[INFO] Enabled smoothing."] }, none)
  else if arg = "-h" then ({ st with out := st.out ++ [.usage] }, some 0)
  else ({ st with out := st.out ++ [.unknownParameter arg, .usage] }, some (-1))

/-- The loop `for ( size_t arg = 3; arg < argc; arg++ )`. -/
def parseLoop : ArgsState → List String → ArgsState × Option Int
  | st, [] => (st, none)
  | st, arg :: rest =>
    match parseStep st arg with
    | (st1, some code) => (st1, some code)
    | (st1, none) => parseLoop st1 rest

/-- The block `Load parameters` of `main` for the argument vector `argv`,
program name included. -/
def loadParameters (argv : List String) : ArgsState × Option Int :=
  if argv.length ≥ 3 then parseLoop ⟨{}, []⟩ (argv.drop 3)
  else (⟨{}, [.usage]⟩, some 0)

/-- The start of `main`, to the call `i_rawlog.loadFromRawLogFile(i_rawlogFile)`,
which comes after the parameters are loaded: the events, and the return code
when `main` has returned. -/
def mainStart (argv : List String) : ArgsState × Option Int :=
  match loadParameters argv with
  | (st, some code) => (st, some code)
  | (st, none) => ({ st with out := st.out ++ [.loadRawlog (argv.getD 1 "")] }, none)

/-! ## process_rawlog: the sensor of an observation -/

/-- The sensor labels of a list of frames. -/
def labelsOf (l : List (T3DRangeScan K)) : List String :=
  l.map fun f => f.obs.sensorLabel

/-- The invariant of the four-sensor loop before the turn for the index `i`,
with `N` located frames: the vectors of the set have four entries, a slot whose
flag is up holds a frame of its sensor, the reference is empty before the seed
and afterwards has a positive multiple of four entries that ends with frames of
RGBD_1 to RGBD_4, and the reference and the flags up count at most `i`
frames. -/
structure LoopInv (N i : Nat) (s : LoopState K) : Prop where
  heap : s.v_3DRangeScans.length = N
  len_obs2 : s.set.v_obs2.length = 4
  len_loaded : s.set.v_obs_loaded.length = 4
  slot_label : ∀ (k : Nat) (f : T3DRangeScan K), s.set.v_obs_loaded[k]? = some true → s.set.v_obs2[k]? = some f →
    rgbdLabels[k]? = some f.obs.sensorLabel
  unseeded : s.first = true → s.v_obs = []
  reference : s.first = false → 4 ≤ s.v_obs.length ∧ s.v_obs.length % 4 = 0 ∧
    labelsOf (s.v_obs.drop (s.v_obs.length - 4)) = rgbdLabels
  bound : s.v_obs.length + loadedSum s.set ≤ i

/-- The invariant of the one-frame loop before the turn for the index `i` over
the located frames `scans`: the frames from `i` on are as they were located,
`first` is up exactly before the first turn, the reference is empty then and
nonempty afterwards with at most `i` entries, and every turn but the first has
called a registration function once. -/
structure SingleInv (scans : List (T3DRangeScan K)) (i : Nat) (s : SingleState K) : Prop where
  heap : s.v_3DRangeScans.length = scans.length
  future : ∀ j, i ≤ j → s.v_3DRangeScans[j]? = scans[j]?
  first_iff : s.first = true ↔ i = 0
  unseeded : s.first = true → s.v_obs = []
  reference : s.first = false → 1 ≤ s.v_obs.length
  bound : s.v_obs.length ≤ i
  calls : s.refineCalls = i - 1

/-- The invariant of the 2D trajectory loop after the entries `pre` of the
rawlog: the times of the accepted poses and of the pending frames are
timestamps of `pre`, and no pending frame is older than an accepted pose. -/
structure PendingInv (s : State K) (pre : List (CObservation K)) : Prop where
  pose_seen : ∀ rp ∈ s.v_robotPoses, rp.time ∈ pre.map CObservation.timestamp
  frame_seen : ∀ f ∈ s.v_pending3DRangeScans, f.timestamp ∈ pre.map CObservation.timestamp
  pose_le_frame : ∀ rp ∈ s.v_robotPoses, ∀ f ∈ s.v_pending3DRangeScans, rp.time ≤ f.timestamp

/-! ## Sample inputs -/

/-- A sample located frame: a label, a timestamp and a pose at `x` on the x
axis with no rotation. -/
def sampleFrame (label : String) (t : TTimeStamp) (x : K) : T3DRangeScan K :=
  T3DRangeScan.ofObs ⟨label, t, ⟨x, 0, 0, 0, 0, 0⟩⟩

/-- A sample `v_3DRangeScans` of two sets of four frames: the first set at the
origin, the second at `x` on the x axis. -/
def sampleHeap (x : K) : List (T3DRangeScan K) :=
  [sampleFrame "RGBD_1" 1 0, sampleFrame "RGBD_2" 2 0, sampleFrame "RGBD_3" 3 0,
   sampleFrame "RGBD_4" 4 0, sampleFrame "RGBD_1" 5 x, sampleFrame "RGBD_2" 6 x,
   sampleFrame "RGBD_3" 7 x, sampleFrame "RGBD_4" 8 x]

/-- The loop variables after the run on `sampleHeap x` when the key-pose filter
rejects the second set. -/
def sampleRejected (g : RefineGlobals K) (x : K) : LoopState K :=
  { set :=
      { v_obs2 := [sampleFrame "RGBD_1" 5 x, sampleFrame "RGBD_2" 6 x,
          sampleFrame "RGBD_3" 7 x, sampleFrame "RGBD_4" 8 x]
        v_obs2_indices := [4, 5, 6, 7]
        v_obs_loaded := [false, false, false, false] }
    v_obs := [sampleFrame "RGBD_1" 1 0, sampleFrame "RGBD_2" 2 0, sampleFrame "RGBD_3" 3 0,
      sampleFrame "RGBD_4" 4 0]
    v_obsToDelete := [4, 5, 6, 7]
    first := false
    v_3DRangeScans := sampleHeap x
    globals := g
    keyPoseCalls := 1
    refineCalls := 0 }

/-- The loop variables during the run on `sampleHeap x` before any set is
rejected or registered: the slots, their indices and flags, the reference and
the flag `first`. -/
def sampleState (g : RefineGlobals K) (x : K) (v2 : List (T3DRangeScan K)) (idx : List Nat)
    (ld : List Bool) (ref : List (T3DRangeScan K)) (first : Bool) : LoopState K :=
  { set := ⟨v2, idx, ld⟩
    v_obs := ref
    v_obsToDelete := []
    first := first
    v_3DRangeScans := sampleHeap x
    globals := g
    keyPoseCalls := 0
    refineCalls := 0 }

/-- A sample registration library: poses compose by adding their coordinates
(the composition of poses without rotation), `Align3D` gives the translation
by 1 along x with goodness 99 for a frame of RGBD_1 and the translation by 5
with goodness 50 for any other frame, and GICP gives the translation by 7 with
fitness score 2. -/
def sampleLib : Registration K :=
  { compose := fun a b =>
      ⟨a.x + b.x, a.y + b.y, a.z + b.z, a.yaw + b.yaw, a.pitch + b.pitch, a.roll + b.roll⟩
    align3D := fun cur _ =>
      if cur.map CObservation3DRangeScan.sensorLabel = ["RGBD_1"] then (⟨1, 0, 0, 0, 0, 0⟩, 99)
      else (⟨5, 0, 0, 0, 0, 0⟩, 50)
    pointsOf := fun l => List.replicate (100 * l.length) (0, 0, 0)
    gicp := fun _ _ => (⟨7, 0, 0, 0, 0, 0⟩, 2)
    cropHull := fun c _ _ => c }

/-- A sample `v_3DRangeScans`: frames labelled RGBD_1, RGBD_1, RGBD_3, RGBD_2,
RGBD_4, RGBD_1 at ticks 1 to 6. -/
def sampleScans : List (T3DRangeScan ℚ) :=
  [T3DRangeScan.ofObs ⟨"RGBD_1", 1, ⟨0, 0, 0, 0, 0, 0⟩⟩,
   T3DRangeScan.ofObs ⟨"RGBD_1", 2, ⟨0, 0, 0, 0, 0, 0⟩⟩,
   T3DRangeScan.ofObs ⟨"RGBD_3", 3, ⟨0, 0, 0, 0, 0, 0⟩⟩,
   T3DRangeScan.ofObs ⟨"RGBD_2", 4, ⟨0, 0, 0, 0, 0, 0⟩⟩,
   T3DRangeScan.ofObs ⟨"RGBD_4", 5, ⟨0, 0, 0, 0, 0, 0⟩⟩,
   T3DRangeScan.ofObs ⟨"RGBD_1", 6, ⟨0, 0, 0, 0, 0, 0⟩⟩]

/-- The timestamps of the 2D scans of a rawlog, in order. -/
def scanTimes (rawlog : List (CObservation K)) : List TTimeStamp :=
  rawlog.filterMap fun o =>
    match o with
    | .scan2D sc => some sc.timestamp
    | .range3D _ => none

/-- The timestamps of the accepted robot poses, in order. -/
def robotTimes (s : State K) : List TTimeStamp :=
  s.v_robotPoses.map TRobotPose.time

/-- A sample library in which no hull has a point inside another hull: the
cropping gives no point; ICP moves the frames along x by the number of
observations in its reference map, with goodness 99. -/
def isolatedLib : Registration K :=
  { compose := fun a b =>
      ⟨a.x + b.x, a.y + b.y, a.z + b.z, a.yaw + b.yaw, a.pitch + b.pitch, a.roll + b.roll⟩
    align3D := fun _ ref => (⟨(ref.length : K), 0, 0, 0, 0, 0⟩, 99)
    pointsOf := fun l => List.replicate (100 * l.length) (0, 0, 0)
    gicp := fun _ old => (⟨(old.length : K), 0, 0, 0, 0, 0⟩, 2)
    cropHull := fun _ _ _ => [] }

/-- A sample rawlog of 3D frames only: the frames of `sampleHeap x`, from four
RGBD sensors. -/
def sampleRawlog3D (x : K) : List (CObservation K) :=
  (sampleHeap x).map fun f => .range3D f.obs

/-- A sample rawlog: an accepted scan at tick 1, a frame at 2, a scan at 3,
a frame at 4. -/
def sampleRawlog2D : List (CObservation K) :=
  [.scan2D ⟨"LASER", 1, []⟩, .range3D ⟨"RGBD_1", 2, ⟨0, 0, 0, 0, 0, 0⟩⟩,
    .scan2D ⟨"LASER", 3, []⟩, .range3D ⟨"RGBD_1", 4, ⟨0, 0, 0, 0, 0, 0⟩⟩]

/-- A sample 2D aligner: it returns its initial guess, with goodness 50 for a
scan at tick 3 and 90 for any other. -/
def sampleAligner : Aligner K :=
  fun guess sc => (guess, if sc.timestamp = 3 then 50 else 90)

/-- A sample located frame at the origin turned by `yaw`. -/
def turnedFrame (label : String) (t : TTimeStamp) (yaw : K) : T3DRangeScan K :=
  T3DRangeScan.ofObs ⟨label, t, ⟨0, 0, 0, yaw, 0, 0⟩⟩

/-- A sample `v_3DRangeScans` of two sets of four frames at the origin: the
first set with yaw 0, the second turned by `yaw`. -/
def turnedHeap (yaw : K) : List (T3DRangeScan K) :=
  [sampleFrame "RGBD_1" 1 0, sampleFrame "RGBD_2" 2 0, sampleFrame "RGBD_3" 3 0,
   sampleFrame "RGBD_4" 4 0, turnedFrame "RGBD_1" 5 yaw, turnedFrame "RGBD_2" 6 yaw,
   turnedFrame "RGBD_3" 7 yaw, turnedFrame "RGBD_4" 8 yaw]

/-- The loop variables of the run on `turnedHeap yaw` before the turn for the
index 7: the first set is the reference and three frames of the second set are
loaded. -/
def turnedState (g : RefineGlobals K) (yaw : K) : LoopState K :=
  { set :=
      { v_obs2 := [turnedFrame "RGBD_1" 5 yaw, turnedFrame "RGBD_2" 6 yaw,
          turnedFrame "RGBD_3" 7 yaw, sampleFrame "RGBD_4" 4 0]
        v_obs2_indices := [4, 5, 6, 3]
        v_obs_loaded := [true, true, true, false] }
    v_obs := [sampleFrame "RGBD_1" 1 0, sampleFrame "RGBD_2" 2 0, sampleFrame "RGBD_3" 3 0,
      sampleFrame "RGBD_4" 4 0]
    v_obsToDelete := []
    first := false
    v_3DRangeScans := turnedHeap yaw
    globals := g
    keyPoseCalls := 0
    refineCalls := 0 }

end Defs

/-! ## Angles: wrapping -/

section AngleLemmas

variable {K : Type} [LinearOrderedField K] [FloorRing K]

theorem wrapToPi_of_inPiRange (env : MathEnv K) (hpi : 0 < env.pi) (a : K)
    (h : InPiRange env a) : wrapToPi env a = a := by
  obtain ⟨h1, h2⟩ := h
  have h2pi : 0 < 2 * env.pi := by linarith
  have hq0 : 0 ≤ (a + env.pi) / (2 * env.pi) := div_nonneg (by linarith) h2pi.le
  have hq1 : (a + env.pi) / (2 * env.pi) < 1 := by
    rw [div_lt_one h2pi]; linarith
  have hfl : ⌊(a + env.pi) / (2 * env.pi)⌋ = 0 := Int.floor_eq_zero_iff.mpr ⟨hq0, hq1⟩
  unfold wrapToPi wrapTo2Pi fmod
  rw [if_neg (by linarith), if_pos hq0, hfl]
  simp

omit [FloorRing K] in
theorem SameAngle.refl (env : MathEnv K) (a : K) : SameAngle env a a :=
  ⟨0, by simp⟩

omit [FloorRing K] in
theorem SameAngle.symm {env : MathEnv K} {a b : K} (h : SameAngle env a b) :
    SameAngle env b a := by
  obtain ⟨k, hk⟩ := h
  exact ⟨-k, by rw [hk]; push_cast; ring⟩

omit [FloorRing K] in
theorem SameAngle.trans {env : MathEnv K} {a b c : K} (h1 : SameAngle env a b)
    (h2 : SameAngle env b c) : SameAngle env a c := by
  obtain ⟨k, hk⟩ := h1
  obtain ⟨l, hl⟩ := h2
  exact ⟨k + l, by rw [hk, hl]; push_cast; ring⟩

end AngleLemmas

/-! ## processPending3DRangeScans: the interpolated pose -/

section Interpolation

variable {K : Type} [LinearOrderedField K] [FloorRing K]

omit [FloorRing K] in
theorem timeDifference_self (t : TTimeStamp) : (timeDifference t t : K) = 0 := by
  simp [timeDifference]

omit [FloorRing K] in
theorem timeDifference_pos {t1 t2 : TTimeStamp} (h : t1 < t2) :
    (0 : K) < timeDifference t1 t2 := by
  unfold timeDifference
  apply div_pos _ (by norm_num)
  have : (0 : ℤ) < (t2 : ℤ) - (t1 : ℤ) := Int.sub_pos.mpr (Int.ofNat_lt.mpr h)
  exact_mod_cast this

theorem poseToSum_real_x (rp1 rp2 : TRobotPose ℝ) (t : TTimeStamp) :
    (poseToSum (MathEnv.mk Real.cos Real.sin Real.pi toFloat32) rp1 rp2 t).x =
      rp1.pose.x + interpolationFactor rp1 rp2 t * (rp2.pose.x - rp1.pose.x) := by
  simp only [poseToSum, CPose2D.compose, CPose2D.make, CPose2D.inverseCompose]
  linear_combination
    (interpolationFactor rp1 rp2 t * (rp2.pose.x - rp1.pose.x)) *
      Real.cos_sq_add_sin_sq rp1.pose.phi

theorem poseToSum_real_y (rp1 rp2 : TRobotPose ℝ) (t : TTimeStamp) :
    (poseToSum (MathEnv.mk Real.cos Real.sin Real.pi toFloat32) rp1 rp2 t).y =
      rp1.pose.y + interpolationFactor rp1 rp2 t * (rp2.pose.y - rp1.pose.y) := by
  simp only [poseToSum, CPose2D.compose, CPose2D.make, CPose2D.inverseCompose]
  linear_combination
    (interpolationFactor rp1 rp2 t * (rp2.pose.y - rp1.pose.y)) *
      Real.cos_sq_add_sin_sq rp1.pose.phi

theorem processPending_of_two (env : MathEnv K) (s : State K) (pre : List (TRobotPose K))
    (rp1 rp2 : TRobotPose K) (hs : s.v_robotPoses = pre ++ [rp1, rp2]) :
    processPending3DRangeScans env s =
      { s with
        v_3DRangeScans :=
          s.v_3DRangeScans ++ s.v_pending3DRangeScans.map (locatePending env rp1 rp2)
        v_pending3DRangeScans := [] } := by
  obtain ⟨ip, rps, scans, pend, sens, traj⟩ := s
  simp only at hs
  subst hs
  have hlen : 1 < (pre ++ [rp1, rp2]).length := by simp
  simp only [processPending3DRangeScans, dif_pos hlen]
  have h1 : (pre ++ [rp1, rp2]).get ⟨(pre ++ [rp1, rp2]).length - 2, by omega⟩ = rp1 := by
    simp [List.getElem_append_right]
  have h2 : (pre ++ [rp1, rp2]).get ⟨(pre ++ [rp1, rp2]).length - 1, by omega⟩ = rp2 := by
    simp [List.getElem_append_right]
  rw [h1, h2]

end Interpolation

/-! ## Interpolation of the pending frames -/

section InterpolationClaims

/-- C2 (interpolation linearity): for `rp1.time < rp2.time` and a frame whose
time is `t1 + f * (t2 - t1)`, the interpolation factor is `f` and the x, y
position of `poseToSum` is `p1.xy + f * (p2.xy - p1.xy)`, whatever the yaw of
the two poses. -/
theorem poseToSum_linear (rp1 rp2 : TRobotPose ℝ) (obs : CObservation3DRangeScan ℝ) (f : ℝ)
    (ht : rp1.time < rp2.time)
    (hf : (obs.timestamp : ℝ) = (rp1.time : ℝ) + f * ((rp2.time : ℝ) - (rp1.time : ℝ))) :
    interpolationFactor rp1 rp2 obs.timestamp = f ∧
      (poseToSum (MathEnv.mk Real.cos Real.sin Real.pi toFloat32) rp1 rp2 obs.timestamp).x =
        rp1.pose.x + f * (rp2.pose.x - rp1.pose.x) ∧
      (poseToSum (MathEnv.mk Real.cos Real.sin Real.pi toFloat32) rp1 rp2 obs.timestamp).y =
        rp1.pose.y + f * (rp2.pose.y - rp1.pose.y) := by
  have hfac : interpolationFactor rp1 rp2 obs.timestamp = f := by
    have hpos := timeDifference_pos (K := ℝ) ht
    unfold interpolationFactor
    rw [div_eq_iff hpos.ne.symm]
    unfold timeDifference
    push_cast
    rw [hf]
    ring
  exact ⟨hfac, by rw [poseToSum_real_x, hfac], by rw [poseToSum_real_y, hfac]⟩

/-- Witness of C2: poses `(0,0,1)` at tick 0 and `(2,4,3)` at tick 10, a frame
at tick 5, factor one half. -/
theorem poseToSum_linear_witness :
    interpolationFactor (K := ℝ) ⟨0, ⟨0, 0, 1⟩, 95⟩ ⟨10, ⟨2, 4, 3⟩, 90⟩ 5 = 1 / 2 ∧
      (poseToSum (MathEnv.mk Real.cos Real.sin Real.pi toFloat32) ⟨0, ⟨0, 0, 1⟩, 95⟩ ⟨10, ⟨2, 4, 3⟩, 90⟩ 5).x = 0 + 1 / 2 * (2 - 0) ∧
      (poseToSum (MathEnv.mk Real.cos Real.sin Real.pi toFloat32) ⟨0, ⟨0, 0, 1⟩, 95⟩ ⟨10, ⟨2, 4, 3⟩, 90⟩ 5).y = 0 + 1 / 2 * (4 - 0) :=
  poseToSum_linear ⟨0, ⟨0, 0, 1⟩, 95⟩ ⟨10, ⟨2, 4, 3⟩, 90⟩ ⟨"RGBD_1", 5, ⟨0, 0, 0, 0, 0, 0⟩⟩
    (1 / 2) (by decide) (by norm_num)

end InterpolationClaims

/-! ## The 2D trajectory loop -/

section TrajectoryLoop

variable {K : Type} [LinearOrderedField K] [FloorRing K]

theorem processPending_few (env : MathEnv K) (s : State K) (h : s.v_robotPoses.length < 2) :
    processPending3DRangeScans env s = { s with v_pending3DRangeScans := [] } := by
  have h' : ¬ 1 < s.v_robotPoses.length := by omega
  simp only [processPending3DRangeScans, dif_neg h']

theorem processPending_frame (env : MathEnv K) (s : State K) :
    (processPending3DRangeScans env s).initialPose = s.initialPose ∧
      (processPending3DRangeScans env s).v_robotPoses = s.v_robotPoses ∧
      (processPending3DRangeScans env s).RGBD_sensors = s.RGBD_sensors ∧
      (processPending3DRangeScans env s).trajectoryFile = s.trajectoryFile ∧
      (processPending3DRangeScans env s).v_pending3DRangeScans = [] := by
  unfold processPending3DRangeScans
  by_cases h : 1 < s.v_robotPoses.length
  · simp only [dif_pos h, and_self]
  · simp only [dif_neg h, and_self]

theorem mainStep_scan_accept (env : MathEnv K) (icp : Aligner K) (s : State K)
    (obs2D : CObservation2DRangeScan K) (h : (icp s.initialPose obs2D).2 > 80) :
    mainStep env icp s (.scan2D obs2D) =
      if s.v_pending3DRangeScans = [] then
        { s with
          initialPose := (icp s.initialPose obs2D).1
          trajectoryFile := s.trajectoryFile ++ [(icp s.initialPose obs2D).1]
          v_robotPoses := s.v_robotPoses ++
            [⟨obs2D.timestamp, (icp s.initialPose obs2D).1, (icp s.initialPose obs2D).2⟩] }
      else
        processPending3DRangeScans env
          { s with
            initialPose := (icp s.initialPose obs2D).1
            trajectoryFile := s.trajectoryFile ++ [(icp s.initialPose obs2D).1]
            v_robotPoses := s.v_robotPoses ++
              [⟨obs2D.timestamp, (icp s.initialPose obs2D).1, (icp s.initialPose obs2D).2⟩] } := by
  by_cases hp : s.v_pending3DRangeScans = []
  · simp [mainStep, trajectoryICP2D, h, hp]
  · simp [mainStep, trajectoryICP2D, h, hp]

theorem mainStep_scan_reject (env : MathEnv K) (icp : Aligner K) (s : State K)
    (obs2D : CObservation2DRangeScan K) (h : ¬ (icp s.initialPose obs2D).2 > 80) :
    mainStep env icp s (.scan2D obs2D) =
      { s with
        initialPose := (icp s.initialPose obs2D).1
        trajectoryFile := s.trajectoryFile ++ [(icp s.initialPose obs2D).1]
        v_pending3DRangeScans := [] } := by
  simp [mainStep, trajectoryICP2D, h]

theorem mainLoopFrom_cons (env : MathEnv K) (icp : Aligner K) (s : State K)
    (o : CObservation K) (rest : List (CObservation K)) :
    mainLoopFrom env icp s (o :: rest) = mainLoopFrom env icp (mainStep env icp s o) rest :=
  rfl

theorem mainLoopFrom_append (env : MathEnv K) (icp : Aligner K) (s : State K)
    (l1 l2 : List (CObservation K)) :
    mainLoopFrom env icp s (l1 ++ l2) = mainLoopFrom env icp (mainLoopFrom env icp s l1) l2 := by
  simp [mainLoopFrom, List.foldl_append]

theorem wrapToPi_real_zero : wrapToPi (MathEnv.mk Real.cos Real.sin Real.pi toFloat32) 0 = 0 :=
  wrapToPi_of_inPiRange _ Real.pi_pos 0
    ⟨neg_nonpos.mpr Real.pi_pos.le, Real.pi_pos⟩

theorem mainStep_robotPoses (env : MathEnv K) (icp : Aligner K) (s : State K)
    (obs2D : CObservation2DRangeScan K) :
    (mainStep env icp s (.scan2D obs2D)).v_robotPoses =
      if (icp s.initialPose obs2D).2 > 80 then
        s.v_robotPoses ++
          [⟨obs2D.timestamp, (icp s.initialPose obs2D).1, (icp s.initialPose obs2D).2⟩]
      else s.v_robotPoses := by
  by_cases h : (icp s.initialPose obs2D).2 > 80
  · rw [mainStep_scan_accept env icp s obs2D h, if_pos h]
    split_ifs
    · rfl
    · rw [(processPending_frame env _).2.1]
  · rw [mainStep_scan_reject env icp s obs2D h, if_neg h]

theorem mainStep_trajectoryFile (env : MathEnv K) (icp : Aligner K) (s : State K)
    (obs2D : CObservation2DRangeScan K) :
    (mainStep env icp s (.scan2D obs2D)).trajectoryFile =
      s.trajectoryFile ++ [(icp s.initialPose obs2D).1] := by
  by_cases h : (icp s.initialPose obs2D).2 > 80
  · rw [mainStep_scan_accept env icp s obs2D h]
    split_ifs
    · rfl
    · rw [(processPending_frame env _).2.2.2.1]
  · rw [mainStep_scan_reject env icp s obs2D h]

theorem mainStep_initialPose (env : MathEnv K) (icp : Aligner K) (s : State K)
    (obs2D : CObservation2DRangeScan K) :
    (mainStep env icp s (.scan2D obs2D)).initialPose = (icp s.initialPose obs2D).1 := by
  by_cases h : (icp s.initialPose obs2D).2 > 80
  · rw [mainStep_scan_accept env icp s obs2D h]
    split_ifs
    · rfl
    · rw [(processPending_frame env _).1]
  · rw [mainStep_scan_reject env icp s obs2D h]

theorem mainStep_robotTimes (env : MathEnv K) (icp : Aligner K) (s : State K)
    (o : CObservation K) :
    ∃ l, List.Sublist l (scanTimes [o]) ∧ robotTimes (mainStep env icp s o) = robotTimes s ++ l := by
  cases o with
  | scan2D obs2D =>
    by_cases h : (icp s.initialPose obs2D).2 > 80
    · refine ⟨[obs2D.timestamp], by simp [scanTimes], ?_⟩
      simp [robotTimes, mainStep_robotPoses, h]
    · refine ⟨[], by simp, ?_⟩
      simp [robotTimes, mainStep_robotPoses, h]
  | range3D obs3D =>
    refine ⟨[], by simp, ?_⟩
    simp only [robotTimes, mainStep, List.append_nil]
    split_ifs <;> rfl

omit [LinearOrderedField K] [FloorRing K] in
theorem scanTimes_cons (o : CObservation K) (rest : List (CObservation K)) :
    scanTimes (o :: rest) = scanTimes [o] ++ scanTimes rest := by
  cases o <;> simp [scanTimes]

theorem mainLoopFrom_robotTimes (env : MathEnv K) (icp : Aligner K)
    (rawlog : List (CObservation K)) (s : State K) :
    ∃ l, List.Sublist l (scanTimes rawlog) ∧
      robotTimes (mainLoopFrom env icp s rawlog) = robotTimes s ++ l := by
  induction rawlog generalizing s with
  | nil => exact ⟨[], by simp [scanTimes], by simp [mainLoopFrom]⟩
  | cons o rest ih =>
    obtain ⟨l1, hl1, h1⟩ := mainStep_robotTimes env icp s o
    obtain ⟨l2, hl2, h2⟩ := ih (mainStep env icp s o)
    refine ⟨l1 ++ l2, ?_, ?_⟩
    · rw [scanTimes_cons]; exact hl1.append hl2
    · rw [mainLoopFrom_cons, h2, h1, List.append_assoc]

omit [LinearOrderedField K] [FloorRing K] in
theorem scanTimes_sublist_timestamps (rawlog : List (CObservation K)) :
    List.Sublist (scanTimes rawlog) (rawlog.map CObservation.timestamp) := by
  induction rawlog with
  | nil => simp [scanTimes]
  | cons o rest ih =>
    rw [scanTimes_cons, List.map_cons]
    cases o with
    | scan2D sc => simpa [scanTimes, CObservation.timestamp] using ih
    | range3D fr =>
      simpa [scanTimes] using ih.trans (List.sublist_cons_self _ _)

theorem mainLoopFrom_trajectoryFile_length (env : MathEnv K) (icp : Aligner K)
    (rawlog : List (CObservation K)) (s : State K) :
    (mainLoopFrom env icp s rawlog).trajectoryFile.length =
        s.trajectoryFile.length + (scanTimes rawlog).length ∧
      (mainLoopFrom env icp s rawlog).v_robotPoses.length ≤
        s.v_robotPoses.length + (scanTimes rawlog).length := by
  induction rawlog generalizing s with
  | nil => simp [mainLoopFrom, scanTimes]
  | cons o rest ih =>
    obtain ⟨ih1, ih2⟩ := ih (mainStep env icp s o)
    rw [mainLoopFrom_cons, scanTimes_cons, List.length_append, ih1]
    cases o with
    | scan2D obs2D =>
      have hp : (mainStep env icp s (.scan2D obs2D)).v_robotPoses.length ≤
          s.v_robotPoses.length + 1 := by
        rw [mainStep_robotPoses]; split_ifs <;> simp
      rw [mainStep_trajectoryFile]
      simp only [scanTimes, List.filterMap_cons, List.filterMap_nil, List.length_append,
        List.length_singleton, List.length_cons, List.length_nil] at *
      constructor <;> omega
    | range3D obs3D =>
      have h1 : (mainStep env icp s (.range3D obs3D)).trajectoryFile = s.trajectoryFile := by
        simp only [mainStep]; split_ifs <;> rfl
      have h2 : (mainStep env icp s (.range3D obs3D)).v_robotPoses = s.v_robotPoses := by
        simp only [mainStep]; split_ifs <;> rfl
      rw [h1]
      rw [h2] at ih2
      simp only [scanTimes, List.filterMap_cons, List.filterMap_nil, List.length_nil] at *
      constructor <;> omega

end TrajectoryLoop

/-! ## The 2D trajectory loop: the accept gate and the buffers -/

section TrajectoryClaims

variable {K : Type} [LinearOrderedField K] [FloorRing K]

/-- C3 (end-to-end scenario): on the rawlog of a 2D scan accepted with pose `p1`,
one 3D frame and a 2D scan accepted with pose `p2`, the loop leaves exactly that
frame in `v_3DRangeScans`, with the interpolated pose; for `p1 = (0,0,0)` at 0 s,
`p2 = (1,0,0)` at 1 s and a frame at 0.5 s with offset zero the pose is
`(0.5, 0, 0)` with zero z, yaw, pitch and roll. -/
theorem mainLoop_end_to_end (icp : Aligner ℝ) (sc1 sc2 : CObservation2DRangeScan ℝ)
    (fr : CObservation3DRangeScan ℝ) (p1 p2 : CPose2D ℝ) (g1 g2 : ℝ)
    (h1 : icp (State.init (MathEnv.mk Real.cos Real.sin Real.pi toFloat32)).initialPose sc1 = (p1, g1)) (hg1 : g1 > 80)
    (h2 : icp p1 sc2 = (p2, g2)) (hg2 : g2 > 80) :
    (mainLoop (MathEnv.mk Real.cos Real.sin Real.pi toFloat32) icp [.scan2D sc1, .range3D fr, .scan2D sc2]).v_3DRangeScans =
        [locatePending (MathEnv.mk Real.cos Real.sin Real.pi toFloat32) ⟨sc1.timestamp, p1, g1⟩ ⟨sc2.timestamp, p2, g2⟩ fr] ∧
      (mainLoop (MathEnv.mk Real.cos Real.sin Real.pi toFloat32) icp [.scan2D sc1, .range3D fr, .scan2D sc2]).v_pending3DRangeScans = [] ∧
      (p1 = ⟨0, 0, 0⟩ → p2 = ⟨1, 0, 0⟩ → sc1.timestamp = 0 → sc2.timestamp = 10000000 →
        fr.timestamp = 5000000 → fr.sensorPose = ⟨0, 0, 0, 0, 0, 0⟩ →
        (locatePending (MathEnv.mk Real.cos Real.sin Real.pi toFloat32) ⟨sc1.timestamp, p1, g1⟩ ⟨sc2.timestamp, p2, g2⟩ fr).obs =
          ⟨fr.sensorLabel, 5000000, ⟨1 / 2, 0, 0, 0, 0, 0⟩⟩) := by
  have hrun : mainLoop (MathEnv.mk Real.cos Real.sin Real.pi toFloat32) icp [.scan2D sc1, .range3D fr, .scan2D sc2] =
      processPending3DRangeScans (MathEnv.mk Real.cos Real.sin Real.pi toFloat32)
        { initialPose := p2
          v_robotPoses := [⟨sc1.timestamp, p1, g1⟩, ⟨sc2.timestamp, p2, g2⟩]
          v_3DRangeScans := []
          v_pending3DRangeScans := [fr]
          RGBD_sensors := [fr.sensorLabel]
          trajectoryFile := [p1, p2] } := by
    have h1' : icp (CPose2D.make (MathEnv.mk Real.cos Real.sin Real.pi toFloat32) (8 / 10) 0 0) sc1 = (p1, g1) := h1
    simp only [mainLoop, mainLoopFrom, List.foldl_cons, List.foldl_nil]
    rw [mainStep_scan_accept _ icp _ sc1 (by rw [h1]; exact hg1)]
    simp only [State.init, h1', if_true, List.nil_append]
    rw [show mainStep (MathEnv.mk Real.cos Real.sin Real.pi toFloat32) icp
        { initialPose := p1, v_robotPoses := [⟨sc1.timestamp, p1, g1⟩], v_3DRangeScans := [],
          v_pending3DRangeScans := [], RGBD_sensors := [], trajectoryFile := [p1] }
        (.range3D fr) =
        { initialPose := p1, v_robotPoses := [⟨sc1.timestamp, p1, g1⟩], v_3DRangeScans := [],
          v_pending3DRangeScans := [fr], RGBD_sensors := [fr.sensorLabel],
          trajectoryFile := [p1] } by simp [mainStep]]
    rw [mainStep_scan_accept _ icp _ sc2 (by simp only [h2]; exact hg2)]
    simp [h2]
  refine ⟨?_, ?_, ?_⟩
  · rw [hrun, processPending_of_two _ _ [] ⟨sc1.timestamp, p1, g1⟩ ⟨sc2.timestamp, p2, g2⟩ rfl]
    simp
  · rw [hrun]; exact (processPending_frame _ _).2.2.2.2
  · intro e1 e2 e3 e4 e5 e6
    subst e1 e2
    simp [locatePending, T3DRangeScan.ofObs, finalPose, poseToSum, interpolationFactor,
      timeDifference, CPose2D.compose, CPose2D.compose3D, CPose2D.make, CPose2D.inverseCompose,
      CPose3D.setFromValues, e3, e4, e5, e6, wrapToPi_real_zero]
    norm_num

/-- Witness of C3: the instance of the scenario, with an aligner that returns
`(0,0,0)` with goodness 95 for the scan stamped 0 and `(1,0,0)` with goodness 90
for any other scan. -/
theorem mainLoop_end_to_end_witness :
    (mainLoop (MathEnv.mk Real.cos Real.sin Real.pi toFloat32)
        (fun _ sc => if sc.timestamp = 0 then (⟨0, 0, 0⟩, 95) else (⟨1, 0, 0⟩, 90))
        [.scan2D ⟨"LASER", 0, []⟩, .range3D ⟨"RGBD_1", 5000000, ⟨0, 0, 0, 0, 0, 0⟩⟩,
          .scan2D ⟨"LASER", 10000000, []⟩]).v_3DRangeScans =
      [locatePending (MathEnv.mk Real.cos Real.sin Real.pi toFloat32) ⟨0, ⟨0, 0, 0⟩, 95⟩ ⟨10000000, ⟨1, 0, 0⟩, 90⟩
        ⟨"RGBD_1", 5000000, ⟨0, 0, 0, 0, 0, 0⟩⟩] ∧
    (locatePending (MathEnv.mk Real.cos Real.sin Real.pi toFloat32) ⟨0, ⟨0, 0, 0⟩, 95⟩ ⟨10000000, ⟨1, 0, 0⟩, 90⟩
        ⟨"RGBD_1", 5000000, ⟨0, 0, 0, 0, 0, 0⟩⟩).obs =
      ⟨"RGBD_1", 5000000, ⟨1 / 2, 0, 0, 0, 0, 0⟩⟩ :=
  have h := mainLoop_end_to_end
    (fun _ sc => if sc.timestamp = 0 then (⟨0, 0, 0⟩, 95) else (⟨1, 0, 0⟩, 90))
    ⟨"LASER", 0, []⟩ ⟨"LASER", 10000000, []⟩ ⟨"RGBD_1", 5000000, ⟨0, 0, 0, 0, 0, 0⟩⟩
    ⟨0, 0, 0⟩ ⟨1, 0, 0⟩ 95 90 rfl (by norm_num) rfl (by norm_num)
  ⟨h.1, h.2.2 rfl rfl rfl rfl rfl rfl⟩

/-- C4 (accept gate): for a 2D scan, the pose with the scan's timestamp, the
estimated pose and the goodness is appended to `v_robotPoses` if and only if the
goodness is strictly greater than 80; otherwise, and so for a goodness of
exactly 80, `v_robotPoses` is unchanged. -/
theorem accept_iff_goodness_gt_80 (env : MathEnv K) (icp : Aligner K) (s : State K)
    (obs2D : CObservation2DRangeScan K) :
    ((mainStep env icp s (.scan2D obs2D)).v_robotPoses =
        s.v_robotPoses ++
          [⟨obs2D.timestamp, (icp s.initialPose obs2D).1, (icp s.initialPose obs2D).2⟩] ↔
        (icp s.initialPose obs2D).2 > 80) ∧
      ((mainStep env icp s (.scan2D obs2D)).v_robotPoses = s.v_robotPoses ↔
        ¬ (icp s.initialPose obs2D).2 > 80) ∧
      ((icp s.initialPose obs2D).2 = 80 →
        (mainStep env icp s (.scan2D obs2D)).v_robotPoses = s.v_robotPoses) := by
  rw [mainStep_robotPoses]
  by_cases h : (icp s.initialPose obs2D).2 > 80
  · rw [if_pos h]
    refine ⟨⟨fun _ => h, fun _ => rfl⟩, ⟨fun e => ?_, fun hn => absurd h hn⟩, fun h80 => ?_⟩
    · simp at e
    · rw [h80] at h
      exact absurd h (lt_irrefl _)
  · rw [if_neg h]
    refine ⟨⟨fun e => ?_, fun hp => absurd hp h⟩, ⟨fun _ => h, fun _ => rfl⟩, fun _ => rfl⟩
    simp at e

/-- Witness of C4: a scan of goodness exactly 80 appends nothing. -/
theorem accept_iff_goodness_gt_80_witness :
    (mainStep (MathEnv.mk Real.cos Real.sin Real.pi toFloat32) (fun g _ => (g, 80))
        ⟨⟨0, 0, 0⟩, [], [], [], [], []⟩ (.scan2D ⟨"LASER", 0, []⟩)).v_robotPoses = [] :=
  (accept_iff_goodness_gt_80 (MathEnv.mk Real.cos Real.sin Real.pi toFloat32) (fun g _ => (g, 80))
    ⟨⟨0, 0, 0⟩, [], [], [], [], []⟩ ⟨"LASER", 0, []⟩).2.2 rfl

/-- C5 (reject drops the buffer): when a 2D scan is rejected (goodness at most
80) the pending buffer is empty afterwards, `v_robotPoses` and `v_3DRangeScans`
are unchanged by the step, and the step and every later one run as they would
had the buffer been empty before the scan: no buffered frame is appended then
or later. -/
theorem reject_discards_pending (env : MathEnv K) (icp : Aligner K) (s : State K)
    (obs2D : CObservation2DRangeScan K) (hrej : (icp s.initialPose obs2D).2 ≤ 80) :
    (mainStep env icp s (.scan2D obs2D)).v_pending3DRangeScans = [] ∧
      (mainStep env icp s (.scan2D obs2D)).v_robotPoses = s.v_robotPoses ∧
      (mainStep env icp s (.scan2D obs2D)).v_3DRangeScans = s.v_3DRangeScans ∧
      ∀ rest : List (CObservation K),
        mainLoopFrom env icp s (.scan2D obs2D :: rest) =
          mainLoopFrom env icp { s with v_pending3DRangeScans := [] } (.scan2D obs2D :: rest) := by
  have h : ¬ (icp s.initialPose obs2D).2 > 80 := not_lt.mpr hrej
  have h' : ¬ (icp ({ s with v_pending3DRangeScans := [] } : State K).initialPose obs2D).2 > 80 := h
  refine ⟨?_, ?_, ?_, fun rest => ?_⟩
  · rw [mainStep_scan_reject env icp s obs2D h]
  · rw [mainStep_scan_reject env icp s obs2D h]
  · rw [mainStep_scan_reject env icp s obs2D h]
  · rw [mainLoopFrom_cons, mainLoopFrom_cons, mainStep_scan_reject env icp s obs2D h,
      mainStep_scan_reject env icp _ obs2D h']

/-- Witness of C5: one buffered frame, a scan of goodness 50. -/
theorem reject_discards_pending_witness :
    (mainStep (MathEnv.mk Real.cos Real.sin Real.pi toFloat32) (fun g _ => (g, 50))
        ⟨⟨0, 0, 0⟩, [], [], [⟨"RGBD_1", 3, ⟨0, 0, 0, 0, 0, 0⟩⟩], ["RGBD_1"], []⟩
        (.scan2D ⟨"LASER", 5, []⟩)).v_pending3DRangeScans = [] :=
  (reject_discards_pending (MathEnv.mk Real.cos Real.sin Real.pi toFloat32) (fun g _ => (g, 50))
    ⟨⟨0, 0, 0⟩, [], [], [⟨"RGBD_1", 3, ⟨0, 0, 0, 0, 0, 0⟩⟩], ["RGBD_1"], []⟩
    ⟨"LASER", 5, []⟩ (by norm_num)).1

/-- Counterexample to C6: with one accepted pose and one pending frame,
`processPending3DRangeScans` empties the pending buffer. -/
theorem pending_not_kept_counterexample :
    (⟨⟨0, 0, 0⟩, [⟨0, ⟨0, 0, 0⟩, 95⟩], [], [⟨"RGBD_1", 3, ⟨0, 0, 0, 0, 0, 0⟩⟩], ["RGBD_1"],
        []⟩ : State ℝ).v_robotPoses.length < 2 ∧
      (processPending3DRangeScans (MathEnv.mk Real.cos Real.sin Real.pi toFloat32)
        ⟨⟨0, 0, 0⟩, [⟨0, ⟨0, 0, 0⟩, 95⟩], [], [⟨"RGBD_1", 3, ⟨0, 0, 0, 0, 0, 0⟩⟩], ["RGBD_1"],
          []⟩).v_pending3DRangeScans ≠
        [⟨"RGBD_1", 3, ⟨0, 0, 0, 0, 0, 0⟩⟩] := by
  refine ⟨by simp, ?_⟩
  rw [(processPending_frame _ _).2.2.2.2]
  simp

/-- C6, amended: when `processPending3DRangeScans` runs with fewer than two
accepted robot poses, no pending frame is pose-assigned or appended
(`v_3DRangeScans` and everything else is unchanged) and the pending buffer is
emptied: the frames are dropped. -/
theorem processPending_few_poses (env : MathEnv K) (s : State K)
    (h : s.v_robotPoses.length < 2) :
    (processPending3DRangeScans env s).v_3DRangeScans = s.v_3DRangeScans ∧
      (processPending3DRangeScans env s).v_pending3DRangeScans = [] ∧
      processPending3DRangeScans env s = { s with v_pending3DRangeScans := [] } := by
  rw [processPending_few env s h]
  exact ⟨rfl, rfl, rfl⟩

/-- Witness of C6, amended: one accepted pose, one pending frame. -/
theorem processPending_few_poses_witness :
    (processPending3DRangeScans (MathEnv.mk Real.cos Real.sin Real.pi toFloat32)
        ⟨⟨0, 0, 0⟩, [⟨0, ⟨0, 0, 0⟩, 95⟩], [], [⟨"RGBD_1", 3, ⟨0, 0, 0, 0, 0, 0⟩⟩], ["RGBD_1"],
          []⟩).v_3DRangeScans = [] :=
  (processPending_few_poses (MathEnv.mk Real.cos Real.sin Real.pi toFloat32)
    ⟨⟨0, 0, 0⟩, [⟨0, ⟨0, 0, 0⟩, 95⟩], [], [⟨"RGBD_1", 3, ⟨0, 0, 0, 0, 0, 0⟩⟩], ["RGBD_1"], []⟩
    (by decide)).1

/-- Counterexample to C7: a rawlog of one 2D scan that is rejected (goodness
50) writes one row to the trajectory file and accepts no pose. -/
theorem trajectory_rows_counterexample :
    (mainLoop (MathEnv.mk Real.cos Real.sin Real.pi toFloat32) (fun g _ => (g, 50)) [.scan2D ⟨"LASER", 0, []⟩]).trajectoryFile.length = 1 ∧
      (mainLoop (MathEnv.mk Real.cos Real.sin Real.pi toFloat32) (fun g _ => (g, 50)) [.scan2D ⟨"LASER", 0, []⟩]).v_robotPoses.length = 0 := by
  have h : ¬ ((50 : ℝ) > 80) := by norm_num
  simp only [mainLoop, mainLoopFrom, List.foldl_cons, List.foldl_nil]
  rw [mainStep_scan_reject _ _ _ _ h]
  simp [State.init]

/-- C7, amended: for every rawlog, the number of rows written to the trajectory
file equals the number of 2D scans of the rawlog, accepted or rejected, and the
number of accepted poses is at most that number. -/
theorem trajectory_rows_eq_scans (env : MathEnv K) (icp : Aligner K)
    (rawlog : List (CObservation K)) :
    (mainLoop env icp rawlog).trajectoryFile.length = (scanTimes rawlog).length ∧
      (mainLoop env icp rawlog).v_robotPoses.length ≤
        (mainLoop env icp rawlog).trajectoryFile.length := by
  obtain ⟨h1, h2⟩ := mainLoopFrom_trajectoryFile_length env icp rawlog (State.init env)
  have e1 : (State.init env).trajectoryFile.length = 0 := rfl
  have e2 : (State.init env).v_robotPoses.length = 0 := rfl
  rw [e1, zero_add] at h1
  rw [e2, zero_add] at h2
  exact ⟨h1, by rw [mainLoop, h1]; exact h2⟩

/-- Counterexample to C8: after a scan accepted with pose `(0,0,0)` and a scan
rejected with estimate `(1,2,0)`, the latest accepted pose is `(0,0,0)` but the
carried initial guess is `(1,2,0)`: the rejected scan changed it. -/
theorem initialPose_counterexample :
    (mainLoop (MathEnv.mk Real.cos Real.sin Real.pi toFloat32)
        (fun _ sc => if sc.timestamp = 0 then (⟨0, 0, 0⟩, 95) else (⟨1, 2, 0⟩, 50))
        [.scan2D ⟨"LASER", 0, []⟩, .scan2D ⟨"LASER", 5, []⟩]).v_robotPoses =
        [⟨0, ⟨0, 0, 0⟩, 95⟩] ∧
      (mainLoop (MathEnv.mk Real.cos Real.sin Real.pi toFloat32)
        (fun _ sc => if sc.timestamp = 0 then (⟨0, 0, 0⟩, 95) else (⟨1, 2, 0⟩, 50))
        [.scan2D ⟨"LASER", 0, []⟩]).initialPose = ⟨0, 0, 0⟩ ∧
      (mainLoop (MathEnv.mk Real.cos Real.sin Real.pi toFloat32)
        (fun _ sc => if sc.timestamp = 0 then (⟨0, 0, 0⟩, 95) else (⟨1, 2, 0⟩, 50))
        [.scan2D ⟨"LASER", 0, []⟩, .scan2D ⟨"LASER", 5, []⟩]).initialPose = ⟨1, 2, 0⟩ ∧
      (⟨1, 2, 0⟩ : CPose2D ℝ) ≠ ⟨0, 0, 0⟩ := by
  have h95 : (95 : ℝ) > 80 := by norm_num
  have h50 : ¬ ((50 : ℝ) > 80) := by norm_num
  refine ⟨?_, ?_, ?_, by simp⟩
  · simp only [mainLoop, mainLoopFrom, List.foldl_cons, List.foldl_nil]
    rw [mainStep_robotPoses, mainStep_robotPoses]
    simp [State.init, h95, h50]
  · simp only [mainLoop, mainLoopFrom, List.foldl_cons, List.foldl_nil]
    rw [mainStep_initialPose]
    simp
  · simp only [mainLoop, mainLoopFrom, List.foldl_cons, List.foldl_nil]
    rw [mainStep_initialPose]
    simp

/-- C8, amended: after each 2D scan is processed the carried initial guess is
the pose estimated for that scan, whether the scan was accepted or rejected;
when the scan is accepted this is the pose of the latest accepted scan (the last
entry of `v_robotPoses`). A 3D frame leaves the guess unchanged. -/
theorem initialPose_is_latest_estimate (env : MathEnv K) (icp : Aligner K) (s : State K)
    (obs2D : CObservation2DRangeScan K) (obs3D : CObservation3DRangeScan K) :
    (mainStep env icp s (.scan2D obs2D)).initialPose = (icp s.initialPose obs2D).1 ∧
      ((icp s.initialPose obs2D).2 > 80 →
        (mainStep env icp s (.scan2D obs2D)).v_robotPoses.getLast? =
          some ⟨obs2D.timestamp, (mainStep env icp s (.scan2D obs2D)).initialPose,
            (icp s.initialPose obs2D).2⟩) ∧
      (mainStep env icp s (.range3D obs3D)).initialPose = s.initialPose := by
  refine ⟨mainStep_initialPose env icp s obs2D, fun h => ?_, ?_⟩
  · rw [mainStep_robotPoses, if_pos h, mainStep_initialPose]
    simp
  · simp only [mainStep]
    split_ifs <;> rfl

/-- Witness of C8, amended: an accepted scan (goodness 95, estimate
`(1,2,0)`). -/
theorem initialPose_is_latest_estimate_witness :
    (mainStep (MathEnv.mk Real.cos Real.sin Real.pi toFloat32) (fun _ _ => (⟨1, 2, 0⟩, 95)) ⟨⟨0, 0, 0⟩, [], [], [], [], []⟩
        (.scan2D ⟨"LASER", 5, []⟩)).v_robotPoses.getLast? =
      some ⟨5, (mainStep (MathEnv.mk Real.cos Real.sin Real.pi toFloat32) (fun _ _ => (⟨1, 2, 0⟩, 95)) ⟨⟨0, 0, 0⟩, [], [], [], [], []⟩
        (.scan2D ⟨"LASER", 5, []⟩)).initialPose, 95⟩ :=
  (initialPose_is_latest_estimate (MathEnv.mk Real.cos Real.sin Real.pi toFloat32) (fun _ _ => (⟨1, 2, 0⟩, 95))
    ⟨⟨0, 0, 0⟩, [], [], [], [], []⟩ ⟨"LASER", 5, []⟩ ⟨"RGBD_1", 3, ⟨0, 0, 0, 0, 0, 0⟩⟩).2.1
    (by norm_num)

/-- Counterexample to C9: two 2D scans with the same timestamp, both accepted:
the rawlog timestamps are non-decreasing, the accepted poses have equal
timestamps, and the interpolation denominator is zero. -/
theorem robotTimes_strict_counterexample :
    List.Pairwise (fun a b => CObservation.timestamp a ≤ CObservation.timestamp b)
        ([.scan2D ⟨"LASER", 5, []⟩, .scan2D ⟨"LASER", 5, []⟩] : List (CObservation ℝ)) ∧
      robotTimes (mainLoop (MathEnv.mk Real.cos Real.sin Real.pi toFloat32) (fun g _ => (g, 90))
        [.scan2D ⟨"LASER", 5, []⟩, .scan2D ⟨"LASER", 5, []⟩]) = [5, 5] ∧
      ¬ List.Pairwise (fun a b : TTimeStamp => a < b) [5, 5] ∧
      (timeDifference 5 5 : ℝ) = 0 := by
  have h90 : (90 : ℝ) > 80 := by norm_num
  refine ⟨by simp [CObservation.timestamp], ?_, by simp, timeDifference_self 5⟩
  simp only [robotTimes, mainLoop, mainLoopFrom, List.foldl_cons, List.foldl_nil]
  rw [mainStep_robotPoses, mainStep_robotPoses]
  simp [State.init, h90]

/-- C9, amended: for every rawlog whose observation timestamps are
non-decreasing, at every point of the run the timestamps of the accepted robot
poses are non-decreasing; they are strictly increasing when the timestamps of
the 2D scans of the rawlog are strictly increasing. -/
theorem robotTimes_monotone (env : MathEnv K) (icp : Aligner K)
    (rawlog : List (CObservation K))
    (h : rawlog.Pairwise (fun a b => a.timestamp ≤ b.timestamp)) :
    ∀ pre : List (CObservation K), pre <+: rawlog →
      (robotTimes (mainLoop env icp pre)).Pairwise (fun a b => a ≤ b) ∧
      ((scanTimes rawlog).Pairwise (fun a b => a < b) →
        (robotTimes (mainLoop env icp pre)).Pairwise (fun a b => a < b)) := by
  intro pre hpre
  obtain ⟨l, hl, hrun⟩ := mainLoopFrom_robotTimes env icp pre (State.init env)
  have hl' : robotTimes (mainLoop env icp pre) = l := by
    rw [mainLoop, hrun]; simp [robotTimes, State.init]
  have hsub : List.Sublist (scanTimes pre) (scanTimes rawlog) :=
    List.Sublist.filterMap _ hpre.sublist
  have hall : List.Sublist l (scanTimes rawlog) := hl.trans hsub
  rw [hl']
  refine ⟨?_, fun hs => hs.sublist hall⟩
  have hts : (rawlog.map CObservation.timestamp).Pairwise (fun a b => a ≤ b) :=
    (List.pairwise_map).mpr h
  exact hts.sublist (hall.trans (scanTimes_sublist_timestamps rawlog))

/-- Witness of C9, amended: a scan, a frame and a scan at ticks 0, 5, 10. -/
theorem robotTimes_monotone_witness :
    (robotTimes (mainLoop (MathEnv.mk Real.cos Real.sin Real.pi toFloat32) (fun g _ => (g, 90))
        [.scan2D ⟨"LASER", 0, []⟩, .range3D ⟨"RGBD_1", 5, ⟨0, 0, 0, 0, 0, 0⟩⟩,
          .scan2D ⟨"LASER", 10, []⟩])).Pairwise (fun a b => a ≤ b) :=
  (robotTimes_monotone (MathEnv.mk Real.cos Real.sin Real.pi toFloat32) (fun g _ => (g, 90))
    [.scan2D ⟨"LASER", 0, []⟩, .range3D ⟨"RGBD_1", 5, ⟨0, 0, 0, 0, 0, 0⟩⟩,
      .scan2D ⟨"LASER", 10, []⟩]
    (by simp [CObservation.timestamp]) _ (List.prefix_refl _)).1

end TrajectoryClaims

/-! ## The four-sensor loop: forming the sets -/

section SetLemmas

variable {K : Type} [LinearOrderedField K]

theorem sensorSlot_eq_some_iff (label : String) (k : Nat) :
    sensorSlot label = some k ↔ rgbdLabels[k]? = some label := by
  unfold sensorSlot rgbdLabels
  match k with
  | 0 => split_ifs <;> simp_all [eq_comm]
  | 1 => split_ifs <;> simp_all [eq_comm]
  | 2 => split_ifs <;> simp_all [eq_comm]
  | 3 => split_ifs <;> simp_all [eq_comm]
  | k + 4 => split_ifs <;> simp

theorem sensorSlot_lt (label : String) (k : Nat) (h : sensorSlot label = some k) : k < 4 := by
  unfold sensorSlot at h
  split_ifs at h <;> simp at h <;> omega

omit [LinearOrderedField K] in
theorem loadedSum_eq_four_iff (st : SetState K) (h : st.v_obs_loaded.length = 4) :
    loadedSum st = 4 ↔ ∀ k, k < 4 → st.v_obs_loaded[k]? = some true := by
  obtain ⟨l, hl⟩ : ∃ l, st.v_obs_loaded = l := ⟨_, rfl⟩
  rw [hl] at h
  unfold loadedSum
  rw [hl]
  rcases l with _ | ⟨a, _ | ⟨b, _ | ⟨c, _ | ⟨d, _ | _⟩⟩⟩⟩ <;> simp at h
  constructor
  · intro hs k hk
    cases a <;> cases b <;> cases c <;> cases d <;> simp at hs
    interval_cases k <;> simp
  · intro hall
    have h0 := hall 0 (by omega)
    have h1 := hall 1 (by omega)
    have h2 := hall 2 (by omega)
    have h3 := hall 3 (by omega)
    simp at h0 h1 h2 h3
    subst h0 h1 h2 h3
    rfl

omit [LinearOrderedField K] in
theorem loadObs_inv (scans : List (T3DRangeScan K)) (lo n : Nat) (st : SetState K)
    (obs : T3DRangeScan K) (hinv : SetInv scans lo n st) (hobs : scans[n]? = some obs) :
    SetInv scans lo (n + 1) (loadObs st n obs) := by
  have hlo := hinv.lo_le
  unfold loadObs
  cases hk : sensorSlot obs.obs.sensorLabel with
  | none =>
    have hnot : ∀ k, ¬ LabelledAt scans n k := by
      rintro k ⟨o, ho, hl⟩
      rw [hobs] at ho
      cases ho
      have := (sensorSlot_eq_some_iff _ k).mpr hl
      rw [hk] at this
      cases this
    refine ⟨hinv.len_obs2, hinv.len_indices, hinv.len_loaded, by omega, ?_, ?_⟩
    · intro k j hk4 hj1 hj2 hlab
      by_cases hjn : j = n
      · subst hjn
        exact absurd hlab (hnot k)
      · exact hinv.loaded_of_seen k j hk4 hj1 (by omega) hlab
    · intro k hk4 hl
      obtain ⟨j, h1, h2, h3, h4, h5, h6⟩ := hinv.slot_of_loaded k hk4 hl
      refine ⟨j, h1, by omega, h3, ?_, h5, h6⟩
      intro j' hj1 hj2
      by_cases hjn : j' = n
      · subst hjn
        exact hnot k
      · exact h4 j' hj1 (by omega)
  | some k0 =>
    have hk0 : k0 < 4 := sensorSlot_lt _ _ hk
    have hlab0 : LabelledAt scans n k0 := ⟨obs, hobs, (sensorSlot_eq_some_iff _ _).mp hk⟩
    have huniq : ∀ k, LabelledAt scans n k → k = k0 := by
      rintro k ⟨o, ho, hl⟩
      rw [hobs] at ho
      cases ho
      have := (sensorSlot_eq_some_iff _ k).mpr hl
      rw [hk] at this
      exact (Option.some.inj this).symm
    refine ⟨by simp [hinv.len_obs2], by simp [hinv.len_indices], by simp [hinv.len_loaded],
      by omega, ?_, ?_⟩
    · intro k j hk4 hj1 hj2 hlab
      by_cases hkk : k = k0
      · subst hkk
        simp [List.getElem?_set, hinv.len_loaded, hk0]
      · have hjn : j ≠ n := fun e => hkk (huniq k (e ▸ hlab))
        have := hinv.loaded_of_seen k j hk4 hj1 (by omega) hlab
        simpa [List.getElem?_set, Ne.symm hkk] using this
    · intro k hk4 hl
      by_cases hkk : k = k0
      · subst hkk
        refine ⟨n, hlo, by omega, hlab0, fun j' h1 h2 => by omega, ?_, ?_⟩
        · simp [List.getElem?_set, hinv.len_obs2, hk0, hobs]
        · simp [List.getElem?_set, hinv.len_indices, hk0]
      · have hl' : st.v_obs_loaded[k]? = some true := by
          simpa [List.getElem?_set, Ne.symm hkk] using hl
        obtain ⟨j, h1, h2, h3, h4, h5, h6⟩ := hinv.slot_of_loaded k hk4 hl'
        refine ⟨j, h1, by omega, h3, ?_, ?_, ?_⟩
        · intro j' hj1 hj2 hlab
          by_cases hjn : j' = n
          · exact hkk (huniq k (hjn ▸ hlab))
          · exact h4 j' hj1 (by omega) hlab
        · simpa [List.getElem?_set, Ne.symm hkk] using h5
        · simpa [List.getElem?_set, Ne.symm hkk] using h6

omit [LinearOrderedField K] in
theorem setStep_complete (st : SetState K) (i : Nat) (obs : T3DRangeScan K)
    (h : loadedSum (loadObs st i obs) = 4) :
    setStep st i obs =
      ({ loadObs st i obs with v_obs_loaded := List.replicate 4 false }, true) := by
  simp only [setStep, if_pos h]

omit [LinearOrderedField K] in
theorem setStep_incomplete (st : SetState K) (i : Nat) (obs : T3DRangeScan K)
    (h : ¬ loadedSum (loadObs st i obs) = 4) :
    setStep st i obs = (loadObs st i obs, false) := by
  simp only [setStep, if_neg h]

theorem setStateAt_inv (scans : List (T3DRangeScan K)) :
    ∀ n, n ≤ scans.length →
      SetInv scans (segStart scans n) n (setStateAt scans n) ∧
        loadedSum (setStateAt scans n) ≠ 4 := by
  intro n
  induction n with
  | zero =>
    intro _
    refine ⟨⟨by simp [setStateAt, SetState.init], by simp [setStateAt, SetState.init],
      by simp [setStateAt, SetState.init], le_refl _, ?_, ?_⟩, ?_⟩
    · intro k j _ _ hj
      omega
    · intro k hk4 hl
      simp only [setStateAt, SetState.init, List.replicate] at hl
      interval_cases k <;> simp at hl
    · simp [setStateAt, SetState.init, loadedSum]
  | succ n ih =>
    intro hn
    obtain ⟨hinv, _⟩ := ih (by omega)
    obtain ⟨obs, hobs⟩ : ∃ obs, scans[n]? = some obs :=
      ⟨_, List.getElem?_eq_getElem (show n < scans.length by omega)⟩
    have hinv1 := loadObs_inv scans _ n _ _ hinv hobs
    by_cases hsum : loadedSum (loadObs (setStateAt scans n) n obs) = 4
    · have hst : setStateAt scans (n + 1) =
          { loadObs (setStateAt scans n) n obs with
            v_obs_loaded := List.replicate 4 false } := by
        simp only [setStateAt, hobs, setStep_complete _ _ _ hsum]
      have hseg : segStart scans (n + 1) = n + 1 := by
        simp only [segStart, completesAt, hobs, setStep_complete _ _ _ hsum, if_true]
      rw [hst, hseg]
      refine ⟨⟨hinv1.len_obs2, hinv1.len_indices, by simp, le_refl _, ?_, ?_⟩, ?_⟩
      · intro k j _ h1 h2
        omega
      · intro k hk4 hl
        simp only [List.replicate] at hl
        interval_cases k <;> simp at hl
      · simp [loadedSum]
    · have hst : setStateAt scans (n + 1) = loadObs (setStateAt scans n) n obs := by
        simp only [setStateAt, hobs, setStep_incomplete _ _ _ hsum]
      have hseg : segStart scans (n + 1) = segStart scans n := by
        simp only [segStart, completesAt, hobs, setStep_incomplete _ _ _ hsum]
        simp
      rw [hst, hseg]
      exact ⟨hinv1, hsum⟩

end SetLemmas

section SetClaims

variable {K : Type} [LinearOrderedField K]

/-- C10 (set completion): the turn for index `i` completes a set exactly when
`i` is the first index, from the index after the previous completion (or from
the start), by which a frame of each of the labels RGBD_1 .. RGBD_4 has been
seen. At completion slot `k` of `v_obs2` holds the latest frame labelled
RGBD_(k+1), `v_obs2_indices[k]` is that frame's index in `v_3DRangeScans`, and
the four flags are `false` when the next frame is read. -/
theorem set_completion (scans : List (T3DRangeScan K)) (i : Nat) (hi : i < scans.length) :
    (completesAt scans i = true ↔
        AllSeen scans (segStart scans i) i ∧
          ∀ i', segStart scans i ≤ i' → i' < i → ¬ AllSeen scans (segStart scans i) i') ∧
      (completesAt scans i = true →
        SlotsFilled scans i (setStateAt scans (i + 1)) ∧
          (setStateAt scans (i + 1)).v_obs_loaded = [false, false, false, false]) := by
  obtain ⟨hinv, hns⟩ := setStateAt_inv scans i (by omega)
  obtain ⟨obs, hobs⟩ : ∃ obs, scans[i]? = some obs := ⟨_, List.getElem?_eq_getElem hi⟩
  have hinv1 := loadObs_inv scans _ i _ _ hinv hobs
  have hcomp : completesAt scans i = true ↔
      loadedSum (loadObs (setStateAt scans i) i obs) = 4 := by
    by_cases hsum : loadedSum (loadObs (setStateAt scans i) i obs) = 4
    · simp only [completesAt, hobs, setStep_complete _ _ _ hsum, hsum]
    · simp only [completesAt, hobs, setStep_incomplete _ _ _ hsum, hsum]
      simp
  have hall : loadedSum (loadObs (setStateAt scans i) i obs) = 4 ↔
      AllSeen scans (segStart scans i) i := by
    rw [loadedSum_eq_four_iff _ hinv1.len_loaded]
    constructor
    · intro h k hk
      obtain ⟨j, h1, h2, h3, _⟩ := hinv1.slot_of_loaded k hk (h k hk)
      exact ⟨j, h1, by omega, h3⟩
    · intro h k hk
      obtain ⟨j, h1, h2, h3⟩ := h k hk
      exact hinv1.loaded_of_seen k j hk h1 (by omega) h3
  have hfirst : ∀ i', segStart scans i ≤ i' → i' < i → ¬ AllSeen scans (segStart scans i) i' := by
    intro i' _ h2 hA
    apply hns
    rw [loadedSum_eq_four_iff _ hinv.len_loaded]
    intro k hk
    obtain ⟨j, h1, hj, h3⟩ := hA k hk
    exact hinv.loaded_of_seen k j hk h1 (by omega) h3
  refine ⟨⟨fun h => ⟨hall.mp (hcomp.mp h), hfirst⟩, fun h => hcomp.mpr (hall.mpr h.1)⟩, ?_⟩
  intro h
  have hsum := hcomp.mp h
  have hst : setStateAt scans (i + 1) =
      { loadObs (setStateAt scans i) i obs with
        v_obs_loaded := List.replicate 4 false } := by
    simp only [setStateAt, hobs, setStep_complete _ _ _ hsum]
  rw [hst]
  refine ⟨?_, by simp [List.replicate]⟩
  intro k hk
  have hl := (loadedSum_eq_four_iff _ hinv1.len_loaded).mp hsum k hk
  obtain ⟨j, _, h2, h3, h4, h5, h6⟩ := hinv1.slot_of_loaded k hk hl
  exact ⟨j, by omega, h3, fun j' a b => h4 j' a (by omega), h5, h6⟩

/-- Witness of C10: in the sample the set completes at index 4, with the
slots filled from the indices 1, 3, 2 and 4. -/
theorem set_completion_witness :
    completesAt sampleScans 4 = true ∧
      (setStateAt sampleScans 5).v_obs2_indices = [1, 3, 2, 4] ∧
      SlotsFilled sampleScans 4 (setStateAt sampleScans 5) ∧
      (setStateAt sampleScans 5).v_obs_loaded = [false, false, false, false] :=
  ⟨by decide, by decide, (set_completion sampleScans 4 (by decide)).2 (by decide)⟩

end SetClaims

/-! ## The conversion to float -/

section FloatLemmas

variable {K : Type} [LinearOrderedField K] [FloorRing K]

theorem roundEven_ge_iff (y : K) (m : ℤ) :
    m ≤ roundEven y ↔ (m : K) - 1 / 2 < y ∨ ((m : K) - 1 / 2 = y ∧ m % 2 = 0) := by
  have hf1 : ((⌊y⌋ : ℤ) : K) ≤ y := Int.floor_le y
  have hf2 : y < ((⌊y⌋ : ℤ) : K) + 1 := Int.lt_floor_add_one y
  have cast_lt : ∀ a b : ℤ, (a : K) < b → a < b := fun a b h => by exact_mod_cast h
  have cast_le : ∀ a b : ℤ, a ≤ b → (a : K) ≤ b := fun a b h => by exact_mod_cast h
  unfold roundEven
  split_ifs with h1 h2 h3
  · constructor
    · intro h
      have := cast_le _ _ h
      left
      linarith
    · intro h
      have : (m : K) < ((⌊y⌋ + 1 : ℤ) : K) := by
        push_cast
        rcases h with h | ⟨h, _⟩ <;> linarith
      have := cast_lt _ _ this
      omega
  · constructor
    · intro h
      have := cast_le _ _ h
      push_cast at this
      left
      linarith
    · intro h
      have : (m : K) < ((⌊y⌋ + 2 : ℤ) : K) := by
        push_cast
        rcases h with h | ⟨h, _⟩ <;> linarith
      have := cast_lt _ _ this
      omega
  · have hy : y = ((⌊y⌋ : ℤ) : K) + 1 / 2 := by
      have := le_antisymm (not_lt.mp h2) (not_lt.mp h1)
      linarith
    constructor
    · intro h
      have := cast_le _ _ h
      left
      linarith
    · intro h
      rcases h with h | ⟨h, hev⟩
      · have : (m : K) < ((⌊y⌋ + 1 : ℤ) : K) := by
          push_cast
          linarith
        have := cast_lt _ _ this
        omega
      · have : (m : K) = ((⌊y⌋ + 1 : ℤ) : K) := by
          push_cast
          linarith
        have : m = ⌊y⌋ + 1 := by exact_mod_cast this
        omega
  · have hy : y = ((⌊y⌋ : ℤ) : K) + 1 / 2 := by
      have := le_antisymm (not_lt.mp h2) (not_lt.mp h1)
      linarith
    constructor
    · intro h
      rcases lt_or_eq_of_le h with h | h
      · have : m ≤ ⌊y⌋ := by omega
        have := cast_le _ _ this
        left
        linarith
      · right
        refine ⟨?_, by omega⟩
        rw [h]
        push_cast
        linarith
    · intro h
      have : (m : K) < ((⌊y⌋ + 2 : ℤ) : K) := by
        push_cast
        rcases h with h | ⟨h, _⟩ <;> linarith
      have := cast_lt _ _ this
      omega

theorem roundEven_of_near (y : K) (m : ℤ) (h : |y - m| < 1 / 2) : roundEven y = m := by
  rw [abs_lt] at h
  have h1 : m ≤ roundEven y := (roundEven_ge_iff y m).mpr (Or.inl (by linarith))
  have h2 : ¬ (m + 1 ≤ roundEven y) := by
    rw [roundEven_ge_iff]
    push_cast
    rintro (h3 | ⟨h3, _⟩) <;> linarith
  omega

theorem log_two_eq (x : K) (e : ℤ) (h1 : (2 : K) ^ e ≤ x) (h2 : x < (2 : K) ^ (e + 1)) :
    Int.log 2 x = e := by
  have hx : 0 < x := lt_of_lt_of_le (zpow_pos (by norm_num) e) h1
  have a1 : e ≤ Int.log 2 x := by
    rw [← Int.zpow_le_iff_le_log (by norm_num) hx]
    simpa using h1
  have a2 : Int.log 2 x < e + 1 := by
    rw [← Int.lt_zpow_iff_log_lt (by norm_num) hx]
    simpa using h2
  omega

theorem toFloat32_zero : toFloat32 (0 : K) = 0 := by
  simp [toFloat32]

theorem toFloat32_of_binade (x : K) (e : ℤ) (he : -126 ≤ e) (h1 : (2 : K) ^ e ≤ x)
    (h2 : x < (2 : K) ^ (e + 1)) :
    toFloat32 x = (roundEven (x / 2 ^ (e - 23)) : K) * 2 ^ (e - 23) := by
  have hx : 0 < x := lt_of_lt_of_le (zpow_pos (by norm_num) e) h1
  have hl := log_two_eq x e h1 h2
  simp only [toFloat32, if_neg hx.ne.symm, abs_of_pos hx, hl, max_eq_left he]

theorem toFloat32_eval (x : K) (e m : ℤ) (he : -126 ≤ e) (h1 : (2 : K) ^ e ≤ x)
    (h2 : x < (2 : K) ^ (e + 1)) (hm : |x / 2 ^ (e - 23) - m| < 1 / 2) :
    toFloat32 x = (m : K) * 2 ^ (e - 23) := by
  rw [toFloat32_of_binade x e he h1 h2, roundEven_of_near _ m hm]

theorem roundEven_le_of_le (y : K) (n : ℤ) (h : y ≤ n) : roundEven y ≤ n := by
  by_contra hc
  have h1 : n + 1 ≤ roundEven y := by omega
  rw [roundEven_ge_iff] at h1
  push_cast at h1
  rcases h1 with h1 | ⟨h1, _⟩ <;> linarith

theorem toFloat32_le_zpow (x : K) (k : ℤ) (hk : -125 ≤ k) (h0 : 0 < x) (h : x < (2 : K) ^ k) :
    toFloat32 x ≤ (2 : K) ^ k := by
  have hL : Int.log 2 x < k := by
    rw [← Int.lt_zpow_iff_log_lt (by norm_num) h0]
    simpa using h
  have he : max (Int.log 2 x) (-126) < k := max_lt hL (by omega)
  have hu : (0 : K) < 2 ^ (max (Int.log 2 x) (-126) - 23) := zpow_pos (by norm_num) _
  obtain ⟨n, hn⟩ : ∃ n : ℕ, (n : ℤ) = k - (max (Int.log 2 x) (-126) - 23) :=
    ⟨(k - (max (Int.log 2 x) (-126) - 23)).toNat, Int.toNat_of_nonneg (by omega)⟩
  have hN : (((2 : ℤ) ^ n : ℤ) : K) = (2 : K) ^ (k - (max (Int.log 2 x) (-126) - 23)) := by
    rw [← hn, zpow_natCast]
    push_cast
    rfl
  have hdiv : x / 2 ^ (max (Int.log 2 x) (-126) - 23) ≤ (((2 : ℤ) ^ n : ℤ) : K) := by
    rw [hN, show (2 : K) ^ (k - (max (Int.log 2 x) (-126) - 23)) =
      2 ^ k / 2 ^ (max (Int.log 2 x) (-126) - 23) from zpow_sub₀ (two_ne_zero) _ _]
    exact le_of_lt (div_lt_div_of_pos_right h hu)
  have hr := roundEven_le_of_le _ _ hdiv
  have hr2 : ((roundEven (x / 2 ^ (max (Int.log 2 x) (-126) - 23)) : ℤ) : K) ≤
      (((2 : ℤ) ^ n : ℤ) : K) := by exact_mod_cast hr
  simp only [toFloat32, if_neg h0.ne.symm, abs_of_pos h0]
  calc (roundEven (x / 2 ^ (max (Int.log 2 x) (-126) - 23)) : K) *
        2 ^ (max (Int.log 2 x) (-126) - 23)
      ≤ (((2 : ℤ) ^ n : ℤ) : K) * 2 ^ (max (Int.log 2 x) (-126) - 23) :=
        mul_le_mul_of_nonneg_right hr2 hu.le
    _ = (2 : K) ^ k := by
        rw [hN, ← zpow_add₀ (two_ne_zero)]
        congr 1
        omega

theorem toFloat32_ge_zpow (x : K) (k : ℤ) (hk : -126 ≤ k) (h : (2 : K) ^ k ≤ x) :
    (2 : K) ^ k ≤ toFloat32 x := by
  have h0 : 0 < x := lt_of_lt_of_le (zpow_pos (by norm_num) k) h
  have hL : k ≤ Int.log 2 x := by
    rw [← Int.zpow_le_iff_le_log (by norm_num) h0]
    simpa using h
  have hle : (2 : K) ^ Int.log 2 x ≤ x := by
    simpa using Int.zpow_log_le_self (b := 2) (by norm_num) h0
  have hu : (0 : K) < 2 ^ (Int.log 2 x - 23) := zpow_pos (by norm_num) _
  have hq : ((8388608 : ℤ) : K) ≤ x / 2 ^ (Int.log 2 x - 23) := by
    rw [le_div_iff₀ hu]
    have : ((8388608 : ℤ) : K) * 2 ^ (Int.log 2 x - 23) = (2 : K) ^ Int.log 2 x := by
      rw [zpow_sub₀ (two_ne_zero)]
      norm_num
      field_simp
    rw [this]
    exact hle
  have hr : (8388608 : ℤ) ≤ roundEven (x / 2 ^ (Int.log 2 x - 23)) :=
    (roundEven_ge_iff _ _).mpr (Or.inl (by linarith))
  have hr2 : ((8388608 : ℤ) : K) ≤ ((roundEven (x / 2 ^ (Int.log 2 x - 23)) : ℤ) : K) := by
    exact_mod_cast hr
  simp only [toFloat32, if_neg h0.ne.symm, abs_of_pos h0, max_eq_left (show -126 ≤ Int.log 2 x by omega)]
  calc (2 : K) ^ k ≤ (2 : K) ^ Int.log 2 x := zpow_le_zpow_right₀ (by norm_num) hL
    _ = ((8388608 : ℤ) : K) * 2 ^ (Int.log 2 x - 23) := by
        rw [zpow_sub₀ (two_ne_zero)]
        norm_num
        field_simp
    _ ≤ _ := mul_le_mul_of_nonneg_right hr2 hu.le

/-- For a threshold `c` between the consecutive floats `(m - 1) / 2^25` and
`m / 2^25` of the binade from 1/4 to 1/2. -/
theorem toFloat32_gt_iff (y : K) (hy : 0 ≤ y) (c : K) (m : ℤ) (hm1 : 8388608 < m)
    (hm2 : m ≤ 16777216) (hc1 : ((m : K) - 1) / 33554432 ≤ c) (hc2 : c < (m : K) / 33554432) :
    c < toFloat32 y ↔
      ((m : K) - 1 / 2 < y * 33554432 ∨ ((m : K) - 1 / 2 = y * 33554432 ∧ m % 2 = 0)) := by
  have hmK1 : (8388609 : K) ≤ m := by
    have : (8388609 : ℤ) ≤ m := by omega
    exact_mod_cast this
  have hmK2 : (m : K) ≤ 16777216 := by exact_mod_cast hm2
  have hq : (2 : K) ^ (-2 : ℤ) = 1 / 4 := by norm_num
  have hh : (2 : K) ^ (-1 : ℤ) = 1 / 2 := by norm_num
  rcases eq_or_lt_of_le hy with h0 | h0
  · subst h0
    rw [toFloat32_zero]
    constructor
    · intro h
      linarith
    · rintro (h | ⟨h, _⟩) <;> linarith
  by_cases hlo : y < 1 / 4
  · have hb := toFloat32_le_zpow y (-2) (by norm_num) h0 (by rw [hq]; exact hlo)
    rw [hq] at hb
    constructor
    · intro h
      linarith
    · rintro (h | ⟨h, _⟩) <;> linarith
  by_cases hhi : 1 / 2 ≤ y
  · have hb := toFloat32_ge_zpow y (-1) (by norm_num) (by rw [hh]; exact hhi)
    rw [hh] at hb
    constructor
    · intro _
      left
      linarith
    · intro _
      linarith
  · have hbin := toFloat32_of_binade y (-2) (by norm_num) (by rw [hq]; exact not_lt.mp hlo)
      (by
        have : (2 : K) ^ ((-2 : ℤ) + 1) = 1 / 2 := by norm_num
        rw [this]
        exact not_le.mp hhi)
    have hu : (2 : K) ^ ((-2 : ℤ) - 23) = 1 / 33554432 := by norm_num
    rw [hu] at hbin
    have hdiv : y / (1 / 33554432) = y * 33554432 := by field_simp
    rw [hdiv] at hbin
    rw [hbin, ← roundEven_ge_iff]
    constructor
    · intro h
      by_contra hn
      have : roundEven (y * 33554432) ≤ m - 1 := by omega
      have : ((roundEven (y * 33554432) : ℤ) : K) ≤ ((m - 1 : ℤ) : K) := by exact_mod_cast this
      push_cast at this
      linarith
    · intro h
      have : ((m : ℤ) : K) ≤ ((roundEven (y * 33554432) : ℤ) : K) := by exact_mod_cast h
      linarith

theorem keyPoseAngleThreshold_eq (c s : K → K) (p : K) :
    KEY_POSE_ANGLE_THRESHOLD (MathEnv.mk c s p toFloat32) = 11712707 / 33554432 := by
  have h20 : toFloat32 (20 : K) = 20 := by
    rw [toFloat32_eval 20 4 10485760 (by norm_num) (by norm_num) (by norm_num)
      (by norm_num)]
    norm_num
  have hpi : toFloat32 (314159265358979 / 100000000000000 : K) = 13176795 / 4194304 := by
    rw [toFloat32_eval _ 1 13176795 (by norm_num) (by norm_num) (by norm_num)
      (by rw [abs_lt]; constructor <;> norm_num)]
    norm_num
  have hmul : toFloat32 (20 * (13176795 / 4194304) : K) = 16470994 / 262144 := by
    rw [toFloat32_eval _ 5 16470994 (by norm_num) (by norm_num) (by norm_num)
      (by rw [abs_lt]; constructor <;> norm_num)]
    norm_num
  have hdiv : toFloat32 (16470994 / 262144 / 180 : K) = 11712707 / 33554432 := by
    rw [toFloat32_eval _ (-2) 11712707 (by norm_num) (by norm_num) (by norm_num)
      (by rw [abs_lt]; constructor <;> norm_num)]
    norm_num
  simp only [KEY_POSE_ANGLE_THRESHOLD, DEG2RAD_float, M_PIf, h20, hpi, hmul, hdiv]

theorem isKeyPose_float_iff (c s : K → K) (p : K) (sqrt : K → K) (pose lastPose : CPose3D K)
    (hs : 0 ≤ sqrt ((pose.x - lastPose.x) ^ 2 + (pose.y - lastPose.y) ^ 2)) :
    isKeyPose (MathEnv.mk c s p toFloat32) sqrt pose lastPose = true ↔
      20132659 / 67108864 ≤ sqrt ((pose.x - lastPose.x) ^ 2 + (pose.y - lastPose.y) ^ 2) ∨
        23425415 / 67108864 ≤ |pose.yaw - lastPose.yaw| := by
  have hd := toFloat32_gt_iff (sqrt ((pose.x - lastPose.x) ^ 2 + (pose.y - lastPose.y) ^ 2)) hs
    (3 / 10) 10066330 (by norm_num) (by norm_num) (by norm_num) (by norm_num)
  have ha := toFloat32_gt_iff |pose.yaw - lastPose.yaw| (abs_nonneg _)
    (11712707 / 33554432) 11712708 (by norm_num) (by norm_num) (by norm_num) (by norm_num)
  have hd2 : (3 / 10 : K) < toFloat32 (sqrt ((pose.x - lastPose.x) ^ 2 + (pose.y - lastPose.y) ^ 2)) ↔
      20132659 / 67108864 ≤ sqrt ((pose.x - lastPose.x) ^ 2 + (pose.y - lastPose.y) ^ 2) := by
    rw [hd]
    push_cast
    constructor
    · rintro (h | ⟨h, _⟩) <;> linarith
    · intro h
      rcases eq_or_lt_of_le h with h | h
      · right
        exact ⟨by linarith, by norm_num⟩
      · left
        linarith
  have ha2 : (11712707 / 33554432 : K) < toFloat32 |pose.yaw - lastPose.yaw| ↔
      23425415 / 67108864 ≤ |pose.yaw - lastPose.yaw| := by
    rw [ha]
    push_cast
    constructor
    · rintro (h | ⟨h, _⟩) <;> linarith
    · intro h
      rcases eq_or_lt_of_le h with h | h
      · right
        exact ⟨by linarith, by norm_num⟩
      · left
        linarith
  by_cases h : 20132659 / 67108864 ≤ sqrt ((pose.x - lastPose.x) ^ 2 + (pose.y - lastPose.y) ^ 2) ∨
      23425415 / 67108864 ≤ |pose.yaw - lastPose.yaw|
  · have h2 : toFloat32 (sqrt ((pose.x - lastPose.x) ^ 2 + (pose.y - lastPose.y) ^ 2)) >
        KEY_POSE_DIST_THRESHOLD ∨
        toFloat32 |pose.yaw - lastPose.yaw| > KEY_POSE_ANGLE_THRESHOLD (MathEnv.mk c s p toFloat32) := by
      rw [keyPoseAngleThreshold_eq]
      exact h.imp hd2.mpr ha2.mpr
    simp only [isKeyPose, if_pos h2]
    simp [h]
  · have h2 : ¬ (toFloat32 (sqrt ((pose.x - lastPose.x) ^ 2 + (pose.y - lastPose.y) ^ 2)) >
        KEY_POSE_DIST_THRESHOLD ∨
        toFloat32 |pose.yaw - lastPose.yaw| > KEY_POSE_ANGLE_THRESHOLD (MathEnv.mk c s p toFloat32)) := by
      rw [keyPoseAngleThreshold_eq]
      intro h3
      exact h (h3.imp hd2.mp ha2.mp)
    simp only [isKeyPose, if_neg h2]
    simp [h]

end FloatLemmas

/-! ## Key poses -/

section KeyPoseLemmas

variable {K : Type} [LinearOrderedField K]

theorem isKeyPose_eq_true_iff (env : MathEnv K) (sqrt : K → K) (pose lastPose : CPose3D K) :
    isKeyPose env sqrt pose lastPose = true ↔
      env.toFloat (sqrt ((pose.x - lastPose.x) ^ 2 + (pose.y - lastPose.y) ^ 2)) > 3 / 10 ∨
        env.toFloat |pose.yaw - lastPose.yaw| > KEY_POSE_ANGLE_THRESHOLD env := by
  by_cases h : env.toFloat (sqrt ((pose.x - lastPose.x) ^ 2 + (pose.y - lastPose.y) ^ 2)) >
      3 / 10 ∨ env.toFloat |pose.yaw - lastPose.yaw| > KEY_POSE_ANGLE_THRESHOLD env
  · simp only [isKeyPose, KEY_POSE_DIST_THRESHOLD, if_pos h]
    simp [h]
  · simp only [isKeyPose, KEY_POSE_DIST_THRESHOLD, if_neg h]
    simp [h]

theorem isKeyPose_eq_false_iff (env : MathEnv K) (sqrt : K → K) (pose lastPose : CPose3D K) :
    isKeyPose env sqrt pose lastPose = false ↔
      env.toFloat (sqrt ((pose.x - lastPose.x) ^ 2 + (pose.y - lastPose.y) ^ 2)) ≤ 3 / 10 ∧
        env.toFloat |pose.yaw - lastPose.yaw| ≤ KEY_POSE_ANGLE_THRESHOLD env := by
  rw [← Bool.not_eq_true, isKeyPose_eq_true_iff, not_or, not_lt, not_lt]

theorem planeDist_iff (R : ℝ → ℝ → Prop) (a b c d r : ℝ) :
    PlaneDist R a b c d r ↔ R (Real.sqrt ((a - c) ^ 2 + (b - d) ^ 2)) r := by
  unfold PlaneDist
  rw [EuclideanSpace.dist_eq]
  simp [Fin.sum_univ_two, Real.dist_eq, sq_abs]

theorem isKeyPose_real_iff (p q : CPose3D ℝ) :
    isKeyPose (MathEnv.mk Real.cos Real.sin Real.pi toFloat32) Real.sqrt p q = true ↔
      PlaneDist (fun a b => a ≥ b) p.x p.y q.x q.y (20132659 / 67108864) ∨
        |p.yaw - q.yaw| ≥ 23425415 / 67108864 := by
  rw [planeDist_iff]
  exact isKeyPose_float_iff Real.cos Real.sin Real.pi Real.sqrt p q (Real.sqrt_nonneg _)

theorem deg20_lt_boundary : 20 * Real.pi / 180 < (23425415 / 67108864 : ℝ) := by
  have := Real.pi_lt_d20
  norm_num at this ⊢
  linarith

theorem boundary_lt_dist : (20132659 / 67108864 : ℝ) < 3 / 10 := by norm_num

end KeyPoseLemmas

section KeyPoseClaims

end KeyPoseClaims

/-! ## The four-sensor loop: the body -/

section LoopLemmas

variable {K : Type} [LinearOrderedField K]

theorem subIndex_of_le (n c : Nat) (hc : c ≤ n) (hn : n < 2 ^ 64) (hc4 : c ≤ 4) :
    subIndex n c = n - c := by
  unfold subIndex
  norm_num at hn ⊢
  omega

theorem loopBody_incomplete (cfg : Config) (lib : Registration K) (env : MathEnv K)
    (sqrt : K → K) (s : LoopState K) (i : Nat) (obs : T3DRangeScan K)
    (hobs : s.v_3DRangeScans[i]? = some obs) (hc : (setStep s.set i obs).2 = false) :
    loopBody cfg lib env sqrt s i = some { s with set := (setStep s.set i obs).1 } := by
  simp only [loopBody, hobs, hc, if_true]

theorem loopBody_first (cfg : Config) (lib : Registration K) (env : MathEnv K)
    (sqrt : K → K) (s : LoopState K) (i : Nat) (obs : T3DRangeScan K)
    (hobs : s.v_3DRangeScans[i]? = some obs) (hc : (setStep s.set i obs).2 = true)
    (hf : s.first = true) :
    loopBody cfg lib env sqrt s i = some (seedStep s (setStep s.set i obs).1) := by
  simp [loopBody, hobs, hc, hf]

theorem loopBody_keyPoses (cfg : Config) (lib : Registration K) (env : MathEnv K)
    (sqrt : K → K) (s : LoopState K) (i : Nat) (obs : T3DRangeScan K) (t : Bool × Nat)
    (hobs : s.v_3DRangeScans[i]? = some obs) (hc : (setStep s.set i obs).2 = true)
    (hf : s.first = false) (hk : cfg.useKeyPoses = true)
    (ht : keyPoseTest env sqrt s.v_obs (setStep s.set i obs).1.v_obs2 = some t) :
    loopBody cfg lib env sqrt s i =
      if t.1 = false then some (rejectStep s (setStep s.set i obs).1 t.2)
      else registerStep cfg lib s (setStep s.set i obs).1 t.2 := by
  simp [loopBody, hobs, hc, hf, hk, ht]

theorem loopBody_noKeyPoses (cfg : Config) (lib : Registration K) (env : MathEnv K)
    (sqrt : K → K) (s : LoopState K) (i : Nat) (obs : T3DRangeScan K)
    (hobs : s.v_3DRangeScans[i]? = some obs) (hc : (setStep s.set i obs).2 = true)
    (hf : s.first = false) (hk : cfg.useKeyPoses = false) :
    loopBody cfg lib env sqrt s i = registerStep cfg lib s (setStep s.set i obs).1 0 := by
  simp [loopBody, hobs, hc, hf, hk]

theorem keyPoseTest_eq (env : MathEnv K) (sqrt : K → K) (pre : List (T3DRangeScan K))
    (o1 o2 o3 o4 n1 n2 n3 n4 : T3DRangeScan K) (hlen : pre.length + 4 < 2 ^ 64) :
    keyPoseTest env sqrt (pre ++ [o1, o2, o3, o4]) [n1, n2, n3, n4] =
      some
        (if isKeyPose env sqrt n1.obs.sensorPose o1.obs.sensorPose = false then (false, 1)
        else if isKeyPose env sqrt n2.obs.sensorPose o2.obs.sensorPose = false then (false, 2)
        else if isKeyPose env sqrt n3.obs.sensorPose o3.obs.sensorPose = false then (false, 3)
        else (isKeyPose env sqrt n4.obs.sensorPose o4.obs.sensorPose, 4)) := by
  have hl : (pre ++ [o1, o2, o3, o4]).length = pre.length + 4 := by simp
  have e4 : (pre ++ [o1, o2, o3, o4])[subIndex (pre ++ [o1, o2, o3, o4]).length 4]? = some o1 := by
    rw [hl, subIndex_of_le _ 4 (by omega) hlen (by omega),
      List.getElem?_append_right (by omega), show pre.length + 4 - 4 - pre.length = 0 by omega]
    rfl
  have e3 : (pre ++ [o1, o2, o3, o4])[subIndex (pre ++ [o1, o2, o3, o4]).length 3]? = some o2 := by
    rw [hl, subIndex_of_le _ 3 (by omega) hlen (by omega),
      List.getElem?_append_right (by omega), show pre.length + 4 - 3 - pre.length = 1 by omega]
    rfl
  have e2 : (pre ++ [o1, o2, o3, o4])[subIndex (pre ++ [o1, o2, o3, o4]).length 2]? = some o3 := by
    rw [hl, subIndex_of_le _ 2 (by omega) hlen (by omega),
      List.getElem?_append_right (by omega), show pre.length + 4 - 2 - pre.length = 2 by omega]
    rfl
  have e1 : (pre ++ [o1, o2, o3, o4])[subIndex (pre ++ [o1, o2, o3, o4]).length 1]? = some o4 := by
    rw [hl, subIndex_of_le _ 1 (by omega) hlen (by omega),
      List.getElem?_append_right (by omega), show pre.length + 4 - 1 - pre.length = 3 by omega]
    rfl
  simp only [keyPoseTest, e4, e3, e2, e1]
  simp only [List.getElem?_cons_zero, List.getElem?_cons_succ]
  split_ifs <;> rfl

theorem keyPoseTest_fst (env : MathEnv K) (sqrt : K → K) (pre : List (T3DRangeScan K))
    (o1 o2 o3 o4 n1 n2 n3 n4 : T3DRangeScan K) (hlen : pre.length + 4 < 2 ^ 64) :
    ∃ calls, 1 ≤ calls ∧ calls ≤ 4 ∧
      keyPoseTest env sqrt (pre ++ [o1, o2, o3, o4]) [n1, n2, n3, n4] =
        some
          (isKeyPose env sqrt n1.obs.sensorPose o1.obs.sensorPose &&
            isKeyPose env sqrt n2.obs.sensorPose o2.obs.sensorPose &&
            isKeyPose env sqrt n3.obs.sensorPose o3.obs.sensorPose &&
            isKeyPose env sqrt n4.obs.sensorPose o4.obs.sensorPose, calls) ∧
      (isKeyPose env sqrt n1.obs.sensorPose o1.obs.sensorPose = false → calls = 1) ∧
      ((isKeyPose env sqrt n1.obs.sensorPose o1.obs.sensorPose &&
          isKeyPose env sqrt n2.obs.sensorPose o2.obs.sensorPose &&
          isKeyPose env sqrt n3.obs.sensorPose o3.obs.sensorPose &&
          isKeyPose env sqrt n4.obs.sensorPose o4.obs.sensorPose) = true → calls = 4) := by
  rw [keyPoseTest_eq env sqrt pre o1 o2 o3 o4 n1 n2 n3 n4 hlen]
  cases h1 : isKeyPose env sqrt n1.obs.sensorPose o1.obs.sensorPose
  · exact ⟨1, by omega, by omega, by simp, fun _ => rfl, by simp⟩
  · cases h2 : isKeyPose env sqrt n2.obs.sensorPose o2.obs.sensorPose
    · exact ⟨2, by omega, by omega, by simp, by simp, by simp⟩
    · cases h3 : isKeyPose env sqrt n3.obs.sensorPose o3.obs.sensorPose
      · exact ⟨3, by omega, by omega, by simp, by simp, by simp⟩
      · exact ⟨4, by omega, by omega, by simp, by simp, by simp⟩

theorem fourSensorLoopFrom_succ (cfg : Config) (lib : Registration K) (env : MathEnv K)
    (sqrt : K → K) (n : Nat) :
    ∀ (i : Nat) (s : LoopState K),
      fourSensorLoopFrom cfg lib env sqrt i (n + 1) s =
        match fourSensorLoopFrom cfg lib env sqrt i n s with
        | none => none
        | some s1 => loopBody cfg lib env sqrt s1 (i + n) := by
  induction n with
  | zero =>
    intro i s
    simp only [fourSensorLoopFrom, Nat.add_zero]
    cases loopBody cfg lib env sqrt s i <;> rfl
  | succ n ih =>
    intro i s
    rw [fourSensorLoopFrom]
    cases h : loopBody cfg lib env sqrt s i with
    | none => simp only [fourSensorLoopFrom, h]
    | some s1 =>
      simp only []
      rw [ih (i + 1) s1]
      conv_rhs => rw [fourSensorLoopFrom]
      simp only [h]
      rw [show i + 1 + n = i + (n + 1) by omega]

theorem fourSensorLoopFrom_before_first (cfg : Config) (lib : Registration K) (env : MathEnv K)
    (sqrt : K → K) (g : RefineGlobals K) (scans : List (T3DRangeScan K)) :
    ∀ n, n ≤ scans.length → (∀ j, j < n → completesAt scans j = false) →
      fourSensorLoopFrom cfg lib env sqrt 0 n (LoopState.init g scans) =
        some { LoopState.init g scans with set := setStateAt scans n } := by
  intro n
  induction n with
  | zero =>
    intro _ _
    rfl
  | succ n ih =>
    intro hn hno
    obtain ⟨obs, hobs⟩ : ∃ obs, scans[n]? = some obs :=
      ⟨_, List.getElem?_eq_getElem (show n < scans.length by omega)⟩
    have hc := hno n (by omega)
    simp only [completesAt, hobs] at hc
    rw [fourSensorLoopFrom_succ, ih (by omega) (fun j hj => hno j (by omega))]
    simp only [Nat.zero_add]
    have hb := loopBody_incomplete cfg lib env sqrt
      { LoopState.init g scans with set := setStateAt scans n } n obs hobs hc
    rw [hb]
    simp only [setStateAt, hobs]

theorem registerStep_frame (cfg : Config) (lib : Registration K) (s s1 : LoopState K)
    (st1 : SetState K) (calls : Nat) (h : registerStep cfg lib s st1 calls = some s1) :
    s1.v_obsToDelete = s.v_obsToDelete ∧ s1.first = s.first ∧
      s1.keyPoseCalls = s.keyPoseCalls + calls := by
  unfold registerStep at h
  cases hr : registerSet cfg lib s.globals s.v_obs st1.v_obs2 with
  | none => simp [hr] at h
  | some r =>
    simp only [hr, Option.some.injEq] at h
    subst h
    exact ⟨rfl, rfl, rfl⟩

theorem registerStep_ne_rejectStep (cfg : Config) (lib : Registration K) (s : LoopState K)
    (st1 : SetState K) (c1 c2 : Nat) :
    registerStep cfg lib s st1 c1 ≠ some (rejectStep s st1 c2) := by
  intro h
  have h1 := (registerStep_frame cfg lib s _ st1 c1 h).1
  have h2 := congrArg List.length h1
  simp [rejectStep] at h2

theorem loopBody_reject_of_first (cfg : Config) (lib : Registration K) (env : MathEnv K)
    (sqrt : K → K) (s : LoopState K) (i : Nat) (obs : T3DRangeScan K)
    (pre : List (T3DRangeScan K)) (o1 o2 o3 o4 n1 n2 n3 n4 : T3DRangeScan K)
    (hobs : s.v_3DRangeScans[i]? = some obs) (hc : (setStep s.set i obs).2 = true)
    (hf : s.first = false) (hk : cfg.useKeyPoses = true)
    (hv : s.v_obs = pre ++ [o1, o2, o3, o4]) (hlen : s.v_obs.length < 2 ^ 64)
    (hv2 : (setStep s.set i obs).1.v_obs2 = [n1, n2, n3, n4])
    (h1 : isKeyPose env sqrt n1.obs.sensorPose o1.obs.sensorPose = false) :
    loopBody cfg lib env sqrt s i = some (rejectStep s (setStep s.set i obs).1 1) := by
  have hl : pre.length + 4 < 2 ^ 64 := by
    rw [hv] at hlen
    simpa using hlen
  have ht : keyPoseTest env sqrt s.v_obs (setStep s.set i obs).1.v_obs2 = some (false, 1) := by
    rw [hv, hv2, keyPoseTest_eq env sqrt pre o1 o2 o3 o4 n1 n2 n3 n4 hl, if_pos h1]
  rw [loopBody_keyPoses cfg lib env sqrt s i obs (false, 1) hobs hc hf hk ht]
  simp

theorem fourSensorLoopFrom_step (cfg : Config) (lib : Registration K) (env : MathEnv K)
    (sqrt : K → K) (s s1 : LoopState K) (i n : Nat)
    (h : loopBody cfg lib env sqrt s i = some s1) :
    fourSensorLoopFrom cfg lib env sqrt i (n + 1) s =
      fourSensorLoopFrom cfg lib env sqrt (i + 1) n s1 := by
  simp only [fourSensorLoopFrom, h]

theorem sampleHeap_run_reject (cfg : Config) (lib : Registration K) (env : MathEnv K)
    (sqrt : K → K) (g : RefineGlobals K) (x : K) (hk : cfg.useKeyPoses = true)
    (h1 : isKeyPose env sqrt ⟨x, 0, 0, 0, 0, 0⟩ ⟨0, 0, 0, 0, 0, 0⟩ = false) :
    fourSensorLoop cfg lib env sqrt g (sampleHeap x) = some (sampleRejected g x) := by
  have hlen : (sampleHeap x).length = 7 + 1 := rfl
  rw [fourSensorLoop, hlen]
  have e0 : loopBody cfg lib env sqrt
      (LoopState.init g (sampleHeap x)) 0 =
      some (sampleState g x [sampleFrame "RGBD_1" 1 0, T3DRangeScan.empty, T3DRangeScan.empty, T3DRangeScan.empty]
        [0, 0, 0, 0] [true, false, false, false]
        [] true) := rfl
  have e1 : loopBody cfg lib env sqrt
      (sampleState g x [sampleFrame "RGBD_1" 1 0, T3DRangeScan.empty, T3DRangeScan.empty, T3DRangeScan.empty]
        [0, 0, 0, 0] [true, false, false, false]
        [] true) 1 =
      some (sampleState g x [sampleFrame "RGBD_1" 1 0, sampleFrame "RGBD_2" 2 0, T3DRangeScan.empty, T3DRangeScan.empty]
        [0, 1, 0, 0] [true, true, false, false]
        [] true) := rfl
  have e2 : loopBody cfg lib env sqrt
      (sampleState g x [sampleFrame "RGBD_1" 1 0, sampleFrame "RGBD_2" 2 0, T3DRangeScan.empty, T3DRangeScan.empty]
        [0, 1, 0, 0] [true, true, false, false]
        [] true) 2 =
      some (sampleState g x [sampleFrame "RGBD_1" 1 0, sampleFrame "RGBD_2" 2 0, sampleFrame "RGBD_3" 3 0, T3DRangeScan.empty]
        [0, 1, 2, 0] [true, true, true, false]
        [] true) := rfl
  have e3 : loopBody cfg lib env sqrt
      (sampleState g x [sampleFrame "RGBD_1" 1 0, sampleFrame "RGBD_2" 2 0, sampleFrame "RGBD_3" 3 0, T3DRangeScan.empty]
        [0, 1, 2, 0] [true, true, true, false]
        [] true) 3 =
      some (sampleState g x [sampleFrame "RGBD_1" 1 0, sampleFrame "RGBD_2" 2 0, sampleFrame "RGBD_3" 3 0, sampleFrame "RGBD_4" 4 0]
        [0, 1, 2, 3] [false, false, false, false]
        [sampleFrame "RGBD_1" 1 0, sampleFrame "RGBD_2" 2 0, sampleFrame "RGBD_3" 3 0, sampleFrame "RGBD_4" 4 0] false) := rfl
  have e4 : loopBody cfg lib env sqrt
      (sampleState g x [sampleFrame "RGBD_1" 1 0, sampleFrame "RGBD_2" 2 0, sampleFrame "RGBD_3" 3 0, sampleFrame "RGBD_4" 4 0]
        [0, 1, 2, 3] [false, false, false, false]
        [sampleFrame "RGBD_1" 1 0, sampleFrame "RGBD_2" 2 0, sampleFrame "RGBD_3" 3 0, sampleFrame "RGBD_4" 4 0] false) 4 =
      some (sampleState g x [sampleFrame "RGBD_1" 5 x, sampleFrame "RGBD_2" 2 0, sampleFrame "RGBD_3" 3 0, sampleFrame "RGBD_4" 4 0]
        [4, 1, 2, 3] [true, false, false, false]
        [sampleFrame "RGBD_1" 1 0, sampleFrame "RGBD_2" 2 0, sampleFrame "RGBD_3" 3 0, sampleFrame "RGBD_4" 4 0] false) := rfl
  have e5 : loopBody cfg lib env sqrt
      (sampleState g x [sampleFrame "RGBD_1" 5 x, sampleFrame "RGBD_2" 2 0, sampleFrame "RGBD_3" 3 0, sampleFrame "RGBD_4" 4 0]
        [4, 1, 2, 3] [true, false, false, false]
        [sampleFrame "RGBD_1" 1 0, sampleFrame "RGBD_2" 2 0, sampleFrame "RGBD_3" 3 0, sampleFrame "RGBD_4" 4 0] false) 5 =
      some (sampleState g x [sampleFrame "RGBD_1" 5 x, sampleFrame "RGBD_2" 6 x, sampleFrame "RGBD_3" 3 0, sampleFrame "RGBD_4" 4 0]
        [4, 5, 2, 3] [true, true, false, false]
        [sampleFrame "RGBD_1" 1 0, sampleFrame "RGBD_2" 2 0, sampleFrame "RGBD_3" 3 0, sampleFrame "RGBD_4" 4 0] false) := rfl
  have e6 : loopBody cfg lib env sqrt
      (sampleState g x [sampleFrame "RGBD_1" 5 x, sampleFrame "RGBD_2" 6 x, sampleFrame "RGBD_3" 3 0, sampleFrame "RGBD_4" 4 0]
        [4, 5, 2, 3] [true, true, false, false]
        [sampleFrame "RGBD_1" 1 0, sampleFrame "RGBD_2" 2 0, sampleFrame "RGBD_3" 3 0, sampleFrame "RGBD_4" 4 0] false) 6 =
      some (sampleState g x [sampleFrame "RGBD_1" 5 x, sampleFrame "RGBD_2" 6 x, sampleFrame "RGBD_3" 7 x, sampleFrame "RGBD_4" 4 0]
        [4, 5, 6, 3] [true, true, true, false]
        [sampleFrame "RGBD_1" 1 0, sampleFrame "RGBD_2" 2 0, sampleFrame "RGBD_3" 3 0, sampleFrame "RGBD_4" 4 0] false) := rfl
  rw [fourSensorLoopFrom_step cfg lib env sqrt _ _ 0 7 e0,
    fourSensorLoopFrom_step cfg lib env sqrt _ _ 1 6 e1,
    fourSensorLoopFrom_step cfg lib env sqrt _ _ 2 5 e2,
    fourSensorLoopFrom_step cfg lib env sqrt _ _ 3 4 e3,
    fourSensorLoopFrom_step cfg lib env sqrt _ _ 4 3 e4,
    fourSensorLoopFrom_step cfg lib env sqrt _ _ 5 2 e5,
    fourSensorLoopFrom_step cfg lib env sqrt _ _ 6 1 e6]
  have e7 : loopBody cfg lib env sqrt
      (sampleState g x [sampleFrame "RGBD_1" 5 x, sampleFrame "RGBD_2" 6 x, sampleFrame "RGBD_3" 7 x, sampleFrame "RGBD_4" 4 0]
        [4, 5, 6, 3] [true, true, true, false]
        [sampleFrame "RGBD_1" 1 0, sampleFrame "RGBD_2" 2 0, sampleFrame "RGBD_3" 3 0, sampleFrame "RGBD_4" 4 0] false) 7 =
      some (sampleRejected g x) := by
    rw [loopBody_reject_of_first cfg lib env sqrt
      (sampleState g x [sampleFrame "RGBD_1" 5 x, sampleFrame "RGBD_2" 6 x, sampleFrame "RGBD_3" 7 x, sampleFrame "RGBD_4" 4 0]
        [4, 5, 6, 3] [true, true, true, false]
        [sampleFrame "RGBD_1" 1 0, sampleFrame "RGBD_2" 2 0, sampleFrame "RGBD_3" 3 0, sampleFrame "RGBD_4" 4 0] false)
      7 (sampleFrame "RGBD_4" 8 x) []
      (sampleFrame "RGBD_1" 1 0) (sampleFrame "RGBD_2" 2 0) (sampleFrame "RGBD_3" 3 0)
      (sampleFrame "RGBD_4" 4 0) (sampleFrame "RGBD_1" 5 x) (sampleFrame "RGBD_2" 6 x)
      (sampleFrame "RGBD_3" 7 x) (sampleFrame "RGBD_4" 8 x) rfl rfl rfl hk rfl
      (by simp [sampleState]) rfl h1]
    rfl
  rw [fourSensorLoopFrom_step cfg lib env sqrt _ _ 7 0 e7]
  rfl

theorem loopBody_register_of_all (cfg : Config) (lib : Registration K) (env : MathEnv K)
    (sqrt : K → K) (s : LoopState K) (i : Nat) (obs : T3DRangeScan K)
    (pre : List (T3DRangeScan K)) (o1 o2 o3 o4 n1 n2 n3 n4 : T3DRangeScan K)
    (hobs : s.v_3DRangeScans[i]? = some obs) (hc : (setStep s.set i obs).2 = true)
    (hf : s.first = false) (hk : cfg.useKeyPoses = true)
    (hv : s.v_obs = pre ++ [o1, o2, o3, o4]) (hlen : s.v_obs.length < 2 ^ 64)
    (hv2 : (setStep s.set i obs).1.v_obs2 = [n1, n2, n3, n4])
    (h1 : isKeyPose env sqrt n1.obs.sensorPose o1.obs.sensorPose = true)
    (h2 : isKeyPose env sqrt n2.obs.sensorPose o2.obs.sensorPose = true)
    (h3 : isKeyPose env sqrt n3.obs.sensorPose o3.obs.sensorPose = true)
    (h4 : isKeyPose env sqrt n4.obs.sensorPose o4.obs.sensorPose = true) :
    loopBody cfg lib env sqrt s i = registerStep cfg lib s (setStep s.set i obs).1 4 := by
  have hl : pre.length + 4 < 2 ^ 64 := by
    rw [hv] at hlen
    simpa using hlen
  have ht : keyPoseTest env sqrt s.v_obs (setStep s.set i obs).1.v_obs2 = some (true, 4) := by
    rw [hv, hv2, keyPoseTest_eq env sqrt pre o1 o2 o3 o4 n1 n2 n3 n4 hl]
    simp [h1, h2, h3, h4]
  rw [loopBody_keyPoses cfg lib env sqrt s i obs (true, 4) hobs hc hf hk ht]
  simp

theorem isKeyPose_real_of_lt (p q : CPose3D ℝ)
    (hd : PlaneDist (fun a b => a < b) p.x p.y q.x q.y (20132659 / 67108864))
    (ha : |p.yaw - q.yaw| < 23425415 / 67108864) :
    isKeyPose (MathEnv.mk Real.cos Real.sin Real.pi toFloat32) Real.sqrt p q = false := by
  rw [← Bool.not_eq_true, isKeyPose_real_iff, not_or]
  rw [planeDist_iff] at hd ⊢
  exact ⟨not_le.mpr hd, not_le.mpr ha⟩

theorem isKeyPose_real_of_ge (p q : CPose3D ℝ)
    (h : PlaneDist (fun a b => a ≥ b) p.x p.y q.x q.y (20132659 / 67108864) ∨
      |p.yaw - q.yaw| ≥ 23425415 / 67108864) :
    isKeyPose (MathEnv.mk Real.cos Real.sin Real.pi toFloat32) Real.sqrt p q = true :=
  (isKeyPose_real_iff p q).mpr h

theorem planeDist_axis (R : ℝ → ℝ → Prop) (x r : ℝ) (hx : 0 ≤ x) :
    PlaneDist R x 0 0 0 r ↔ R x r := by
  rw [planeDist_iff]
  simp [Real.sqrt_sq hx]

theorem isKeyPose_sample_near (x : ℝ) (h0 : 0 ≤ x) (hx : x < 20132659 / 67108864) :
    isKeyPose (MathEnv.mk Real.cos Real.sin Real.pi toFloat32) Real.sqrt ⟨x, 0, 0, 0, 0, 0⟩ ⟨0, 0, 0, 0, 0, 0⟩ = false := by
  apply isKeyPose_real_of_lt
  · exact (planeDist_axis _ x _ h0).mpr hx
  · simp only [sub_self, abs_zero]
    norm_num

theorem isKeyPose_sample_far (x : ℝ) (hx : 20132659 / 67108864 ≤ x) :
    isKeyPose (MathEnv.mk Real.cos Real.sin Real.pi toFloat32) Real.sqrt ⟨x, 0, 0, 0, 0, 0⟩ ⟨0, 0, 0, 0, 0, 0⟩ = true := by
  apply isKeyPose_real_of_ge
  exact Or.inl ((planeDist_axis _ x _ (by linarith)).mpr hx)

end LoopLemmas

section LoopClaims

variable {K : Type} [LinearOrderedField K]

/-- C11 (the seed set): the first completed set becomes the reference, whatever
its poses and whatever the configuration: after the turn that completes it
`v_obs` is the set and `first` is off; `isKeyPose` was not evaluated, no
registration function was called, and the located frames, the deletion list
and the registration globals are as at the start. The same holds for the turn
of any state in which `first` is on. -/
theorem first_set_is_seed (cfg : Config) (lib : Registration K) (env : MathEnv K)
    (sqrt : K → K) (g : RefineGlobals K) (scans : List (T3DRangeScan K)) (i : Nat)
    (hi : i < scans.length) (hc : completesAt scans i = true)
    (hfirst : ∀ j, j < i → completesAt scans j = false) :
    (∃ s1, fourSensorLoopFrom cfg lib env sqrt 0 (i + 1) (LoopState.init g scans) = some s1 ∧
        s1.v_obs = (setStateAt scans (i + 1)).v_obs2 ∧ s1.set = setStateAt scans (i + 1) ∧
        s1.first = false ∧ s1.keyPoseCalls = 0 ∧ s1.refineCalls = 0 ∧
        s1.v_3DRangeScans = scans ∧ s1.v_obsToDelete = [] ∧ s1.globals = g) ∧
      ∀ (s : LoopState K) (obs : T3DRangeScan K), s.v_3DRangeScans[i]? = some obs →
        (setStep s.set i obs).2 = true → s.first = true →
        loopBody cfg lib env sqrt s i =
          some { s with set := (setStep s.set i obs).1, v_obs := (setStep s.set i obs).1.v_obs2,
                        first := false } := by
  refine ⟨?_, fun s obs hobs hcs hf => loopBody_first cfg lib env sqrt s i obs hobs hcs hf⟩
  obtain ⟨obs, hobs⟩ : ∃ obs, scans[i]? = some obs := ⟨_, List.getElem?_eq_getElem hi⟩
  have hc' : (setStep (setStateAt scans i) i obs).2 = true := by
    simpa only [completesAt, hobs] using hc
  have hst : setStateAt scans (i + 1) = (setStep (setStateAt scans i) i obs).1 := by
    simp only [setStateAt, hobs]
  rw [fourSensorLoopFrom_succ,
    fourSensorLoopFrom_before_first cfg lib env sqrt g scans i (by omega) hfirst]
  simp only [Nat.zero_add]
  have hb := loopBody_first cfg lib env sqrt
    { LoopState.init g scans with set := setStateAt scans i } i obs hobs hc' rfl
  rw [hb, hst]
  exact ⟨_, rfl, rfl, rfl, rfl, rfl, rfl, rfl, rfl, rfl⟩

/-- C13 (the key-pose gate): with key poses on, a completed set that is not the
first goes on to registration if and only if `isKeyPose` holds for each of the
four sensors, slot `k` of the set being compared with entry `k` of the last
four entries of the reference; otherwise, and so when one sensor fails the
test, the set is rejected. -/
theorem keyPose_gate_iff (cfg : Config) (lib : Registration K) (env : MathEnv K)
    (sqrt : K → K) (s : LoopState K) (i : Nat) (obs : T3DRangeScan K)
    (pre : List (T3DRangeScan K)) (o1 o2 o3 o4 n1 n2 n3 n4 : T3DRangeScan K)
    (hobs : s.v_3DRangeScans[i]? = some obs) (hc : (setStep s.set i obs).2 = true)
    (hf : s.first = false) (hk : cfg.useKeyPoses = true)
    (hv : s.v_obs = pre ++ [o1, o2, o3, o4]) (hlen : s.v_obs.length < 2 ^ 64)
    (hv2 : (setStep s.set i obs).1.v_obs2 = [n1, n2, n3, n4]) :
    (loopBody cfg lib env sqrt s i = registerStep cfg lib s (setStep s.set i obs).1 4 ↔
        (isKeyPose env sqrt n1.obs.sensorPose o1.obs.sensorPose = true ∧
          isKeyPose env sqrt n2.obs.sensorPose o2.obs.sensorPose = true ∧
          isKeyPose env sqrt n3.obs.sensorPose o3.obs.sensorPose = true ∧
          isKeyPose env sqrt n4.obs.sensorPose o4.obs.sensorPose = true)) ∧
      ((∃ calls, loopBody cfg lib env sqrt s i =
          some (rejectStep s (setStep s.set i obs).1 calls)) ↔
        ¬ (isKeyPose env sqrt n1.obs.sensorPose o1.obs.sensorPose = true ∧
          isKeyPose env sqrt n2.obs.sensorPose o2.obs.sensorPose = true ∧
          isKeyPose env sqrt n3.obs.sensorPose o3.obs.sensorPose = true ∧
          isKeyPose env sqrt n4.obs.sensorPose o4.obs.sensorPose = true)) := by
  have hl : pre.length + 4 < 2 ^ 64 := by
    rw [hv] at hlen
    simpa using hlen
  obtain ⟨calls, _, _, ht, _, h4⟩ := keyPoseTest_fst env sqrt pre o1 o2 o3 o4 n1 n2 n3 n4 hl
  rw [← hv, ← hv2] at ht
  have hb := loopBody_keyPoses cfg lib env sqrt s i obs _ hobs hc hf hk ht
  simp only [Bool.and_eq_true, and_assoc] at h4
  by_cases hall : isKeyPose env sqrt n1.obs.sensorPose o1.obs.sensorPose = true ∧
      isKeyPose env sqrt n2.obs.sensorPose o2.obs.sensorPose = true ∧
      isKeyPose env sqrt n3.obs.sensorPose o3.obs.sensorPose = true ∧
      isKeyPose env sqrt n4.obs.sensorPose o4.obs.sensorPose = true
  · have hreg : loopBody cfg lib env sqrt s i =
        registerStep cfg lib s (setStep s.set i obs).1 4 := by
      rw [hb, h4 hall]
      simp [hall.1, hall.2.1, hall.2.2.1, hall.2.2.2]
    refine ⟨⟨fun _ => hall, fun _ => hreg⟩, ⟨fun ⟨c, hcz⟩ => ?_, fun hn => absurd hall hn⟩⟩
    rw [hreg] at hcz
    exact absurd hcz (registerStep_ne_rejectStep cfg lib s _ 4 c)
  · have hrej : loopBody cfg lib env sqrt s i =
        some (rejectStep s (setStep s.set i obs).1 calls) := by
      rw [hb]
      have : (isKeyPose env sqrt n1.obs.sensorPose o1.obs.sensorPose &&
          isKeyPose env sqrt n2.obs.sensorPose o2.obs.sensorPose &&
          isKeyPose env sqrt n3.obs.sensorPose o3.obs.sensorPose &&
          isKeyPose env sqrt n4.obs.sensorPose o4.obs.sensorPose) = false := by
        rw [← Bool.not_eq_true]
        simpa only [Bool.and_eq_true, and_assoc] using hall
      simp [this]
    refine ⟨⟨fun hreg => ?_, fun h => absurd h hall⟩, ⟨fun _ => hall, fun _ => ⟨calls, hrej⟩⟩⟩
    rw [hrej] at hreg
    exact absurd hreg.symm (registerStep_ne_rejectStep cfg lib s _ 4 calls)

/-- Witness of C11: on the sample frames the first set completes at index 3. -/
theorem first_set_is_seed_witness :
    ∃ s1, fourSensorLoopFrom { useKeyPoses := true } sampleLib (MathEnv.mk Real.cos Real.sin Real.pi toFloat32) Real.sqrt 0 (3 + 1)
        (LoopState.init RefineGlobals.init (sampleHeap (1 : ℝ))) = some s1 ∧
      s1.v_obs = (setStateAt (sampleHeap (1 : ℝ)) (3 + 1)).v_obs2 ∧
      s1.set = setStateAt (sampleHeap (1 : ℝ)) (3 + 1) ∧
      s1.first = false ∧ s1.keyPoseCalls = 0 ∧ s1.refineCalls = 0 ∧
      s1.v_3DRangeScans = sampleHeap (1 : ℝ) ∧ s1.v_obsToDelete = [] ∧
      s1.globals = RefineGlobals.init :=
  (first_set_is_seed { useKeyPoses := true } sampleLib (MathEnv.mk Real.cos Real.sin Real.pi toFloat32) Real.sqrt RefineGlobals.init
    (sampleHeap (1 : ℝ)) 3 (by decide) (by decide) (by decide)).1

/-- Witness of C13: the second sample set, moved by 1 along x, goes on to
registration. -/
theorem keyPose_gate_iff_witness :
    loopBody { useKeyPoses := true } sampleLib (MathEnv.mk Real.cos Real.sin Real.pi toFloat32) Real.sqrt
        (sampleState RefineGlobals.init (1 : ℝ)
          [sampleFrame "RGBD_1" 5 1, sampleFrame "RGBD_2" 6 1, sampleFrame "RGBD_3" 7 1,
            sampleFrame "RGBD_4" 4 0]
          [4, 5, 6, 3] [true, true, true, false]
          [sampleFrame "RGBD_1" 1 0, sampleFrame "RGBD_2" 2 0, sampleFrame "RGBD_3" 3 0,
            sampleFrame "RGBD_4" 4 0] false) 7 =
      registerStep { useKeyPoses := true } sampleLib
        (sampleState RefineGlobals.init (1 : ℝ)
          [sampleFrame "RGBD_1" 5 1, sampleFrame "RGBD_2" 6 1, sampleFrame "RGBD_3" 7 1,
            sampleFrame "RGBD_4" 4 0]
          [4, 5, 6, 3] [true, true, true, false]
          [sampleFrame "RGBD_1" 1 0, sampleFrame "RGBD_2" 2 0, sampleFrame "RGBD_3" 3 0,
            sampleFrame "RGBD_4" 4 0] false)
        ⟨[sampleFrame "RGBD_1" 5 1, sampleFrame "RGBD_2" 6 1, sampleFrame "RGBD_3" 7 1,
            sampleFrame "RGBD_4" 8 1], [4, 5, 6, 7], [false, false, false, false]⟩ 4 :=
  (keyPose_gate_iff { useKeyPoses := true } sampleLib (MathEnv.mk Real.cos Real.sin Real.pi toFloat32) Real.sqrt
    (sampleState RefineGlobals.init (1 : ℝ)
      [sampleFrame "RGBD_1" 5 1, sampleFrame "RGBD_2" 6 1, sampleFrame "RGBD_3" 7 1,
        sampleFrame "RGBD_4" 4 0]
      [4, 5, 6, 3] [true, true, true, false]
      [sampleFrame "RGBD_1" 1 0, sampleFrame "RGBD_2" 2 0, sampleFrame "RGBD_3" 3 0,
        sampleFrame "RGBD_4" 4 0] false)
    7 (sampleFrame "RGBD_4" 8 1) []
    (sampleFrame "RGBD_1" 1 0) (sampleFrame "RGBD_2" 2 0) (sampleFrame "RGBD_3" 3 0)
    (sampleFrame "RGBD_4" 4 0) (sampleFrame "RGBD_1" 5 1) (sampleFrame "RGBD_2" 6 1)
    (sampleFrame "RGBD_3" 7 1) (sampleFrame "RGBD_4" 8 1) rfl rfl rfl rfl rfl
    (by simp [sampleState]) rfl).1.mpr
    ⟨isKeyPose_sample_far 1 (by norm_num), isKeyPose_sample_far 1 (by norm_num),
      isKeyPose_sample_far 1 (by norm_num), isKeyPose_sample_far 1 (by norm_num)⟩

/-- Counterexample to C15: every sensor of the second set has turned by exactly
20 degrees in yaw since the first set, with no movement and key poses on, and
the set is rejected: its indices go to the deletion list, the reference stays
the first set and no registration function is called. The `float` of the angle
is below the `float` threshold. -/
theorem keyPose_yaw_boundary_counterexample :
    |(20 * Real.pi / 180 : ℝ) - 0| ≥ 20 * Real.pi / 180 ∧
      ∃ s1, loopBody { useKeyPoses := true } sampleLib (MathEnv.mk Real.cos Real.sin Real.pi toFloat32) Real.sqrt
          (turnedState RefineGlobals.init (20 * Real.pi / 180)) 7 = some s1 ∧
        s1.v_obsToDelete = [4, 5, 6, 7] ∧ s1.refineCalls = 0 ∧
        s1.v_obs = (turnedState RefineGlobals.init (20 * Real.pi / 180)).v_obs := by
  have hpos := Real.pi_pos
  have habs : |(20 * Real.pi / 180 : ℝ) - 0| = 20 * Real.pi / 180 := by
    rw [sub_zero, abs_of_pos (by positivity)]
  have h1 : isKeyPose (MathEnv.mk Real.cos Real.sin Real.pi toFloat32) Real.sqrt
      (turnedFrame "RGBD_1" 5 (20 * Real.pi / 180 : ℝ)).obs.sensorPose
      (sampleFrame "RGBD_1" 1 (0 : ℝ)).obs.sensorPose = false := by
    apply isKeyPose_real_of_lt
    · exact (planeDist_axis _ 0 _ le_rfl).mpr (by norm_num)
    · show |(20 * Real.pi / 180 : ℝ) - 0| < 23425415 / 67108864
      rw [habs]
      exact deg20_lt_boundary
  refine ⟨habs.ge, _, loopBody_reject_of_first { useKeyPoses := true } sampleLib _ _
    (turnedState RefineGlobals.init (20 * Real.pi / 180)) 7
    (turnedFrame "RGBD_4" 8 (20 * Real.pi / 180)) []
    (sampleFrame "RGBD_1" 1 0) (sampleFrame "RGBD_2" 2 0) (sampleFrame "RGBD_3" 3 0)
    (sampleFrame "RGBD_4" 4 0) (turnedFrame "RGBD_1" 5 (20 * Real.pi / 180))
    (turnedFrame "RGBD_2" 6 (20 * Real.pi / 180)) (turnedFrame "RGBD_3" 7 (20 * Real.pi / 180))
    (turnedFrame "RGBD_4" 8 (20 * Real.pi / 180)) rfl rfl rfl rfl rfl
    (by simp [turnedState]) rfl h1, rfl, rfl, rfl⟩

/-- C15, amended: with key poses on, a completed set that is not the first, in
which every sensor has moved at least 0.3 (0.3 itself included) or turned at
least 23425415 / 2^26 rad in yaw (0.34906588495, about 20.0000019 degrees, the
least angle whose `float` is above the `float` threshold) since the last four
reference entries, is accepted: the body goes on to registration after four
evaluations of `isKeyPose`. -/
theorem keyPose_accept_moved (cfg : Config) (lib : Registration ℝ) (s : LoopState ℝ)
    (i : Nat) (obs : T3DRangeScan ℝ) (pre : List (T3DRangeScan ℝ))
    (o1 o2 o3 o4 n1 n2 n3 n4 : T3DRangeScan ℝ)
    (hobs : s.v_3DRangeScans[i]? = some obs) (hc : (setStep s.set i obs).2 = true)
    (hf : s.first = false) (hk : cfg.useKeyPoses = true)
    (hv : s.v_obs = pre ++ [o1, o2, o3, o4]) (hlen : s.v_obs.length < 2 ^ 64)
    (hv2 : (setStep s.set i obs).1.v_obs2 = [n1, n2, n3, n4])
    (hmoved : ∀ p ∈ [(n1, o1), (n2, o2), (n3, o3), (n4, o4)],
      PlaneDist (fun a b => a ≥ b) p.1.obs.sensorPose.x p.1.obs.sensorPose.y
          p.2.obs.sensorPose.x p.2.obs.sensorPose.y (3 / 10) ∨
        |p.1.obs.sensorPose.yaw - p.2.obs.sensorPose.yaw| ≥ 23425415 / 67108864) :
    loopBody cfg lib (MathEnv.mk Real.cos Real.sin Real.pi toFloat32) Real.sqrt s i = registerStep cfg lib s (setStep s.set i obs).1 4 ∧
      ∀ s1, loopBody cfg lib (MathEnv.mk Real.cos Real.sin Real.pi toFloat32) Real.sqrt s i = some s1 →
        s1.v_obsToDelete = s.v_obsToDelete := by
  have hall : ∀ p ∈ [(n1, o1), (n2, o2), (n3, o3), (n4, o4)],
      isKeyPose (MathEnv.mk Real.cos Real.sin Real.pi toFloat32) Real.sqrt p.1.obs.sensorPose p.2.obs.sensorPose = true := by
    intro p hp
    apply isKeyPose_real_of_ge
    rcases hmoved p hp with h | h
    · left
      rw [planeDist_iff] at h ⊢
      exact le_trans boundary_lt_dist.le h
    · exact Or.inr h
  have hreg := loopBody_register_of_all cfg lib _ _ s i obs pre o1 o2 o3 o4 n1 n2 n3 n4
    hobs hc hf hk hv hlen hv2 (hall (n1, o1) (by simp)) (hall (n2, o2) (by simp))
    (hall (n3, o3) (by simp)) (hall (n4, o4) (by simp))
  refine ⟨hreg, fun s1 h1 => ?_⟩
  rw [hreg] at h1
  exact (registerStep_frame cfg lib s s1 _ 4 h1).1

/-- Witness of C15, amended: the second sample set, moved by exactly 0.3 along
x. -/
theorem keyPose_accept_moved_witness :
    loopBody { useKeyPoses := true } sampleLib (MathEnv.mk Real.cos Real.sin Real.pi toFloat32) Real.sqrt
        (sampleState RefineGlobals.init (3 / 10 : ℝ)
          [sampleFrame "RGBD_1" 5 (3 / 10), sampleFrame "RGBD_2" 6 (3 / 10),
            sampleFrame "RGBD_3" 7 (3 / 10), sampleFrame "RGBD_4" 4 0]
          [4, 5, 6, 3] [true, true, true, false]
          [sampleFrame "RGBD_1" 1 0, sampleFrame "RGBD_2" 2 0, sampleFrame "RGBD_3" 3 0,
            sampleFrame "RGBD_4" 4 0] false) 7 =
      registerStep { useKeyPoses := true } sampleLib
        (sampleState RefineGlobals.init (3 / 10 : ℝ)
          [sampleFrame "RGBD_1" 5 (3 / 10), sampleFrame "RGBD_2" 6 (3 / 10),
            sampleFrame "RGBD_3" 7 (3 / 10), sampleFrame "RGBD_4" 4 0]
          [4, 5, 6, 3] [true, true, true, false]
          [sampleFrame "RGBD_1" 1 0, sampleFrame "RGBD_2" 2 0, sampleFrame "RGBD_3" 3 0,
            sampleFrame "RGBD_4" 4 0] false)
        ⟨[sampleFrame "RGBD_1" 5 (3 / 10), sampleFrame "RGBD_2" 6 (3 / 10),
            sampleFrame "RGBD_3" 7 (3 / 10), sampleFrame "RGBD_4" 8 (3 / 10)], [4, 5, 6, 7],
          [false, false, false, false]⟩ 4 :=
  (keyPose_accept_moved { useKeyPoses := true } sampleLib
    (sampleState RefineGlobals.init (3 / 10 : ℝ)
      [sampleFrame "RGBD_1" 5 (3 / 10), sampleFrame "RGBD_2" 6 (3 / 10),
        sampleFrame "RGBD_3" 7 (3 / 10), sampleFrame "RGBD_4" 4 0]
      [4, 5, 6, 3] [true, true, true, false]
      [sampleFrame "RGBD_1" 1 0, sampleFrame "RGBD_2" 2 0, sampleFrame "RGBD_3" 3 0,
        sampleFrame "RGBD_4" 4 0] false)
    7 (sampleFrame "RGBD_4" 8 (3 / 10)) []
    (sampleFrame "RGBD_1" 1 0) (sampleFrame "RGBD_2" 2 0) (sampleFrame "RGBD_3" 3 0)
    (sampleFrame "RGBD_4" 4 0) (sampleFrame "RGBD_1" 5 (3 / 10)) (sampleFrame "RGBD_2" 6 (3 / 10))
    (sampleFrame "RGBD_3" 7 (3 / 10)) (sampleFrame "RGBD_4" 8 (3 / 10)) rfl rfl rfl rfl rfl
    (by simp [sampleState]) rfl
    (by
      have hd : PlaneDist (fun a b => a ≥ b) (3 / 10 : ℝ) 0 0 0 (3 / 10) :=
        (planeDist_axis _ _ _ (by norm_num)).mpr (le_refl _)
      intro p hp
      simp only [List.mem_cons, List.mem_singleton, List.not_mem_nil, or_false] at hp
      rcases hp with rfl | rfl | rfl | rfl <;> exact Or.inl hd)).1

/-- C16, at a failing input: with key poses on and the second sample set not
moved, the run records the indices 4, 5, 6, 7 in `v_obsToDelete`, and the output
loop writes all eight located frames, the four recorded ones included. -/
theorem output_keeps_rejected_frames :
    fourSensorLoop { useKeyPoses := true } sampleLib (MathEnv.mk Real.cos Real.sin Real.pi toFloat32) Real.sqrt
        RefineGlobals.init (sampleHeap (0 : ℝ)) =
      some (sampleRejected RefineGlobals.init 0) ∧
      (sampleRejected RefineGlobals.init (0 : ℝ)).v_obsToDelete = [4, 5, 6, 7] ∧
      outputRawlog (sampleRejected RefineGlobals.init (0 : ℝ)) =
        (sampleHeap (0 : ℝ)).map T3DRangeScan.obs ∧
      (outputRawlog (sampleRejected RefineGlobals.init (0 : ℝ))).length = 8 ∧
      (outputRawlog (sampleRejected RefineGlobals.init (0 : ℝ)))[4]? =
        some ⟨"RGBD_1", 5, ⟨0, 0, 0, 0, 0, 0⟩⟩ :=
  ⟨sampleHeap_run_reject _ _ _ _ _ _ rfl (isKeyPose_sample_near _ (le_refl _) (by norm_num)),
    rfl, rfl, rfl, rfl⟩

end LoopClaims


/-! ## The registration functions -/

section RefineLemmas

variable {K : Type} [LinearOrderedField K]

omit [LinearOrderedField K] in
theorem seedStage_of_guess (cfg : Config) (v_obs v_obs2 : List (T3DRangeScan K))
    (h : cfg.initialGuessICP2D = true) : seedStage cfg v_obs v_obs2 = some v_obs2 := by
  simp [seedStage, h]

theorem refineLocationICP3D_eq (cfg : Config) (lib : Registration K) (g : RefineGlobals K)
    (v_obs v_obs2 cur : List (T3DRangeScan K)) (hseed : seedStage cfg v_obs v_obs2 = some cur) :
    refineLocationICP3D cfg lib g v_obs v_obs2 =
      some
        ({ lastGoodICP3Dpose :=
            gatedMean g (lib.align3D (cur.map T3DRangeScan.obs) (v_obs.map T3DRangeScan.obs)).1
              (lib.align3D (cur.map T3DRangeScan.obs) (v_obs.map T3DRangeScan.obs)).2
           oneGoodICP3DPose := true
           v_goodness := g.v_goodness ++
            [(lib.align3D (cur.map T3DRangeScan.obs) (v_obs.map T3DRangeScan.obs)).2] },
          applyTransform lib
            (gatedMean g (lib.align3D (cur.map T3DRangeScan.obs) (v_obs.map T3DRangeScan.obs)).1
              (lib.align3D (cur.map T3DRangeScan.obs) (v_obs.map T3DRangeScan.obs)).2) cur) := by
  simp only [refineLocationICP3D, hseed]
  rfl

theorem gatedMean_low (g : RefineGlobals K) (mean : CPose3D K) (goodness : K)
    (h : goodness < 96) :
    gatedMean g mean goodness =
      if g.oneGoodICP3DPose then g.lastGoodICP3Dpose else CPose3D.zero := by
  simp only [gatedMean, if_pos h]

theorem refineLocation_icp (cfg : Config) (lib : Registration K) (g : RefineGlobals K)
    (v_obs v_obs2 : List (T3DRangeScan K)) (hm : cfg.ICP3D_method ≠ "GICP") :
    refineLocation cfg lib g v_obs v_obs2 = refineLocationICP3D cfg lib g v_obs v_obs2 := by
  simp only [refineLocation, if_neg hm]

theorem refineEach_icp_total (cfg : Config) (lib : Registration K)
    (v_obs : List (T3DRangeScan K)) (hm : cfg.ICP3D_method ≠ "GICP")
    (hg : cfg.initialGuessICP2D = true) (fs : List (T3DRangeScan K)) :
    ∀ g : RefineGlobals K, ∃ r, refineEach cfg lib v_obs g fs = some r ∧ r.2.length = fs.length := by
  induction fs with
  | nil => exact fun g => ⟨(g, []), rfl, rfl⟩
  | cons f rest ih =>
    intro g
    have h1 := refineLocationICP3D_eq cfg lib g v_obs [f] [f] (seedStage_of_guess cfg _ _ hg)
    rw [← refineLocation_icp cfg lib g v_obs [f] hm] at h1
    obtain ⟨r2, hr2, hlen⟩ := ih
      { lastGoodICP3Dpose :=
          gatedMean g (lib.align3D ([f].map T3DRangeScan.obs) (v_obs.map T3DRangeScan.obs)).1
            (lib.align3D ([f].map T3DRangeScan.obs) (v_obs.map T3DRangeScan.obs)).2
        oneGoodICP3DPose := true
        v_goodness := g.v_goodness ++
          [(lib.align3D ([f].map T3DRangeScan.obs) (v_obs.map T3DRangeScan.obs)).2] }
    have hre : refineEach cfg lib v_obs g (f :: rest) =
        some (r2.1,
          applyTransform lib
            (gatedMean g (lib.align3D ([f].map T3DRangeScan.obs) (v_obs.map T3DRangeScan.obs)).1
              (lib.align3D ([f].map T3DRangeScan.obs) (v_obs.map T3DRangeScan.obs)).2) [f] ++
            r2.2) := by
      simp only [refineEach, h1, hr2]
    exact ⟨_, hre, by simp [applyTransform, hlen]⟩

end RefineLemmas

section RefineClaims

variable {K : Type} [LinearOrderedField K]

/-- Counterexample to C20: in accumulate mode the frame of RGBD_1 is registered
with goodness 99 and the translation by 1, then the frame of RGBD_2 with
goodness 50. No transform was accepted for RGBD_2 before, yet its frame is not
left in place: it gets the transform applied for RGBD_1 and moves from 0 to 1
on the x axis. -/
theorem shared_fallback_counterexample :
    refineEach { accumulatePast := true, ICP3D_method := "ICP" } sampleLib
        [sampleFrame "RGBD_1" 1 (0 : ℝ)] RefineGlobals.init
        [sampleFrame "RGBD_1" 5 0, sampleFrame "RGBD_2" 6 0] =
      some (⟨⟨1, 0, 0, 0, 0, 0⟩, true, [99, 50]⟩,
        [sampleFrame "RGBD_1" 5 1, sampleFrame "RGBD_2" 6 1]) ∧
      (sampleLib.align3D [(sampleFrame "RGBD_2" 6 (0 : ℝ)).obs]
        [(sampleFrame "RGBD_1" 1 (0 : ℝ)).obs]).2 < 96 ∧
      sampleFrame "RGBD_2" 6 (1 : ℝ) ≠ sampleFrame "RGBD_2" 6 0 := by
  refine ⟨?_, ?_, ?_⟩
  · simp [refineEach, refineLocation, refineLocationICP3D, seedStage, gatedMean, sampleLib,
      applyTransform, sampleFrame, T3DRangeScan.ofObs, T3DRangeScan.setSensorPose,
      RefineGlobals.init, CPose3D.zero]
    norm_num
  · simp [sampleLib, sampleFrame, T3DRangeScan.ofObs]
    norm_num
  · simp [sampleFrame, T3DRangeScan.ofObs]

/-- C20, amended: the fallback transform is one global shared by all sensors.
In accumulate mode with per-sensor registration by `refineLocationICP3D` and the
2D guess on, when the call for a frame has goodness below 96 the transform
applied to it is the transform applied by the call just before it, the call for
the frame of another sensor. -/
theorem fallback_is_shared (cfg : Config) (lib : Registration K)
    (v_obs : List (T3DRangeScan K)) (g : RefineGlobals K) (f1 f2 : T3DRangeScan K)
    (rest : List (T3DRangeScan K)) (hm : cfg.ICP3D_method ≠ "GICP")
    (hg : cfg.initialGuessICP2D = true)
    (hlow : (lib.align3D [f2.obs] (v_obs.map T3DRangeScan.obs)).2 < 96) :
    ∃ g2 m1 out, refineEach cfg lib v_obs g (f1 :: f2 :: rest) =
        some (g2, f1.setSensorPose (lib.compose m1 f1.obs.sensorPose) ::
          f2.setSensorPose (lib.compose m1 f2.obs.sensorPose) :: out) ∧
      m1 = gatedMean g (lib.align3D [f1.obs] (v_obs.map T3DRangeScan.obs)).1
        (lib.align3D [f1.obs] (v_obs.map T3DRangeScan.obs)).2 ∧
      out.length = rest.length := by
  have h1 := refineLocationICP3D_eq cfg lib g v_obs [f1] [f1] (seedStage_of_guess cfg _ _ hg)
  rw [← refineLocation_icp cfg lib g v_obs [f1] hm] at h1
  have h2 := refineLocationICP3D_eq cfg lib
    { lastGoodICP3Dpose :=
        gatedMean g (lib.align3D ([f1].map T3DRangeScan.obs) (v_obs.map T3DRangeScan.obs)).1
          (lib.align3D ([f1].map T3DRangeScan.obs) (v_obs.map T3DRangeScan.obs)).2
      oneGoodICP3DPose := true
      v_goodness := g.v_goodness ++
        [(lib.align3D ([f1].map T3DRangeScan.obs) (v_obs.map T3DRangeScan.obs)).2] }
    v_obs [f2] [f2] (seedStage_of_guess cfg _ _ hg)
  rw [← refineLocation_icp cfg lib _ v_obs [f2] hm] at h2
  have hlow' : (lib.align3D ([f2].map T3DRangeScan.obs) (v_obs.map T3DRangeScan.obs)).2 < 96 :=
    hlow
  rw [gatedMean_low _ _ _ hlow'] at h2
  obtain ⟨r3, hr3, hlen⟩ := refineEach_icp_total cfg lib v_obs hm hg rest
    { lastGoodICP3Dpose :=
        gatedMean g (lib.align3D ([f1].map T3DRangeScan.obs) (v_obs.map T3DRangeScan.obs)).1
          (lib.align3D ([f1].map T3DRangeScan.obs) (v_obs.map T3DRangeScan.obs)).2
      oneGoodICP3DPose := true
      v_goodness := g.v_goodness ++
        [(lib.align3D ([f1].map T3DRangeScan.obs) (v_obs.map T3DRangeScan.obs)).2] ++
        [(lib.align3D ([f2].map T3DRangeScan.obs) (v_obs.map T3DRangeScan.obs)).2] }
  refine ⟨r3.1, _, r3.2, ?_, rfl, hlen⟩
  simp only [if_true] at h2
  simp only [refineEach, h1, h2, hr3]
  rfl

/-- Witness of C20, amended: the two sample frames of the counterexample. -/
theorem fallback_is_shared_witness :
    ∃ g2 m1 out, refineEach { accumulatePast := true, ICP3D_method := "ICP" } sampleLib
        [sampleFrame "RGBD_1" 1 (0 : ℝ)] RefineGlobals.init
        [sampleFrame "RGBD_1" 5 0, sampleFrame "RGBD_2" 6 0] =
        some (g2, (sampleFrame "RGBD_1" 5 (0 : ℝ)).setSensorPose
            (sampleLib.compose m1 (sampleFrame "RGBD_1" 5 (0 : ℝ)).obs.sensorPose) ::
          (sampleFrame "RGBD_2" 6 (0 : ℝ)).setSensorPose
            (sampleLib.compose m1 (sampleFrame "RGBD_2" 6 (0 : ℝ)).obs.sensorPose) :: out) := by
  obtain ⟨g2, m1, out, h, _, _⟩ := fallback_is_shared
    { accumulatePast := true, ICP3D_method := "ICP" } sampleLib
    [sampleFrame "RGBD_1" 1 (0 : ℝ)] RefineGlobals.init
    (sampleFrame "RGBD_1" 5 0) (sampleFrame "RGBD_2" 6 0) [] (by decide) rfl
    (by
      simp [sampleLib, sampleFrame, T3DRangeScan.ofObs]
      norm_num)
  exact ⟨g2, m1, out, h⟩

end RefineClaims

/-! ## The key-pose test as a relation, the overlap filter, the seeding block -/

section RelationLemmas

variable {K : Type} [LinearOrderedField K]

theorem overlapping_eq_true_iff (lib : Registration K) (old new : T3DRangeScan K) :
    overlapping lib old new = true ↔
      lib.cropHull new.convexHullCloud old.polygons old.convexHullCloud ≠ [] ∨
        lib.cropHull old.convexHullCloud new.polygons new.convexHullCloud ≠ [] := by
  unfold overlapping
  by_cases h1 : lib.cropHull new.convexHullCloud old.polygons old.convexHullCloud = []
  · by_cases h2 : lib.cropHull old.convexHullCloud new.polygons new.convexHullCloud = []
    · simp [h1, h2]
    · simp [h1, h2]
  · simp [h1]

omit [LinearOrderedField K] in
theorem insertDecision_eq_true_iff (lib : Registration K) (old : T3DRangeScan K)
    (cur : List (T3DRangeScan K)) :
    insertDecision lib old cur = true ↔ ∃ new ∈ cur, overlapping lib old new = true := by
  induction cur with
  | nil => simp [insertDecision]
  | cons new rest ih =>
    by_cases h : overlapping lib old new = true
    · simp [insertDecision, h]
    · simp [insertDecision, h, ih]

theorem seedIndex_of_le (nRef nCur i : Nat) (hle : nCur ≤ nRef) (hn : nRef < 2 ^ 64)
    (hi : i < nCur) : seedIndex nRef nCur i = nRef - nCur + i := by
  unfold seedIndex
  norm_num at hn ⊢
  omega

omit [LinearOrderedField K] in
theorem seedFrom_spec (v_obs : List (T3DRangeScan K)) (nCur : Nat) (hle : nCur ≤ v_obs.length)
    (hn : v_obs.length < 2 ^ 64) (rest : List (T3DRangeScan K)) :
    ∀ i, i + rest.length = nCur →
      ∃ cur, seedFrom v_obs nCur i rest = some cur ∧ cur.length = rest.length ∧
        ∀ k f, rest[k]? = some f →
          ∃ r, v_obs[v_obs.length - nCur + (i + k)]? = some r ∧
            cur[k]? = some (f.setSensorPose r.obs.sensorPose) := by
  induction rest with
  | nil => intro i _; exact ⟨[], rfl, rfl, by simp⟩
  | cons f rest ih =>
    intro i hi
    simp only [List.length_cons] at hi
    have hlt : v_obs.length - nCur + i < v_obs.length := by omega
    obtain ⟨r, hr⟩ : ∃ r, v_obs[v_obs.length - nCur + i]? = some r :=
      ⟨_, List.getElem?_eq_getElem hlt⟩
    obtain ⟨cur, hcur, hlen, hk⟩ := ih (i + 1) (by omega)
    refine ⟨f.setSensorPose r.obs.sensorPose :: cur, ?_, by simp [hlen], ?_⟩
    · simp only [seedFrom, seedIndex_of_le _ _ i hle hn (by omega), hr, hcur]
    · intro k g hg
      cases k with
      | zero =>
        simp only [List.getElem?_cons_zero, Option.some.injEq] at hg
        subst hg
        exact ⟨r, by simpa using hr, by simp⟩
      | succ k =>
        simp only [List.getElem?_cons_succ] at hg
        obtain ⟨r1, hr1, hc1⟩ := hk k g hg
        refine ⟨r1, ?_, by simpa using hc1⟩
        rw [← hr1]
        congr 1
        omega

omit [LinearOrderedField K] in
theorem seedStage_spec (cfg : Config) (v_obs v_obs2 : List (T3DRangeScan K))
    (hoff : cfg.initialGuessICP2D = false) (hle : v_obs2.length ≤ v_obs.length)
    (hn : v_obs.length < 2 ^ 64) :
    ∃ cur, seedStage cfg v_obs v_obs2 = some cur ∧ cur.length = v_obs2.length ∧
      ∀ k f, v_obs2[k]? = some f →
        ∃ r, v_obs[v_obs.length - v_obs2.length + k]? = some r ∧
          cur[k]? = some (f.setSensorPose r.obs.sensorPose) := by
  obtain ⟨cur, h1, h2, h3⟩ := seedFrom_spec v_obs v_obs2.length hle hn v_obs2 0 (by simp)
  refine ⟨cur, by simp [seedStage, hoff, h1], h2, ?_⟩
  intro k f hf
  simpa using h3 k f hf

end RelationLemmas

section RelationClaims

variable {K : Type} [LinearOrderedField K]

/-- C29 (what `isKeyPose` depends on): over the reals, for two poses with the
same x, y and yaw the function returns false whatever their z, pitch and roll,
so `isKeyPose(p, p)` is false; the value is the one for the poses with z, pitch
and roll set to zero; and `isKeyPose(p, q) = isKeyPose(q, p)`. -/
theorem isKeyPose_plane_symmetric (p q : CPose3D ℝ) (x y yaw z1 pitch1 roll1 z2 pitch2 roll2 : ℝ) :
    isKeyPose (MathEnv.mk Real.cos Real.sin Real.pi toFloat32) Real.sqrt ⟨x, y, z1, yaw, pitch1, roll1⟩ ⟨x, y, z2, yaw, pitch2, roll2⟩ = false ∧
      isKeyPose (MathEnv.mk Real.cos Real.sin Real.pi toFloat32) Real.sqrt p p = false ∧
      isKeyPose (MathEnv.mk Real.cos Real.sin Real.pi toFloat32) Real.sqrt p q =
        isKeyPose (MathEnv.mk Real.cos Real.sin Real.pi toFloat32) Real.sqrt ⟨p.x, p.y, 0, p.yaw, 0, 0⟩ ⟨q.x, q.y, 0, q.yaw, 0, 0⟩ ∧
      isKeyPose (MathEnv.mk Real.cos Real.sin Real.pi toFloat32) Real.sqrt p q = isKeyPose (MathEnv.mk Real.cos Real.sin Real.pi toFloat32) Real.sqrt q p := by
  have hsame : ∀ a b : CPose3D ℝ, a.x = b.x → a.y = b.y → a.yaw = b.yaw →
      isKeyPose (MathEnv.mk Real.cos Real.sin Real.pi toFloat32) Real.sqrt a b = false := by
    intro a b hx hy hyaw
    apply isKeyPose_real_of_lt
    · rw [planeDist_iff, hx, hy]
      simp only [sub_self]
      norm_num
    · rw [hyaw, sub_self, abs_zero]
      norm_num
  refine ⟨hsame _ _ rfl rfl rfl, hsame _ _ rfl rfl rfl, rfl, ?_⟩
  · rw [Bool.eq_iff_iff, isKeyPose_eq_true_iff, isKeyPose_eq_true_iff, abs_sub_comm p.yaw q.yaw,
      show (p.x - q.x) ^ 2 = (q.x - p.x) ^ 2 by ring,
      show (p.y - q.y) ^ 2 = (q.y - p.y) ^ 2 by ring]

/-- C22 (the overlap filter of `refineLocationGICP3D`): with `useOverlappingObs`
on, the frames inserted into the target map are the reference frames, in their
order, for which some frame of the current set has hull points inside the hull
of the reference frame or the reference frame has hull points inside the hull of
that frame; with the filter off every reference frame is inserted; and the test
of two frames gives the same value with the two frames swapped. -/
theorem overlap_filter_iff (cfg : Config) (lib : Registration K)
    (v_obs cur : List (T3DRangeScan K)) (a b : T3DRangeScan K) :
    (referenceFrames { cfg with useOverlappingObs := true } lib v_obs cur =
        v_obs.filter fun old => insertDecision lib old cur) ∧
      (∀ old, insertDecision lib old cur = true ↔
        ∃ new ∈ cur,
          lib.cropHull new.convexHullCloud old.polygons old.convexHullCloud ≠ [] ∨
            lib.cropHull old.convexHullCloud new.polygons new.convexHullCloud ≠ []) ∧
      (∀ old, old ∈ referenceFrames { cfg with useOverlappingObs := true } lib v_obs cur ↔
        old ∈ v_obs ∧ ∃ new ∈ cur,
          lib.cropHull new.convexHullCloud old.polygons old.convexHullCloud ≠ [] ∨
            lib.cropHull old.convexHullCloud new.polygons new.convexHullCloud ≠ []) ∧
      referenceFrames { cfg with useOverlappingObs := false } lib v_obs cur = v_obs ∧
      overlapping lib a b = overlapping lib b a := by
  have hins : ∀ old, insertDecision lib old cur = true ↔
      ∃ new ∈ cur,
        lib.cropHull new.convexHullCloud old.polygons old.convexHullCloud ≠ [] ∨
          lib.cropHull old.convexHullCloud new.polygons new.convexHullCloud ≠ [] := by
    intro old
    rw [insertDecision_eq_true_iff]
    constructor
    · rintro ⟨new, hm, h⟩
      exact ⟨new, hm, (overlapping_eq_true_iff lib old new).mp h⟩
    · rintro ⟨new, hm, h⟩
      exact ⟨new, hm, (overlapping_eq_true_iff lib old new).mpr h⟩
  refine ⟨by simp [referenceFrames], hins, ?_, by simp [referenceFrames], ?_⟩
  · intro old
    simp only [referenceFrames, Bool.not_true, Bool.false_eq_true, if_false, List.mem_filter]
    rw [hins]
  · rw [Bool.eq_iff_iff, overlapping_eq_true_iff, overlapping_eq_true_iff, or_comm]

/-- C28 (the seeding block of the registration functions): with the 2D guess off
and a reference of a length below `2^64` that is at least as long as the current
set, the block gives frames `cur` of the same number in which frame `k` is frame
`k` of the current set with the pose of the reference entry
`|reference| - |current| + k`; for a current set of one frame that is the pose of
the last reference entry; both registration functions go on with `cur`. With the
2D guess on the frames are unchanged. -/
theorem seeding_pose_index (cfg : Config) (lib : Registration K) (g : RefineGlobals K)
    (v_obs v_obs2 : List (T3DRangeScan K))
    (hle : v_obs2.length ≤ v_obs.length) (hn : v_obs.length < 2 ^ 64) :
    (∃ cur, seedStage { cfg with initialGuessICP2D := false } v_obs v_obs2 = some cur ∧
        cur.length = v_obs2.length ∧
        (∀ k f, v_obs2[k]? = some f →
          ∃ r, v_obs[v_obs.length - v_obs2.length + k]? = some r ∧
            cur[k]? = some (f.setSensorPose r.obs.sensorPose)) ∧
        (∀ f, v_obs2 = [f] →
          ∃ r, v_obs.getLast? = some r ∧ cur = [f.setSensorPose r.obs.sensorPose]) ∧
        (∃ g1 m, refineLocationICP3D { cfg with initialGuessICP2D := false } lib g v_obs v_obs2 =
          some (g1, applyTransform lib m cur)) ∧
        (∃ g1, refineLocationGICP3D { cfg with initialGuessICP2D := false } lib g v_obs v_obs2 =
            some (g1, cur) ∨
          ∃ m, refineLocationGICP3D { cfg with initialGuessICP2D := false } lib g v_obs v_obs2 =
            some (g1, applyTransform lib m cur))) ∧
      seedStage { cfg with initialGuessICP2D := true } v_obs v_obs2 = some v_obs2 := by
  refine ⟨?_, seedStage_of_guess _ v_obs v_obs2 rfl⟩
  obtain ⟨cur, hs, hlen, hk⟩ := seedStage_spec { cfg with initialGuessICP2D := false }
    v_obs v_obs2 rfl hle hn
  refine ⟨cur, hs, hlen, hk, ?_, ⟨_, _, refineLocationICP3D_eq _ lib g v_obs v_obs2 cur hs⟩, ?_⟩
  · intro f hf
    subst hf
    obtain ⟨r, hr, hc⟩ := hk 0 f rfl
    refine ⟨r, ?_, ?_⟩
    · rw [List.getLast?_eq_getElem?, ← hr]
      simp
    · match cur, hlen, hc with
      | [c], _, hc => simpa using hc
  · unfold refineLocationGICP3D
    rw [hs]
    dsimp only
    by_cases hsmall : (lib.pointsOf (cur.map T3DRangeScan.obs)).length < 100
    · rw [if_pos hsmall]
      exact ⟨g, Or.inl rfl⟩
    · rw [if_neg hsmall]
      exact ⟨_, Or.inr ⟨_, rfl⟩⟩

/-- Witness of C28: the reference ends with a frame of RGBD_2 at 4 on the x axis
and the current set is one frame of RGBD_1 at 9: the frame is moved to 4. -/
theorem seeding_pose_index_witness :
    seedStage { initialGuessICP2D := false }
        [sampleFrame "RGBD_1" 1 (0 : ℚ), sampleFrame "RGBD_2" 2 4] [sampleFrame "RGBD_1" 5 9] =
      some [sampleFrame "RGBD_1" 5 4] := by
  obtain ⟨cur, hs, _, _, h1, _⟩ := (seeding_pose_index {} sampleLib RefineGlobals.init
    [sampleFrame "RGBD_1" 1 (0 : ℚ), sampleFrame "RGBD_2" 2 4] [sampleFrame "RGBD_1" 5 9]
    (by decide) (by simp)).1
  obtain ⟨r, hr, hc⟩ := h1 _ rfl
  simp only [List.getLast?, List.getLast, Option.some.injEq] at hr
  subst hr
  rw [hs, hc]
  rfl

/-- C23 (the overlap filter and the ICP backend): `refineLocationICP3D` gives
the same result with `useOverlappingObs` on and off, for every input. On the
sample with a library in which no hulls overlap and the filter on, GICP inserts
no reference frame into its target map, while ICP aligns to a reference map of
both reference frames: its transform, the translation by the number of
observations in that map, moves the frame from 0 to 2. -/
theorem icp3D_ignores_overlap_filter (cfg : Config) (lib : Registration K) (g : RefineGlobals K)
    (v_obs v_obs2 : List (T3DRangeScan K)) :
    refineLocationICP3D { cfg with useOverlappingObs := true } lib g v_obs v_obs2 =
        refineLocationICP3D { cfg with useOverlappingObs := false } lib g v_obs v_obs2 ∧
      referenceFrames { useOverlappingObs := true, ICP3D_method := "GICP" } isolatedLib
          [sampleFrame "RGBD_1" 1 (0 : ℚ), sampleFrame "RGBD_2" 2 0] [sampleFrame "RGBD_1" 5 0] =
        [] ∧
      refineLocationGICP3D { useOverlappingObs := true, ICP3D_method := "GICP" } isolatedLib
          RefineGlobals.init
          [sampleFrame "RGBD_1" 1 (0 : ℚ), sampleFrame "RGBD_2" 2 0] [sampleFrame "RGBD_1" 5 0] =
        some (⟨⟨0, 0, 0, 0, 0, 0⟩, false, [2]⟩, [sampleFrame "RGBD_1" 5 0]) ∧
      refineLocationICP3D { useOverlappingObs := true, ICP3D_method := "ICP" } isolatedLib
          RefineGlobals.init
          [sampleFrame "RGBD_1" 1 (0 : ℚ), sampleFrame "RGBD_2" 2 0] [sampleFrame "RGBD_1" 5 0] =
        some (⟨⟨2, 0, 0, 0, 0, 0⟩, true, [99]⟩, [sampleFrame "RGBD_1" 5 2]) := by
  refine ⟨rfl, by decide, ?_, ?_⟩
  · simp [refineLocationGICP3D, seedStage, referenceFrames, insertDecision, overlapping,
      isolatedLib, applyTransform, sampleFrame, T3DRangeScan.ofObs, T3DRangeScan.setSensorPose,
      RefineGlobals.init, CPose3D.zero]
  · simp [refineLocationICP3D, seedStage, gatedMean, isolatedLib, applyTransform,
      sampleFrame, T3DRangeScan.ofObs, T3DRangeScan.setSensorPose, RefineGlobals.init,
      CPose3D.zero]
    norm_num

end RelationClaims

/-! ## The command line and the sensor lookup of process_rawlog -/

section CommandLineLemmas

theorem parseStep_recognised (st : ArgsState) (b : String) (h : b ∈ recognisedFlags) :
    ∃ cfg1 m, parseStep st b = (⟨cfg1, st.out ++ [.info m]⟩, none) := by
  simp only [recognisedFlags, List.mem_cons, List.mem_singleton, List.not_mem_nil, or_false] at h
  rcases h with rfl | rfl | rfl | rfl | rfl | rfl | rfl <;> exact ⟨_, _, rfl⟩

theorem parseStep_help (st : ArgsState) :
    parseStep st "-h" = (⟨st.cfg, st.out ++ [.usage]⟩, some 0) := rfl

theorem parseStep_unknown (st : ArgsState) (a : String) (hh : a ≠ "-h")
    (h : a ∉ recognisedFlags) :
    parseStep st a = (⟨st.cfg, st.out ++ [.unknownParameter a, .usage]⟩, some (-1)) := by
  simp only [recognisedFlags, List.mem_cons, List.mem_singleton, List.not_mem_nil, or_false,
    not_or] at h
  obtain ⟨h1, h2, h3, h4, h5, h6, h7⟩ := h
  simp only [parseStep, if_neg h1, if_neg h2, if_neg h3, if_neg h4, if_neg h5, if_neg h6,
    if_neg h7, if_neg hh]

theorem parseLoop_recognised (pre : List String) (hpre : ∀ b ∈ pre, b ∈ recognisedFlags) :
    ∀ st : ArgsState, ∃ cfg1 infos, (∀ e ∈ infos, ∃ m, e = Event.info m) ∧
      ∀ tail, parseLoop st (pre ++ tail) = parseLoop ⟨cfg1, st.out ++ infos⟩ tail := by
  induction pre with
  | nil => intro st; exact ⟨st.cfg, [], by simp, by simp⟩
  | cons b pre ih =>
    intro st
    obtain ⟨cfg1, m, hb⟩ := parseStep_recognised st b (hpre b (by simp))
    obtain ⟨cfg2, infos, hi, ht⟩ := ih (fun c hc => hpre c (by simp [hc])) ⟨cfg1, st.out ++ [.info m]⟩
    refine ⟨cfg2, .info m :: infos, ?_, ?_⟩
    · intro e he
      rcases List.mem_cons.mp he with rfl | he
      · exact ⟨m, rfl⟩
      · exact hi e he
    · intro tail
      rw [List.cons_append, parseLoop, hb]
      show parseLoop _ (pre ++ tail) = _
      rw [ht tail]
      simp

theorem parseStep_noLoad (st : ArgsState) (a : String)
    (h : ∀ f, Event.loadRawlog f ∉ st.out) : ∀ f, Event.loadRawlog f ∉ (parseStep st a).1.out := by
  intro f
  unfold parseStep
  split_ifs <;> simp [h f]

theorem parseLoop_noLoad (args : List String) :
    ∀ st : ArgsState, (∀ f, Event.loadRawlog f ∉ st.out) →
      ∀ f, Event.loadRawlog f ∉ (parseLoop st args).1.out := by
  induction args with
  | nil => intro st h f; simpa [parseLoop] using h f
  | cons a rest ih =>
    intro st h f
    have h1 := parseStep_noLoad st a h
    rw [parseLoop]
    rcases hs : parseStep st a with ⟨st1, _ | code⟩
    · rw [hs] at h1
      exact ih st1 h1 f
    · rw [hs] at h1
      exact h1 f

theorem loadParameters_noLoad (argv : List String) :
    ∀ f, Event.loadRawlog f ∉ (loadParameters argv).1.out := by
  intro f
  unfold loadParameters
  split_ifs
  · exact parseLoop_noLoad _ _ (by simp) f
  · simp

theorem mainStart_of_return (argv : List String) (st : ArgsState) (code : Int)
    (h : loadParameters argv = (st, some code)) : mainStart argv = (st, some code) := by
  simp [mainStart, h]

end CommandLineLemmas

section CommandLineClaims

/-- C24 (argument handling of the localization program): for every argument
vector `argv`, program name included. With fewer than two arguments after the
program name the program prints the usage and returns 0. Otherwise the
arguments from the third on are read left to right: when the first that is not
a recognised flag is `-h` the program prints the usage and returns 0, and when
it is something else the program prints the error with that argument and the
usage and returns -1; before that only information lines of the flags are
printed. Whenever the program returns there, the input rawlog has not been
opened; when every argument from the third on is a recognised flag the program
goes on and opens the file named by the first argument. -/
theorem argument_handling (argv : List String) :
    (argv.length < 3 → mainStart argv = (⟨{}, [.usage]⟩, some 0)) ∧
      (∀ pre a rest, 3 ≤ argv.length → argv.drop 3 = pre ++ a :: rest →
        (∀ b ∈ pre, b ∈ recognisedFlags) →
        (a = "-h" → ∃ cfg1 infos, (∀ e ∈ infos, ∃ m, e = Event.info m) ∧
          mainStart argv = (⟨cfg1, infos ++ [.usage]⟩, some 0)) ∧
        (a ≠ "-h" → a ∉ recognisedFlags → ∃ cfg1 infos, (∀ e ∈ infos, ∃ m, e = Event.info m) ∧
          mainStart argv = (⟨cfg1, infos ++ [.unknownParameter a, .usage]⟩, some (-1)))) ∧
      (∀ code, (mainStart argv).2 = some code →
        ∀ file, Event.loadRawlog file ∉ (mainStart argv).1.out) ∧
      (3 ≤ argv.length → (∀ b ∈ argv.drop 3, b ∈ recognisedFlags) →
        ∃ cfg1 infos, (∀ e ∈ infos, ∃ m, e = Event.info m) ∧
          mainStart argv = (⟨cfg1, infos ++ [.loadRawlog (argv.getD 1 "")]⟩, none)) := by
  refine ⟨?_, ?_, ?_, ?_⟩
  · intro h
    apply mainStart_of_return
    simp [loadParameters, Nat.not_le.mpr h]
  · intro pre a rest h3 hd hpre
    obtain ⟨cfg1, infos, hi, ht⟩ := parseLoop_recognised pre hpre ⟨{}, []⟩
    have hl : loadParameters argv = parseLoop ⟨cfg1, infos⟩ (a :: rest) := by
      simp only [loadParameters, ge_iff_le, if_pos h3, hd, ht, List.nil_append]
    constructor
    · intro ha
      refine ⟨cfg1, infos, hi, ?_⟩
      apply mainStart_of_return
      rw [hl, ha, parseLoop, parseStep_help]
    · intro ha hn
      refine ⟨cfg1, infos, hi, ?_⟩
      apply mainStart_of_return
      rw [hl, parseLoop, parseStep_unknown _ a ha hn]
  · intro code hc file
    have hn := loadParameters_noLoad argv file
    rcases hp : loadParameters argv with ⟨st, _ | c⟩
    · simp [mainStart, hp] at hc
    · rw [mainStart_of_return argv st c hp]
      rw [hp] at hn
      exact hn
  · intro h3 hall
    obtain ⟨cfg1, infos, hi, ht⟩ := parseLoop_recognised (argv.drop 3) hall ⟨{}, []⟩
    refine ⟨cfg1, infos, hi, ?_⟩
    have hl : loadParameters argv = (⟨cfg1, infos⟩, none) := by
      have := ht []
      simp only [List.append_nil, List.nil_append] at this
      simp only [loadParameters, ge_iff_le, if_pos h3, this, parseLoop]
    simp [mainStart, hl]

/-- Witness of C24 and of the order of the arguments: the flag `-enable_ICP3D`
is read, then `-x` ends the run with the error, the usage and the code -1; the
`-h` after it is not reached. -/
theorem argument_handling_witness :
    (∃ cfg1 infos, (∀ e ∈ infos, ∃ m, e = Event.info m) ∧
        mainStart ["localization", "in.rawlog", "map.simplemap", "-enable_ICP3D", "-x", "-h"] =
          (⟨cfg1, infos ++ [.unknownParameter "-x", .usage]⟩, some (-1))) ∧
      mainStart ["localization", "in.rawlog", "map.simplemap", "-enable_ICP3D", "-x", "-h"] =
        (⟨{ refineWithICP3D := true, ICP3D_method := "ICP" },
          [.info "[INFO] Enabled ICP3D.", .unknownParameter "-x", .usage]⟩, some (-1)) :=
  ⟨((argument_handling
      ["localization", "in.rawlog", "map.simplemap", "-enable_ICP3D", "-x", "-h"]).2.1
        ["-enable_ICP3D"] "-x" ["-h"] (by decide) rfl (by decide)).2 (by decide) (by decide),
    rfl⟩

end CommandLineClaims

section SensorLookupClaims

variable {K : Type}

end SensorLookupClaims

/-! ## The shape of the registration results -/

section RegistrationShape

variable {K : Type} [LinearOrderedField K]

omit [LinearOrderedField K] in
theorem seedFrom_labels (v_obs : List (T3DRangeScan K)) (nCur : Nat) :
    ∀ (rest : List (T3DRangeScan K)) (i : Nat) (cur : List (T3DRangeScan K)),
      seedFrom v_obs nCur i rest = some cur → labelsOf cur = labelsOf rest := by
  intro rest
  induction rest with
  | nil =>
    intro i cur h
    simp only [seedFrom, Option.some.injEq] at h
    subst h
    rfl
  | cons f rest ih =>
    intro i cur h
    rw [seedFrom] at h
    split at h
    · exact absurd h (by simp)
    · split at h
      · exact absurd h (by simp)
      · next rest1 hrest =>
        simp only [Option.some.injEq] at h
        subst h
        have := ih (i + 1) rest1 hrest
        simp only [labelsOf, List.map_cons] at this ⊢
        rw [this]
        rfl

omit [LinearOrderedField K] in
theorem seedStage_labels (cfg : Config) (v_obs v_obs2 cur : List (T3DRangeScan K))
    (h : seedStage cfg v_obs v_obs2 = some cur) : labelsOf cur = labelsOf v_obs2 := by
  unfold seedStage at h
  split_ifs at h
  · exact seedFrom_labels v_obs _ v_obs2 0 cur h
  · simp only [Option.some.injEq] at h
    subst h
    rfl

omit [LinearOrderedField K] in
theorem seedStage_total (cfg : Config) (v_obs v_obs2 : List (T3DRangeScan K))
    (h : cfg.initialGuessICP2D = true ∨ (v_obs2.length ≤ v_obs.length ∧ v_obs.length < 2 ^ 64)) :
    ∃ cur, seedStage cfg v_obs v_obs2 = some cur := by
  by_cases hg : cfg.initialGuessICP2D = true
  · exact ⟨_, seedStage_of_guess cfg v_obs v_obs2 hg⟩
  · rcases h with h | ⟨h1, h2⟩
    · exact absurd h hg
    · obtain ⟨cur, hc, _⟩ := seedStage_spec cfg v_obs v_obs2 (by simpa using hg) h1 h2
      exact ⟨cur, hc⟩

omit [LinearOrderedField K] in
theorem applyTransform_labels (lib : Registration K) (m : CPose3D K)
    (cur : List (T3DRangeScan K)) : labelsOf (applyTransform lib m cur) = labelsOf cur := by
  simp only [labelsOf, applyTransform, List.map_map]
  rfl

omit [LinearOrderedField K] in
theorem labelsOf_length (l : List (T3DRangeScan K)) : (labelsOf l).length = l.length := by
  simp [labelsOf]

omit [LinearOrderedField K] in
theorem length_of_labels (a b : List (T3DRangeScan K)) (h : labelsOf a = labelsOf b) :
    a.length = b.length := by
  rw [← labelsOf_length a, h, labelsOf_length]

theorem refineLocation_shape (cfg : Config) (lib : Registration K) (g : RefineGlobals K)
    (v_obs v_obs2 : List (T3DRangeScan K))
    (h : cfg.initialGuessICP2D = true ∨ (v_obs2.length ≤ v_obs.length ∧ v_obs.length < 2 ^ 64)) :
    ∃ r, refineLocation cfg lib g v_obs v_obs2 = some r ∧ labelsOf r.2 = labelsOf v_obs2 := by
  obtain ⟨cur, hs⟩ := seedStage_total cfg v_obs v_obs2 h
  have hl := seedStage_labels cfg v_obs v_obs2 cur hs
  by_cases hm : cfg.ICP3D_method = "GICP"
  · rw [refineLocation, if_pos hm]
    unfold refineLocationGICP3D
    rw [hs]
    dsimp only
    by_cases hsmall : (lib.pointsOf (cur.map T3DRangeScan.obs)).length < 100
    · rw [if_pos hsmall]
      exact ⟨_, rfl, hl⟩
    · rw [if_neg hsmall]
      exact ⟨_, rfl, by rw [applyTransform_labels, hl]⟩
  · rw [refineLocation, if_neg hm, refineLocationICP3D_eq cfg lib g v_obs v_obs2 cur hs]
    exact ⟨_, rfl, by rw [applyTransform_labels, hl]⟩

theorem refineEach_shape (cfg : Config) (lib : Registration K) (v_obs : List (T3DRangeScan K))
    (h : cfg.initialGuessICP2D = true ∨ (1 ≤ v_obs.length ∧ v_obs.length < 2 ^ 64)) :
    ∀ (v_obs2 : List (T3DRangeScan K)) (g : RefineGlobals K),
      ∃ r, refineEach cfg lib v_obs g v_obs2 = some r ∧ labelsOf r.2 = labelsOf v_obs2 := by
  intro v_obs2
  induction v_obs2 with
  | nil => intro g; exact ⟨_, rfl, rfl⟩
  | cons f rest ih =>
    intro g
    obtain ⟨r1, h1, l1⟩ := refineLocation_shape cfg lib g v_obs [f] (by simpa using h)
    obtain ⟨r2, h2, l2⟩ := ih r1.1
    refine ⟨(r2.1, r1.2 ++ r2.2), by simp only [refineEach, h1, h2], ?_⟩
    simp only [labelsOf, List.map_append, List.map_cons, List.map_nil] at l1 l2 ⊢
    rw [l1, l2]
    rfl

theorem registerSet_shape (cfg : Config) (lib : Registration K) (g : RefineGlobals K)
    (v_obs v_obs2 : List (T3DRangeScan K))
    (h : cfg.initialGuessICP2D = true ∨
      (v_obs2.length ≤ v_obs.length ∧ 1 ≤ v_obs.length ∧ v_obs.length < 2 ^ 64)) :
    ∃ r, registerSet cfg lib g v_obs v_obs2 = some r ∧ labelsOf r.2.1 = labelsOf v_obs2 ∧
      r.2.2 = if cfg.accumulatePast then v_obs2.length else 1 := by
  by_cases ha : cfg.accumulatePast = true
  · obtain ⟨r, hr, hl⟩ := refineEach_shape cfg lib v_obs
      (h.imp id fun h => ⟨h.2.1, h.2.2⟩) v_obs2 g
    exact ⟨(r.1, r.2, v_obs2.length), by simp only [registerSet, ha, if_true, hr], hl,
      by simp only [ha, if_true]⟩
  · obtain ⟨r, hr, hl⟩ := refineLocation_shape cfg lib g v_obs v_obs2
      (h.imp id fun h => ⟨h.1, h.2.2⟩)
    exact ⟨(r.1, r.2, 1), by simp [registerSet, ha, hr], hl, by simp [ha]⟩

end RegistrationShape

/-! ## The invariant of the four-sensor loop -/

section LoopInvariant

variable {K : Type} [LinearOrderedField K]

theorem list_len4 {α : Type} (l : List α) (h : l.length = 4) : ∃ a b c d, l = [a, b, c, d] := by
  match l, h with
  | [a, b, c, d], _ => exact ⟨a, b, c, d, rfl⟩

theorem replicate_false_ne (k : Nat) : (List.replicate 4 false)[k]? ≠ some true := by
  intro h
  rw [List.getElem?_replicate] at h
  split_ifs at h
  simp at h

omit [LinearOrderedField K] in
theorem loadObs_len (st : SetState K) (i : Nat) (obs : T3DRangeScan K) :
    (loadObs st i obs).v_obs2.length = st.v_obs2.length ∧
      (loadObs st i obs).v_obs_loaded.length = st.v_obs_loaded.length := by
  unfold loadObs
  split <;> simp

omit [LinearOrderedField K] in
theorem loadObs_slot_label (st : SetState K) (i : Nat) (obs : T3DRangeScan K)
    (h : ∀ (k : Nat) (f : T3DRangeScan K), st.v_obs_loaded[k]? = some true → st.v_obs2[k]? = some f →
      rgbdLabels[k]? = some f.obs.sensorLabel) :
    ∀ (k : Nat) (f : T3DRangeScan K), (loadObs st i obs).v_obs_loaded[k]? = some true →
      (loadObs st i obs).v_obs2[k]? = some f → rgbdLabels[k]? = some f.obs.sensorLabel := by
  unfold loadObs
  cases hs : sensorSlot obs.obs.sensorLabel with
  | none => simpa using h
  | some k0 =>
    intro k f hl hf
    simp only at hl hf
    by_cases hk : k0 = k
    · subst hk
      rw [List.getElem?_set] at hf
      simp only [if_true] at hf
      split_ifs at hf
      · simp only [Option.some.injEq] at hf
        subst hf
        exact (sensorSlot_eq_some_iff _ _).mp hs
    · rw [List.getElem?_set, if_neg hk] at hf hl
      exact h k f hl hf

omit [LinearOrderedField K] in
theorem loadedSum_loadObs_le (st : SetState K) (i : Nat) (obs : T3DRangeScan K)
    (hl : st.v_obs_loaded.length = 4) : loadedSum (loadObs st i obs) ≤ loadedSum st + 1 := by
  unfold loadObs
  cases hs : sensorSlot obs.obs.sensorLabel with
  | none => simp
  | some k =>
    have hk := sensorSlot_lt _ _ hs
    obtain ⟨a, b, c, d, hq⟩ := list_len4 _ hl
    simp only [loadedSum, hq]
    interval_cases k <;> simp [List.set] <;> omega

omit [LinearOrderedField K] in
theorem complete_labels (st : SetState K) (h2 : st.v_obs2.length = 4)
    (hL : st.v_obs_loaded.length = 4)
    (hs : ∀ (k : Nat) (f : T3DRangeScan K), st.v_obs_loaded[k]? = some true → st.v_obs2[k]? = some f →
      rgbdLabels[k]? = some f.obs.sensorLabel)
    (hc : loadedSum st = 4) : labelsOf st.v_obs2 = rgbdLabels := by
  have hall := (loadedSum_eq_four_iff st hL).mp hc
  obtain ⟨a, b, c, d, hq⟩ := list_len4 _ h2
  have h0 := hs 0 a (hall 0 (by omega)) (by rw [hq]; rfl)
  have h1 := hs 1 b (hall 1 (by omega)) (by rw [hq]; rfl)
  have h2 := hs 2 c (hall 2 (by omega)) (by rw [hq]; rfl)
  have h3 := hs 3 d (hall 3 (by omega)) (by rw [hq]; rfl)
  simp only [rgbdLabels, List.getElem?_cons_zero, List.getElem?_cons_succ,
    Option.some.injEq] at h0 h1 h2 h3
  simp only [labelsOf, hq, rgbdLabels, List.map_cons, List.map_nil, ← h0, ← h1, ← h2, ← h3]

omit [LinearOrderedField K] in
theorem writeBack_length (is : List Nat) :
    ∀ (scans fs : List (T3DRangeScan K)), (writeBack scans is fs).length = scans.length := by
  induction is with
  | nil => intro scans fs; simp [writeBack]
  | cons i is ih =>
    intro scans fs
    cases fs with
    | nil => simp [writeBack]
    | cons f fs => simp [writeBack, ih]

theorem loopInv_init (g : RefineGlobals K) (scans : List (T3DRangeScan K)) :
    LoopInv scans.length 0 (LoopState.init g scans) where
  heap := rfl
  len_obs2 := rfl
  len_loaded := rfl
  slot_label := fun k _ h _ => absurd h (replicate_false_ne k)
  unseeded := fun _ => rfl
  reference := fun h => absurd h (by simp [LoopState.init])
  bound := Nat.le_refl 0

end LoopInvariant

section LoopSteps

variable {K : Type} [LinearOrderedField K]

omit [LinearOrderedField K] in
theorem reference_of_set (r : List (T3DRangeScan K)) (hr4 : r.length = 4)
    (hlab : labelsOf r = rgbdLabels) :
    4 ≤ r.length ∧ r.length % 4 = 0 ∧ labelsOf (r.drop (r.length - 4)) = rgbdLabels := by
  rw [hr4]
  exact ⟨Nat.le_refl 4, rfl, hlab⟩

omit [LinearOrderedField K] in
theorem reference_after (acc : Bool) (v r : List (T3DRangeScan K)) (hmod : v.length % 4 = 0)
    (hr4 : r.length = 4) (hlab : labelsOf r = rgbdLabels) :
    (4 ≤ (if acc then v ++ r else r).length ∧ (if acc then v ++ r else r).length % 4 = 0 ∧
        labelsOf ((if acc then v ++ r else r).drop ((if acc then v ++ r else r).length - 4)) =
          rgbdLabels) ∧
      (if acc then v ++ r else r).length ≤ v.length + 4 := by
  cases acc with
  | false =>
    simp only [Bool.false_eq_true, if_false]
    exact ⟨reference_of_set r hr4 hlab, by omega⟩
  | true =>
    simp only [if_true]
    refine ⟨⟨?_, ?_, ?_⟩, ?_⟩
    · rw [List.length_append]
      omega
    · rw [List.length_append]
      omega
    · rw [List.length_append, hr4, Nat.add_sub_cancel, List.drop_left]
      exact hlab
    · rw [List.length_append]
      omega

theorem registerStep_inv (cfg : Config) (lib : Registration K) (N i : Nat) (s : LoopState K)
    (st1 : SetState K) (calls : Nat) (hheap : s.v_3DRangeScans.length = N)
    (h2 : st1.v_obs2.length = 4) (hL : st1.v_obs_loaded = List.replicate 4 false)
    (hlab : labelsOf st1.v_obs2 = rgbdLabels) (hf : s.first = false)
    (hlen4 : 4 ≤ s.v_obs.length) (hmod : s.v_obs.length % 4 = 0)
    (h64 : s.v_obs.length < 2 ^ 64) (hb : s.v_obs.length + 4 ≤ i + 1) :
    ∃ s1, registerStep cfg lib s st1 calls = some s1 ∧ LoopInv N (i + 1) s1 ∧
      s1.first = false ∧
      s1.refineCalls = s.refineCalls + (if cfg.accumulatePast then 4 else 1) ∧
      s1.v_obs = (if cfg.accumulatePast then s.v_obs ++ s1.set.v_obs2 else s1.set.v_obs2) ∧
      labelsOf s1.set.v_obs2 = rgbdLabels := by
  obtain ⟨r, hr, hlr, hcalls⟩ := registerSet_shape cfg lib s.globals s.v_obs st1.v_obs2
    (Or.inr ⟨by omega, by omega, h64⟩)
  have hr4 : r.2.1.length = 4 := (length_of_labels _ _ hlr).trans h2
  have hstep : registerStep cfg lib s st1 calls =
      some
        { s with
          set := { st1 with v_obs2 := r.2.1 }
          v_obs := if cfg.accumulatePast then s.v_obs ++ r.2.1 else r.2.1
          v_3DRangeScans := writeBack s.v_3DRangeScans st1.v_obs2_indices r.2.1
          globals := r.1
          keyPoseCalls := s.keyPoseCalls + calls
          refineCalls := s.refineCalls + r.2.2 } := by
    simp only [registerStep, hr]
  refine ⟨_, hstep, ?_, hf, ?_, rfl, hlr.trans hlab⟩
  · refine ⟨(writeBack_length _ _ _).trans hheap, hr4, by simp [hL], ?_, ?_, ?_, ?_⟩
    · intro k f hl
      simp only [hL] at hl
      exact absurd hl (replicate_false_ne k)
    · intro h
      exact absurd (hf.symm.trans h) (by simp)
    · intro _
      exact (reference_after cfg.accumulatePast s.v_obs r.2.1 hmod hr4 (hlr.trans hlab)).1
    · have h0 : loadedSum ({ st1 with v_obs2 := r.2.1 } : SetState K) = 0 := by
        simp [loadedSum, hL]
      have h1 := (reference_after cfg.accumulatePast s.v_obs r.2.1 hmod hr4 (hlr.trans hlab)).2
      show (if cfg.accumulatePast = true then s.v_obs ++ r.2.1 else r.2.1).length +
        loadedSum ({ st1 with v_obs2 := r.2.1 } : SetState K) ≤ i + 1
      rw [h0]
      omega
  · show s.refineCalls + r.2.2 = _
    rw [hcalls, h2]

omit [LinearOrderedField K] in
theorem reference_split (v_obs : List (T3DRangeScan K)) (h4 : 4 ≤ v_obs.length)
    (hlab : labelsOf (v_obs.drop (v_obs.length - 4)) = rgbdLabels) :
    ∃ pre o1 o2 o3 o4, v_obs = pre ++ [o1, o2, o3, o4] ∧
      labelsOf [o1, o2, o3, o4] = rgbdLabels := by
  obtain ⟨a, b, c, d, hq⟩ := list_len4 (v_obs.drop (v_obs.length - 4))
    (by rw [List.length_drop]; omega)
  refine ⟨v_obs.take (v_obs.length - 4), a, b, c, d, ?_, by rw [← hq, hlab]⟩
  rw [← hq, List.take_append_drop]

theorem keyPoseTest_inbounds (env : MathEnv K) (sqrt : K → K) (v_obs v_obs2 : List (T3DRangeScan K))
    (h4 : 4 ≤ v_obs.length) (h64 : v_obs.length < 2 ^ 64)
    (hlab : labelsOf (v_obs.drop (v_obs.length - 4)) = rgbdLabels)
    (h2 : v_obs2.length = 4) (hlab2 : labelsOf v_obs2 = rgbdLabels) :
    ∃ pre o1 o2 o3 o4 n1 n2 n3 n4, v_obs = pre ++ [o1, o2, o3, o4] ∧ v_obs2 = [n1, n2, n3, n4] ∧
      labelsOf [o1, o2, o3, o4] = rgbdLabels ∧ labelsOf [n1, n2, n3, n4] = rgbdLabels ∧
      keyPoseTest env sqrt v_obs v_obs2 =
        some
          (if isKeyPose env sqrt n1.obs.sensorPose o1.obs.sensorPose = false then (false, 1)
          else if isKeyPose env sqrt n2.obs.sensorPose o2.obs.sensorPose = false then (false, 2)
          else if isKeyPose env sqrt n3.obs.sensorPose o3.obs.sensorPose = false then (false, 3)
          else (isKeyPose env sqrt n4.obs.sensorPose o4.obs.sensorPose, 4)) := by
  obtain ⟨pre, o1, o2, o3, o4, hv, hl⟩ := reference_split v_obs h4 hlab
  obtain ⟨n1, n2, n3, n4, hq⟩ := list_len4 v_obs2 h2
  refine ⟨pre, o1, o2, o3, o4, n1, n2, n3, n4, hv, hq, hl, by rw [← hq, hlab2], ?_⟩
  rw [hv, hq]
  apply keyPoseTest_eq
  have : (pre ++ [o1, o2, o3, o4]).length < 2 ^ 64 := by rw [← hv]; exact h64
  simpa using this

theorem loopBody_step (cfg : Config) (lib : Registration K) (env : MathEnv K) (sqrt : K → K)
    (N i : Nat) (s : LoopState K) (hN : N < 2 ^ 64) (hi : i < N) (hinv : LoopInv N i s) :
    ∃ s1, loopBody cfg lib env sqrt s i = some s1 ∧ LoopInv N (i + 1) s1 ∧
      ((s1.v_obs = s.v_obs ∧ s1.first = s.first ∧ s1.refineCalls = s.refineCalls) ∨
        (s.first = true ∧ s1.first = false ∧ s.v_obs = [] ∧ s1.v_obs = s1.set.v_obs2 ∧
          s1.refineCalls = s.refineCalls ∧ labelsOf s1.set.v_obs2 = rgbdLabels) ∨
        (s.first = false ∧ s1.first = false ∧
          s1.refineCalls = s.refineCalls + (if cfg.accumulatePast then 4 else 1) ∧
          s1.v_obs = (if cfg.accumulatePast then s.v_obs ++ s1.set.v_obs2 else s1.set.v_obs2) ∧
          labelsOf s1.set.v_obs2 = rgbdLabels)) := by
  obtain ⟨obs, hobs⟩ : ∃ obs, s.v_3DRangeScans[i]? = some obs :=
    ⟨_, List.getElem?_eq_getElem (by rw [hinv.heap]; exact hi)⟩
  have hlen := loadObs_len s.set i obs
  have hslot := loadObs_slot_label s.set i obs hinv.slot_label
  have hsum := loadedSum_loadObs_le s.set i obs hinv.len_loaded
  have hbound := hinv.bound
  by_cases hc : loadedSum (loadObs s.set i obs) = 4
  · have hstep := setStep_complete s.set i obs hc
    have hc2 : (setStep s.set i obs).2 = true := by rw [hstep]
    have h2 : (setStep s.set i obs).1.v_obs2.length = 4 := by
      rw [hstep]
      exact hlen.1.trans hinv.len_obs2
    have hL : (setStep s.set i obs).1.v_obs_loaded = List.replicate 4 false := by rw [hstep]
    have hlab : labelsOf (setStep s.set i obs).1.v_obs2 = rgbdLabels := by
      rw [hstep]
      exact complete_labels (loadObs s.set i obs) (hlen.1.trans hinv.len_obs2)
        (hlen.2.trans hinv.len_loaded) hslot hc
    have hsum0 : loadedSum (setStep s.set i obs).1 = 0 := by
      rw [hstep]
      rfl
    by_cases hf : s.first = true
    · have hv := hinv.unseeded hf
      refine ⟨_, loopBody_first cfg lib env sqrt s i obs hobs hc2 hf, ?_,
        Or.inr (Or.inl ⟨hf, rfl, hv, rfl, rfl, hlab⟩)⟩
      refine ⟨hinv.heap, h2, by simp [seedStep, hL], ?_, ?_, ?_, ?_⟩
      · intro k f hl
        simp only [seedStep, hL] at hl
        exact absurd hl (replicate_false_ne k)
      · intro h
        simp [seedStep] at h
      · intro _
        exact reference_of_set _ h2 hlab
      · show (setStep s.set i obs).1.v_obs2.length + loadedSum (setStep s.set i obs).1 ≤ i + 1
        rw [hv] at hbound
        simp only [List.length_nil] at hbound
        omega
    · have hf : s.first = false := by simpa using hf
      obtain ⟨h4, hmod, hl4⟩ := hinv.reference hf
      have h64 : s.v_obs.length < 2 ^ 64 := by omega
      have hreg : ∀ calls, ∃ s1, registerStep cfg lib s (setStep s.set i obs).1 calls = some s1 ∧
          LoopInv N (i + 1) s1 ∧ s1.first = false ∧
          s1.refineCalls = s.refineCalls + (if cfg.accumulatePast then 4 else 1) ∧
          s1.v_obs = (if cfg.accumulatePast then s.v_obs ++ s1.set.v_obs2 else s1.set.v_obs2) ∧
          labelsOf s1.set.v_obs2 = rgbdLabels := fun calls =>
        registerStep_inv cfg lib N i s _ calls hinv.heap h2 hL hlab hf h4 hmod h64 (by omega)
      by_cases hk : cfg.useKeyPoses = true
      · obtain ⟨t, ht⟩ : ∃ t, keyPoseTest env sqrt s.v_obs (setStep s.set i obs).1.v_obs2 =
            some t := by
          obtain ⟨_, _, _, _, _, _, _, _, _, _, _, _, _, ht⟩ :=
            keyPoseTest_inbounds env sqrt s.v_obs (setStep s.set i obs).1.v_obs2 h4 h64 hl4 h2 hlab
          exact ⟨_, ht⟩
        have hbody := loopBody_keyPoses cfg lib env sqrt s i obs t hobs hc2 hf hk ht
        rw [hbody]
        by_cases hrej : t.1 = false
        · rw [if_pos hrej]
          refine ⟨_, rfl, ?_, Or.inl ⟨rfl, rfl, rfl⟩⟩
          refine ⟨hinv.heap, h2, by simp [rejectStep, hL], ?_, ?_, ?_, ?_⟩
          · intro k f hl
            simp only [rejectStep, hL] at hl
            exact absurd hl (replicate_false_ne k)
          · intro h
            exact absurd (hf.symm.trans h) (by simp)
          · intro _
            exact ⟨h4, hmod, hl4⟩
          · show s.v_obs.length + loadedSum (setStep s.set i obs).1 ≤ i + 1
            omega
        · rw [if_neg hrej]
          obtain ⟨s1, h1, hi1, hf1, hc1, hv1, hl1⟩ := hreg t.2
          exact ⟨s1, h1, hi1, Or.inr (Or.inr ⟨hf, hf1, hc1, hv1, hl1⟩)⟩
      · have hk : cfg.useKeyPoses = false := by simpa using hk
        rw [loopBody_noKeyPoses cfg lib env sqrt s i obs hobs hc2 hf hk]
        obtain ⟨s1, h1, hi1, hf1, hc1, hv1, hl1⟩ := hreg 0
        exact ⟨s1, h1, hi1, Or.inr (Or.inr ⟨hf, hf1, hc1, hv1, hl1⟩)⟩
  · have hstep := setStep_incomplete s.set i obs hc
    have hc2 : (setStep s.set i obs).2 = false := by rw [hstep]
    refine ⟨_, loopBody_incomplete cfg lib env sqrt s i obs hobs hc2, ?_,
      Or.inl ⟨rfl, rfl, rfl⟩⟩
    rw [hstep]
    exact ⟨hinv.heap, hlen.1.trans hinv.len_obs2, hlen.2.trans hinv.len_loaded, hslot,
      hinv.unseeded, hinv.reference,
      by show s.v_obs.length + loadedSum (loadObs s.set i obs) ≤ i + 1; omega⟩

theorem fourSensorLoopFrom_inv (cfg : Config) (lib : Registration K) (env : MathEnv K)
    (sqrt : K → K) (N : Nat) (hN : N < 2 ^ 64) (n : Nat) :
    ∀ (i : Nat) (s : LoopState K), i + n ≤ N → LoopInv N i s →
      ∃ s1, fourSensorLoopFrom cfg lib env sqrt i n s = some s1 ∧ LoopInv N (i + n) s1 := by
  induction n with
  | zero => intro i s _ h; exact ⟨s, rfl, h⟩
  | succ n ih =>
    intro i s hi hinv
    obtain ⟨s1, h1, hinv1, _⟩ := loopBody_step cfg lib env sqrt N i s hN (by omega) hinv
    obtain ⟨s2, h2, hinv2⟩ := ih (i + 1) s1 (by omega) hinv1
    refine ⟨s2, ?_, by rw [show i + (n + 1) = i + 1 + n by omega]; exact hinv2⟩
    rw [fourSensorLoopFrom_step cfg lib env sqrt s s1 i n h1, h2]

end LoopSteps

/-! ## The invariant of the one-frame loop -/

section SingleLoop

variable {K : Type} [LinearOrderedField K]

theorem singleInv_init (g : RefineGlobals K) (scans : List (T3DRangeScan K)) :
    SingleInv scans 0 (SingleState.init g scans) where
  heap := rfl
  future := fun _ _ => rfl
  first_iff := ⟨fun _ => rfl, fun _ => rfl⟩
  unseeded := fun _ => rfl
  reference := fun h => absurd h (by simp [SingleState.init])
  bound := Nat.le_refl 0
  calls := rfl

omit [LinearOrderedField K] in
theorem writeBack_single (scans fs : List (T3DRangeScan K)) (i j : Nat) (h : i ≠ j) :
    (writeBack scans [i] fs)[j]? = scans[j]? := by
  cases fs with
  | nil => rfl
  | cons f fs =>
    show (writeBack (scans.set i f) [] fs)[j]? = scans[j]?
    simp only [writeBack]
    rw [List.getElem?_set, if_neg h]

theorem singleBody_step (cfg : Config) (lib : Registration K) (scans : List (T3DRangeScan K))
    (i : Nat) (s : SingleState K) (hN : scans.length < 2 ^ 64) (hi : i < scans.length)
    (hinv : SingleInv scans i s) :
    ∃ obs s1, scans[i]? = some obs ∧ singleBody cfg lib s i = some s1 ∧
      SingleInv scans (i + 1) s1 ∧
      ((s.first = true ∧ s.v_obs = [] ∧ s1.v_obs = [obs] ∧ s1.refineCalls = s.refineCalls) ∨
        (s.first = false ∧ s1.refineCalls = s.refineCalls + 1 ∧
          refineLocation cfg lib s.globals s.v_obs [obs] = some (s1.globals, s1.v_obs2) ∧
          s1.v_obs2.length = 1 ∧
          s1.v_obs = (if cfg.accumulatePast then s.v_obs ++ s1.v_obs2 else s1.v_obs2))) := by
  obtain ⟨obs, hobs⟩ : ∃ obs, scans[i]? = some obs := ⟨_, List.getElem?_eq_getElem hi⟩
  have hobs1 : s.v_3DRangeScans[i]? = some obs := (hinv.future i (Nat.le_refl i)).trans hobs
  have hcalls := hinv.calls
  have hbound := hinv.bound
  by_cases hf : s.first = true
  · have hi0 : i = 0 := hinv.first_iff.mp hf
    have hbody : singleBody cfg lib s i =
        some { s with v_obs2 := [obs], v_obs := [obs], first := false } := by
      simp only [singleBody, hobs1, hf, if_true]
    refine ⟨obs, _, hobs, hbody, ?_, Or.inl ⟨hf, hinv.unseeded hf, rfl, rfl⟩⟩
    refine ⟨hinv.heap, fun j hj => hinv.future j (by omega), ⟨fun h => by simp at h,
      fun h => by omega⟩, fun h => by simp at h, fun _ => Nat.le_refl 1, ?_, ?_⟩
    · show 1 ≤ i + 1
      omega
    · show s.refineCalls = i + 1 - 1
      omega
  · have hf : s.first = false := by simpa using hf
    have hi0 : i ≠ 0 := fun h => absurd (hinv.first_iff.mpr h) (by simp [hf])
    have h1 := hinv.reference hf
    obtain ⟨r, hr, hlab⟩ := refineLocation_shape cfg lib s.globals s.v_obs [obs]
      (Or.inr ⟨h1, by omega⟩)
    have hr1 : r.2.length = 1 := length_of_labels _ _ hlab
    have hbody : singleBody cfg lib s i =
        some
          { s with
            v_obs2 := r.2
            v_obs := if cfg.accumulatePast then s.v_obs ++ r.2 else r.2
            v_3DRangeScans := writeBack s.v_3DRangeScans [i] r.2
            globals := r.1
            refineCalls := s.refineCalls + 1 } := by
      simp only [singleBody, hobs1, hf, Bool.false_eq_true, if_false, hr]
    refine ⟨obs, _, hobs, hbody, ?_, Or.inr ⟨hf, rfl, hr, hr1, rfl⟩⟩
    refine ⟨(writeBack_length _ _ _).trans hinv.heap, ?_, ⟨fun h => absurd (hf.symm.trans h)
      (by simp), fun h => by omega⟩, fun h => absurd (hf.symm.trans h) (by simp), ?_, ?_, ?_⟩
    · intro j hj
      exact (writeBack_single _ _ i j (by omega)).trans (hinv.future j (by omega))
    · intro _
      show 1 ≤ (if cfg.accumulatePast = true then s.v_obs ++ r.2 else r.2).length
      split_ifs
      · rw [List.length_append]
        omega
      · omega
    · show (if cfg.accumulatePast = true then s.v_obs ++ r.2 else r.2).length ≤ i + 1
      split_ifs
      · rw [List.length_append]
        omega
      · omega
    · show s.refineCalls + 1 = i + 1 - 1
      omega

theorem singleLoopFrom_step (cfg : Config) (lib : Registration K) (s s1 : SingleState K)
    (i n : Nat) (h : singleBody cfg lib s i = some s1) :
    singleLoopFrom cfg lib i (n + 1) s = singleLoopFrom cfg lib (i + 1) n s1 := by
  simp only [singleLoopFrom, h]

theorem singleLoopFrom_inv (cfg : Config) (lib : Registration K)
    (scans : List (T3DRangeScan K)) (hN : scans.length < 2 ^ 64) (n : Nat) :
    ∀ (i : Nat) (s : SingleState K), i + n ≤ scans.length → SingleInv scans i s →
      ∃ s1, singleLoopFrom cfg lib i n s = some s1 ∧ SingleInv scans (i + n) s1 := by
  induction n with
  | zero => intro i s _ h; exact ⟨s, rfl, h⟩
  | succ n ih =>
    intro i s hi hinv
    obtain ⟨_, s1, _, h1, hinv1, _⟩ := singleBody_step cfg lib scans i s hN (by omega) hinv
    obtain ⟨s2, h2, hinv2⟩ := ih (i + 1) s1 (by omega) hinv1
    refine ⟨s2, ?_, by rw [show i + (n + 1) = i + 1 + n by omega]; exact hinv2⟩
    rw [singleLoopFrom_step cfg lib s s1 i n h1, h2]

theorem singleLoopFrom_keyPoses (cfg : Config) (lib : Registration K) (b : Bool) (n : Nat) :
    ∀ (i : Nat) (s : SingleState K),
      singleLoopFrom { cfg with useKeyPoses := b } lib i n s = singleLoopFrom cfg lib i n s := by
  induction n with
  | zero => intro i s; rfl
  | succ n ih =>
    intro i s
    have hb : singleBody { cfg with useKeyPoses := b } lib s i = singleBody cfg lib s i := rfl
    simp only [singleLoopFrom, hb, ih]

omit [LinearOrderedField K] in
theorem hullStage_length (cfg : Config)
    (hullOf : CObservation3DRangeScan K → List (K × K × K) × List (List Nat))
    (scans : List (T3DRangeScan K)) : (hullStage cfg hullOf scans).length = scans.length := by
  unfold hullStage
  split_ifs <;> simp

omit [LinearOrderedField K] in
theorem setStep_complete_labels (N i : Nat) (s : LoopState K) (obs : T3DRangeScan K)
    (hinv : LoopInv N i s) (hc2 : (setStep s.set i obs).2 = true) :
    (setStep s.set i obs).1.v_obs2.length = 4 ∧
      labelsOf (setStep s.set i obs).1.v_obs2 = rgbdLabels := by
  have hlen := loadObs_len s.set i obs
  have hslot := loadObs_slot_label s.set i obs hinv.slot_label
  by_cases hc : loadedSum (loadObs s.set i obs) = 4
  · rw [setStep_complete s.set i obs hc]
    exact ⟨hlen.1.trans hinv.len_obs2, complete_labels (loadObs s.set i obs)
      (hlen.1.trans hinv.len_obs2) (hlen.2.trans hinv.len_loaded) hslot hc⟩
  · rw [setStep_incomplete s.set i obs hc] at hc2
    simp at hc2

end SingleLoop

section ReferenceClaims

variable {K : Type} [LinearOrderedField K]

/-- Counterexample to C21: on the sample of two sets the turn for index 3
completes the first set and takes it as the seed. No registration function is
called, and the reference `v_obs` goes from no entry to four entries: a step of
the loop that is not a registration changes the length of `v_obs`. -/
theorem seed_changes_reference_counterexample :
    ∃ s s1, fourSensorLoopFrom {} sampleLib (MathEnv.mk id id 3 toFloat32) id 0 3
          (LoopState.init RefineGlobals.init (sampleHeap (1 : ℚ))) = some s ∧
      loopBody {} sampleLib (MathEnv.mk id id 3 toFloat32) id s 3 = some s1 ∧
      s.first = true ∧ s1.first = false ∧ s1.refineCalls = s.refineCalls ∧
      s.v_obs.length = 0 ∧ s1.v_obs.length = 4 := by
  have e0 : loopBody {} sampleLib (MathEnv.mk id id 3 toFloat32) id
      (LoopState.init RefineGlobals.init (sampleHeap (1 : ℚ))) 0 =
      some (sampleState RefineGlobals.init 1
        [sampleFrame "RGBD_1" 1 0, T3DRangeScan.empty, T3DRangeScan.empty, T3DRangeScan.empty]
        [0, 0, 0, 0] [true, false, false, false] [] true) := rfl
  have e1 : loopBody {} sampleLib (MathEnv.mk id id 3 toFloat32) id
      (sampleState RefineGlobals.init (1 : ℚ)
        [sampleFrame "RGBD_1" 1 0, T3DRangeScan.empty, T3DRangeScan.empty, T3DRangeScan.empty]
        [0, 0, 0, 0] [true, false, false, false] [] true) 1 =
      some (sampleState RefineGlobals.init 1
        [sampleFrame "RGBD_1" 1 0, sampleFrame "RGBD_2" 2 0, T3DRangeScan.empty,
          T3DRangeScan.empty]
        [0, 1, 0, 0] [true, true, false, false] [] true) := rfl
  have e2 : loopBody {} sampleLib (MathEnv.mk id id 3 toFloat32) id
      (sampleState RefineGlobals.init (1 : ℚ)
        [sampleFrame "RGBD_1" 1 0, sampleFrame "RGBD_2" 2 0, T3DRangeScan.empty,
          T3DRangeScan.empty]
        [0, 1, 0, 0] [true, true, false, false] [] true) 2 =
      some (sampleState RefineGlobals.init 1
        [sampleFrame "RGBD_1" 1 0, sampleFrame "RGBD_2" 2 0, sampleFrame "RGBD_3" 3 0,
          T3DRangeScan.empty]
        [0, 1, 2, 0] [true, true, true, false] [] true) := rfl
  have e3 : loopBody {} sampleLib (MathEnv.mk id id 3 toFloat32) id
      (sampleState RefineGlobals.init (1 : ℚ)
        [sampleFrame "RGBD_1" 1 0, sampleFrame "RGBD_2" 2 0, sampleFrame "RGBD_3" 3 0,
          T3DRangeScan.empty]
        [0, 1, 2, 0] [true, true, true, false] [] true) 3 =
      some (sampleState RefineGlobals.init 1
        [sampleFrame "RGBD_1" 1 0, sampleFrame "RGBD_2" 2 0, sampleFrame "RGBD_3" 3 0,
          sampleFrame "RGBD_4" 4 0]
        [0, 1, 2, 3] [false, false, false, false]
        [sampleFrame "RGBD_1" 1 0, sampleFrame "RGBD_2" 2 0, sampleFrame "RGBD_3" 3 0,
          sampleFrame "RGBD_4" 4 0] false) := rfl
  refine ⟨_, _, ?_, e3, rfl, rfl, rfl, rfl, rfl⟩
  rw [fourSensorLoopFrom_step _ _ _ _ _ _ 0 2 e0, fourSensorLoopFrom_step _ _ _ _ _ _ 1 1 e1,
    fourSensorLoopFrom_step _ _ _ _ _ _ 2 0 e2]
  rfl

/-- C21, amended: for fewer than `2^64` located frames, every turn `n` of the
four-sensor loop is reached and returns, and it does one of three things to the
reference `v_obs`. It leaves it as it is and calls no registration function
(the set is not complete, or the key-pose filter rejects it). Or it is the seed:
`v_obs` was empty and becomes the set. Or it registers the set, with one call
in replace mode and four in accumulate mode: in replace mode `v_obs` becomes
the four frames of the set, in accumulate mode the earlier `v_obs` followed by
them. The one-frame loop does the same with sets of one frame: the first turn
makes the frame the reference, every later turn registers its frame. -/
theorem reference_update_by_step (cfg : Config) (lib : Registration K) (env : MathEnv K)
    (sqrt : K → K) (g : RefineGlobals K) (scans : List (T3DRangeScan K)) (n : Nat)
    (hN : scans.length < 2 ^ 64) (hn : n < scans.length) :
    (∃ s s1, fourSensorLoopFrom cfg lib env sqrt 0 n (LoopState.init g scans) = some s ∧
        loopBody cfg lib env sqrt s n = some s1 ∧
        ((s1.v_obs = s.v_obs ∧ s1.first = s.first ∧ s1.refineCalls = s.refineCalls) ∨
          (s.first = true ∧ s1.first = false ∧ s.v_obs = [] ∧ s1.v_obs = s1.set.v_obs2 ∧
            s1.set.v_obs2.length = 4 ∧ s1.refineCalls = s.refineCalls) ∨
          (s.first = false ∧ s1.first = false ∧
            s1.refineCalls = s.refineCalls + (if cfg.accumulatePast then 4 else 1) ∧
            s1.set.v_obs2.length = 4 ∧
            s1.v_obs =
              (if cfg.accumulatePast then s.v_obs ++ s1.set.v_obs2 else s1.set.v_obs2)))) ∧
      (∃ s s1, singleLoopFrom cfg lib 0 n (SingleState.init g scans) = some s ∧
        singleBody cfg lib s n = some s1 ∧
        ((s.first = true ∧ s.v_obs = [] ∧ s1.v_obs = s1.v_obs2 ∧ s1.v_obs2.length = 1 ∧
            s1.refineCalls = s.refineCalls) ∨
          (s.first = false ∧ s1.refineCalls = s.refineCalls + 1 ∧ s1.v_obs2.length = 1 ∧
            s1.v_obs = (if cfg.accumulatePast then s.v_obs ++ s1.v_obs2 else s1.v_obs2)))) := by
  constructor
  · obtain ⟨s, hs, hinv⟩ := fourSensorLoopFrom_inv cfg lib env sqrt scans.length hN n 0
      (LoopState.init g scans) (by omega) (loopInv_init g scans)
    rw [Nat.zero_add] at hinv
    obtain ⟨s1, h1, hinv1, hshape⟩ := loopBody_step cfg lib env sqrt scans.length n s hN hn hinv
    refine ⟨s, s1, hs, h1, ?_⟩
    rcases hshape with h | ⟨a, b, c, d, e, _⟩ | ⟨a, b, c, d, _⟩
    · exact Or.inl h
    · exact Or.inr (Or.inl ⟨a, b, c, d, hinv1.len_obs2, e⟩)
    · exact Or.inr (Or.inr ⟨a, b, c, hinv1.len_obs2, d⟩)
  · obtain ⟨s, hs, hinv⟩ := singleLoopFrom_inv cfg lib scans hN n 0
      (SingleState.init g scans) (by omega) (singleInv_init g scans)
    rw [Nat.zero_add] at hinv
    obtain ⟨obs, s1, _, h1, _, hshape⟩ := singleBody_step cfg lib scans n s hN hn hinv
    refine ⟨s, s1, hs, h1, ?_⟩
    rcases hshape with ⟨a, b, c, d⟩ | ⟨a, b, _, c, d⟩
    · have hbody : singleBody cfg lib s n =
          some { s with v_obs2 := [obs], v_obs := [obs], first := false } := by
        have hobs1 : s.v_3DRangeScans[n]? = some obs := by
          rw [hinv.future n (Nat.le_refl n)]
          assumption
        simp only [singleBody, hobs1, a, if_true]
      rw [hbody] at h1
      simp only [Option.some.injEq] at h1
      subst h1
      exact Or.inl ⟨a, b, rfl, rfl, rfl⟩
    · exact Or.inr ⟨a, b, c, d⟩

/-- Witness of C21, amended: on the sample of two sets, the turn for index 7
registers the second set. -/
theorem reference_update_by_step_witness :
    ∃ s s1, fourSensorLoopFrom {} sampleLib (MathEnv.mk id id 3 toFloat32) id 0 7
          (LoopState.init RefineGlobals.init (sampleHeap (1 : ℚ))) = some s ∧
      loopBody {} sampleLib (MathEnv.mk id id 3 toFloat32) id s 7 = some s1 ∧
      ((s1.v_obs = s.v_obs ∧ s1.first = s.first ∧ s1.refineCalls = s.refineCalls) ∨
        (s.first = true ∧ s1.first = false ∧ s.v_obs = [] ∧ s1.v_obs = s1.set.v_obs2 ∧
          s1.set.v_obs2.length = 4 ∧ s1.refineCalls = s.refineCalls) ∨
        (s.first = false ∧ s1.first = false ∧ s1.refineCalls = s.refineCalls + 1 ∧
          s1.set.v_obs2.length = 4 ∧ s1.v_obs = s1.set.v_obs2)) :=
  (reference_update_by_step {} sampleLib (MathEnv.mk id id 3 toFloat32) id RefineGlobals.init
    (sampleHeap (1 : ℚ)) 7 (by simp [sampleHeap]) (by simp [sampleHeap])).1

end ReferenceClaims

section PathClaims

variable {K : Type} [LinearOrderedField K]

/-- C26 (the reference of the four-sensor loop): for fewer than `2^64` located
frames, every turn `n` of the loop is reached and returns. Before and after the
turn, once the seed is taken (`first` is down), `v_obs` has a positive multiple
of four entries and its last four are frames of RGBD_1, RGBD_2, RGBD_3 and
RGBD_4 in this order. When the turn completes a set after the seed, the entries
`v_obs[N-4]` to `v_obs[N-1]` and the four slots of the set exist, the key-pose
test returns, and it compares frames of the same sensor. The turn leaves `v_obs`
as it is, or it accepts the set (as the seed or by a registration) and then the
last four entries of `v_obs` are the frames of that set, slot by slot. -/
theorem reference_last_four (cfg : Config) (lib : Registration K) (env : MathEnv K)
    (sqrt : K → K) (g : RefineGlobals K) (scans : List (T3DRangeScan K)) (n : Nat)
    (hN : scans.length < 2 ^ 64) (hn : n < scans.length) :
    ∃ s s1, fourSensorLoopFrom cfg lib env sqrt 0 n (LoopState.init g scans) = some s ∧
      loopBody cfg lib env sqrt s n = some s1 ∧
      (s.first = false → 4 ≤ s.v_obs.length ∧ s.v_obs.length % 4 = 0 ∧
        s.v_obs.length < 2 ^ 64 ∧
        labelsOf (s.v_obs.drop (s.v_obs.length - 4)) = rgbdLabels) ∧
      (s1.first = false → 4 ≤ s1.v_obs.length ∧ s1.v_obs.length % 4 = 0 ∧
        s1.v_obs.length < 2 ^ 64 ∧
        labelsOf (s1.v_obs.drop (s1.v_obs.length - 4)) = rgbdLabels) ∧
      (∀ obs, s.v_3DRangeScans[n]? = some obs → (setStep s.set n obs).2 = true →
        s.first = false →
        ∃ pre o1 o2 o3 o4 n1 n2 n3 n4, s.v_obs = pre ++ [o1, o2, o3, o4] ∧
          (setStep s.set n obs).1.v_obs2 = [n1, n2, n3, n4] ∧
          labelsOf [o1, o2, o3, o4] = rgbdLabels ∧ labelsOf [n1, n2, n3, n4] = rgbdLabels ∧
          keyPoseTest env sqrt s.v_obs (setStep s.set n obs).1.v_obs2 =
            some
              (if isKeyPose env sqrt n1.obs.sensorPose o1.obs.sensorPose = false then (false, 1)
              else if isKeyPose env sqrt n2.obs.sensorPose o2.obs.sensorPose = false then
                (false, 2)
              else if isKeyPose env sqrt n3.obs.sensorPose o3.obs.sensorPose = false then
                (false, 3)
              else (isKeyPose env sqrt n4.obs.sensorPose o4.obs.sensorPose, 4))) ∧
      ((s1.v_obs = s.v_obs ∧ s1.first = s.first ∧ s1.refineCalls = s.refineCalls) ∨
        ((s.first = true ∧ s1.first = false ∨ s.refineCalls < s1.refineCalls) ∧
          s1.v_obs.drop (s1.v_obs.length - 4) = s1.set.v_obs2 ∧
          labelsOf s1.set.v_obs2 = rgbdLabels)) := by
  obtain ⟨s, hs, hinv⟩ := fourSensorLoopFrom_inv cfg lib env sqrt scans.length hN n 0
    (LoopState.init g scans) (by omega) (loopInv_init g scans)
  rw [Nat.zero_add] at hinv
  obtain ⟨s1, h1, hinv1, hshape⟩ := loopBody_step cfg lib env sqrt scans.length n s hN hn hinv
  have hb := hinv.bound
  have hb1 := hinv1.bound
  refine ⟨s, s1, hs, h1, ?_, ?_, ?_, ?_⟩
  · intro hf
    obtain ⟨a, b, c⟩ := hinv.reference hf
    exact ⟨a, b, by omega, c⟩
  · intro hf
    obtain ⟨a, b, c⟩ := hinv1.reference hf
    exact ⟨a, b, by omega, c⟩
  · intro obs _ hc2 hf
    obtain ⟨a, b, c⟩ := hinv.reference hf
    obtain ⟨h2, hlab⟩ := setStep_complete_labels scans.length n s obs hinv hc2
    exact keyPoseTest_inbounds env sqrt s.v_obs (setStep s.set n obs).1.v_obs2 a (by omega) c
      h2 hlab
  · have h4 := hinv1.len_obs2
    rcases hshape with h | ⟨a, b, _, d, _, f⟩ | ⟨a, b, c, d, f⟩
    · exact Or.inl h
    · refine Or.inr ⟨Or.inl ⟨a, b⟩, ?_, f⟩
      rw [d, h4, Nat.sub_self, List.drop_zero]
    · refine Or.inr ⟨Or.inr ?_, ?_, f⟩
      · rw [c]
        split_ifs <;> omega
      · rw [d]
        split_ifs
        · rw [List.length_append, h4, Nat.add_sub_cancel, List.drop_left]
        · rw [h4, Nat.sub_self, List.drop_zero]

/-- Witness of C26: the sample of two sets, at the turn for index 7, which
completes the second set. -/
theorem reference_last_four_witness :
    ∃ s s1, fourSensorLoopFrom {} sampleLib (MathEnv.mk id id 3 toFloat32) id 0 7
          (LoopState.init RefineGlobals.init (sampleHeap (1 : ℚ))) = some s ∧
      loopBody {} sampleLib (MathEnv.mk id id 3 toFloat32) id s 7 = some s1 ∧
      (s1.first = false → 4 ≤ s1.v_obs.length ∧ s1.v_obs.length % 4 = 0 ∧
        s1.v_obs.length < 2 ^ 64 ∧
        labelsOf (s1.v_obs.drop (s1.v_obs.length - 4)) = rgbdLabels) := by
  obtain ⟨s, s1, h1, h2, _, h3, _⟩ := reference_last_four {} sampleLib (MathEnv.mk id id 3 toFloat32) id
    RefineGlobals.init (sampleHeap (1 : ℚ)) 7 (by simp [sampleHeap]) (by simp [sampleHeap])
  exact ⟨s, s1, h1, h2, h3⟩

end PathClaims

section StageClaims

variable {K : Type} [LinearOrderedField K] [FloorRing K]

/-- C27 (the 2D guess off): with `initialGuessICP2D` off and the refinement on,
for every rawlog with fewer than `2^64` frames, `RGBD_sensors` is empty after
the first stage, so the refinement stage runs the one-frame loop, which
returns, with one call of a registration function for every located frame but
the first. The result is the same with `useKeyPoses` on or off and whatever the
square root and the constants `isKeyPose` would use. At every turn `i` from 1
on, the frame `i` is given to the registration function as a vector of one
frame. -/
theorem no_guess_one_frame_path (cfg : Config) (lib : Registration K) (env : MathEnv K)
    (sqrt : K → K) (icp : Aligner K)
    (hullOf : CObservation3DRangeScan K → List (K × K × K) × List (List Nat))
    (g : RefineGlobals K) (rawlog : List (CObservation K))
    (hoff : cfg.initialGuessICP2D = false) (hon : cfg.refineWithICP3D = true)
    (hN : (collectFrames rawlog).length < 2 ^ 64) :
    (locateStage cfg env icp rawlog).1 = [] ∧
      (∃ s, pipeline cfg lib env sqrt icp hullOf g rawlog = .oneFrame (some s) ∧
        s.refineCalls = (collectFrames rawlog).length - 1) ∧
      (∀ (b : Bool) (env2 : MathEnv K) (sqrt2 : K → K),
        pipeline { cfg with useKeyPoses := b } lib env2 sqrt2 icp hullOf g rawlog =
          pipeline cfg lib env sqrt icp hullOf g rawlog) ∧
      ∀ i, 1 ≤ i → i < (collectFrames rawlog).length →
        ∃ s s1 obs, (hullStage cfg hullOf (collectFrames rawlog))[i]? = some obs ∧
          singleLoopFrom cfg lib 0 i
            (SingleState.init g (hullStage cfg hullOf (collectFrames rawlog))) = some s ∧
          singleBody cfg lib s i = some s1 ∧
          refineLocation cfg lib s.globals s.v_obs [obs] = some (s1.globals, s1.v_obs2) ∧
          s1.refineCalls = s.refineCalls + 1 := by
  have hloc : ∀ (c : Config) (e : MathEnv K), c.initialGuessICP2D = false →
      locateStage c e icp rawlog = ([], collectFrames rawlog) := by
    intro c e h
    simp [locateStage, h]
  have hlen := hullStage_length cfg hullOf (collectFrames rawlog)
  have hpipe : ∀ (c : Config) (e : MathEnv K) (sq : K → K), c.initialGuessICP2D = false →
      c.refineWithICP3D = true →
      pipeline c lib e sq icp hullOf g rawlog =
        .oneFrame (singleLoop c lib g (hullStage c hullOf (collectFrames rawlog))) := by
    intro c e sq h1 h2
    simp [pipeline, hloc c e h1, refineStage, h2]
  refine ⟨by rw [hloc cfg env hoff], ?_, ?_, ?_⟩
  · obtain ⟨s, hs, hinv⟩ := singleLoopFrom_inv cfg lib
      (hullStage cfg hullOf (collectFrames rawlog)) (by omega)
      (hullStage cfg hullOf (collectFrames rawlog)).length 0
      (SingleState.init g (hullStage cfg hullOf (collectFrames rawlog)))
      (by omega) (singleInv_init g _)
    refine ⟨s, ?_, ?_⟩
    · rw [hpipe cfg env sqrt hoff hon, singleLoop, hs]
    · rw [hinv.calls, Nat.zero_add, hlen]
  · intro b env2 sqrt2
    rw [hpipe cfg env sqrt hoff hon, hpipe { cfg with useKeyPoses := b } env2 sqrt2 hoff hon]
    show RefineOutcome.oneFrame (singleLoopFrom { cfg with useKeyPoses := b } lib 0 _ _) = _
    rw [singleLoopFrom_keyPoses]
    rfl
  · intro i hi1 hi
    obtain ⟨s, hs, hinv⟩ := singleLoopFrom_inv cfg lib
      (hullStage cfg hullOf (collectFrames rawlog)) (by omega) i 0
      (SingleState.init g (hullStage cfg hullOf (collectFrames rawlog)))
      (by omega) (singleInv_init g _)
    rw [Nat.zero_add] at hinv
    obtain ⟨obs, s1, hobs, h1, _, hshape⟩ := singleBody_step cfg lib
      (hullStage cfg hullOf (collectFrames rawlog)) i s (by omega) (by omega) hinv
    refine ⟨s, s1, obs, hobs, hs, h1, ?_⟩
    rcases hshape with ⟨a, _⟩ | ⟨_, b, c, _⟩
    · exact absurd (hinv.first_iff.mp a) (by omega)
    · exact ⟨c, b⟩

end StageClaims

/-! ## The timestamps of the pending frames -/

section PendingTimes

variable {K : Type} [LinearOrderedField K] [FloorRing K]

theorem mainStep_scan_pending (env : MathEnv K) (icp : Aligner K) (s : State K)
    (sc : CObservation2DRangeScan K) :
    (mainStep env icp s (.scan2D sc)).v_pending3DRangeScans = [] := by
  by_cases h : (icp s.initialPose sc).2 > 80
  · rw [mainStep_scan_accept env icp s sc h]
    split_ifs with he
    · exact he
    · exact (processPending_frame env _).2.2.2.2
  · rw [mainStep_scan_reject env icp s sc h]

theorem mainStep_range_frame (env : MathEnv K) (icp : Aligner K) (s : State K)
    (f : CObservation3DRangeScan K) :
    (mainStep env icp s (.range3D f)).v_robotPoses = s.v_robotPoses ∧
      (mainStep env icp s (.range3D f)).v_pending3DRangeScans =
        s.v_pending3DRangeScans ++ [f] := by
  simp only [mainStep]
  split_ifs <;> exact ⟨rfl, rfl⟩

theorem mainStep_pendingInv (env : MathEnv K) (icp : Aligner K) (s : State K)
    (pre : List (CObservation K)) (o : CObservation K) (hinv : PendingInv s pre)
    (hle : ∀ t ∈ pre.map CObservation.timestamp, t ≤ o.timestamp) :
    PendingInv (mainStep env icp s o) (pre ++ [o]) := by
  cases o with
  | scan2D sc =>
    have hp := mainStep_scan_pending env icp s sc
    have hr := mainStep_robotPoses env icp s sc
    refine ⟨?_, ?_, ?_⟩
    · intro rp hrp
      rw [hr] at hrp
      rw [List.map_append, List.mem_append]
      split_ifs at hrp
      · rcases List.mem_append.mp hrp with h | h
        · exact Or.inl (hinv.pose_seen rp h)
        · right
          simp only [List.mem_singleton] at h
          subst h
          simp [CObservation.timestamp]
      · exact Or.inl (hinv.pose_seen rp hrp)
    · intro f hf
      rw [hp] at hf
      simp at hf
    · intro rp _ f hf
      rw [hp] at hf
      simp at hf
  | range3D g =>
    obtain ⟨hr, hp⟩ := mainStep_range_frame env icp s g
    refine ⟨?_, ?_, ?_⟩
    · intro rp hrp
      rw [hr] at hrp
      rw [List.map_append, List.mem_append]
      exact Or.inl (hinv.pose_seen rp hrp)
    · intro f hf
      rw [hp] at hf
      rw [List.map_append, List.mem_append]
      rcases List.mem_append.mp hf with h | h
      · exact Or.inl (hinv.frame_seen f h)
      · right
        simp only [List.mem_singleton] at h
        subst h
        simp [CObservation.timestamp]
    · intro rp hrp f hf
      rw [hr] at hrp
      rw [hp] at hf
      rcases List.mem_append.mp hf with h | h
      · exact hinv.pose_le_frame rp hrp f h
      · simp only [List.mem_singleton] at h
        subst h
        exact hle rp.time (hinv.pose_seen rp hrp)

theorem mainLoop_snoc (env : MathEnv K) (icp : Aligner K) (pre : List (CObservation K))
    (o : CObservation K) :
    mainLoop env icp (pre ++ [o]) = mainStep env icp (mainLoop env icp pre) o := by
  simp [mainLoop, mainLoopFrom]

theorem mainLoop_pendingInv (env : MathEnv K) (icp : Aligner K) (rawlog : List (CObservation K))
    (hsorted : (rawlog.map CObservation.timestamp).Pairwise fun a b => a ≤ b) :
    PendingInv (mainLoop env icp rawlog) rawlog := by
  induction rawlog using List.reverseRecOn with
  | nil =>
    exact ⟨fun rp h => by simp [mainLoop, mainLoopFrom, State.init] at h,
      fun f h => by simp [mainLoop, mainLoopFrom, State.init] at h,
      fun rp h => by simp [mainLoop, mainLoopFrom, State.init] at h⟩
  | append_singleton pre o ih =>
    rw [List.map_append, List.pairwise_append] at hsorted
    rw [mainLoop_snoc]
    apply mainStep_pendingInv env icp _ pre o (ih hsorted.1)
    intro t ht
    exact hsorted.2.2 t ht o.timestamp (by simp)

omit [FloorRing K] in
theorem timeDifference_mono (t1 t t2 : TTimeStamp) (h : t ≤ t2) :
    (timeDifference t1 t : K) ≤ timeDifference t1 t2 := by
  unfold timeDifference
  apply (div_le_div_iff_of_pos_right (by norm_num)).mpr
  have : (t : ℤ) - (t1 : ℤ) ≤ (t2 : ℤ) - (t1 : ℤ) :=
    Int.sub_le_sub_right (Int.ofNat_le.mpr h) _
  exact_mod_cast this

omit [FloorRing K] in
theorem timeDifference_nonneg (t1 t : TTimeStamp) (h : t1 ≤ t) :
    (0 : K) ≤ timeDifference t1 t := by
  unfold timeDifference
  apply div_nonneg _ (by norm_num)
  have : (0 : ℤ) ≤ (t : ℤ) - (t1 : ℤ) := Int.sub_nonneg.mpr (Int.ofNat_le.mpr h)
  exact_mod_cast this

omit [FloorRing K] in
theorem interpolationFactor_unit (rp1 rp2 : TRobotPose K) (t : TTimeStamp)
    (h1 : rp1.time ≤ t) (h2 : t ≤ rp2.time) (hlt : rp1.time < rp2.time) :
    0 ≤ interpolationFactor rp1 rp2 t ∧ interpolationFactor rp1 rp2 t ≤ 1 := by
  unfold interpolationFactor
  have hpos : (0 : K) < timeDifference rp1.time rp2.time := timeDifference_pos hlt
  exact ⟨div_nonneg (timeDifference_nonneg _ _ h1) hpos.le,
    (div_le_one hpos).mpr (timeDifference_mono _ _ _ h2)⟩

end PendingTimes

section PendingClaims

variable {K : Type} [LinearOrderedField K] [FloorRing K]

/-- C25 (the timestamps of the frames that get a pose): let the timestamps of
the rawlog entries `pre` followed by the 2D scan `sc` be non-decreasing, let the
loop have an accepted pose `rp1` as its latest after `pre`, and let `sc` be
accepted. Then the scan adds the pose `rp2` at the time of `sc`, the pending
frames are appended with the poses interpolated between `rp1` and `rp2`, and
every one of them has a timestamp `t` with `rp1.time <= t <= rp2.time`; when
`rp1.time < rp2.time` its interpolation factor is at least 0 and at most 1.
Scans rejected among `pre` make no difference. -/
theorem pending_between_accepted (env : MathEnv K) (icp : Aligner K)
    (pre : List (CObservation K)) (sc : CObservation2DRangeScan K)
    (rps : List (TRobotPose K)) (rp1 : TRobotPose K)
    (hsorted : ((pre ++ [CObservation.scan2D sc]).map CObservation.timestamp).Pairwise
      fun a b => a ≤ b)
    (hposes : (mainLoop env icp pre).v_robotPoses = rps ++ [rp1])
    (hacc : (icp (mainLoop env icp pre).initialPose sc).2 > 80) :
    ∃ rp2, rp2.time = sc.timestamp ∧
      (mainLoop env icp (pre ++ [.scan2D sc])).v_robotPoses = rps ++ [rp1, rp2] ∧
      (mainLoop env icp (pre ++ [.scan2D sc])).v_3DRangeScans =
        (mainLoop env icp pre).v_3DRangeScans ++
          (mainLoop env icp pre).v_pending3DRangeScans.map (locatePending env rp1 rp2) ∧
      ∀ f ∈ (mainLoop env icp pre).v_pending3DRangeScans,
        rp1.time ≤ f.timestamp ∧ f.timestamp ≤ rp2.time ∧
          (rp1.time < rp2.time →
            0 ≤ interpolationFactor rp1 rp2 f.timestamp ∧
              interpolationFactor rp1 rp2 f.timestamp ≤ 1) := by
  rw [List.map_append, List.pairwise_append] at hsorted
  have hinv := mainLoop_pendingInv env icp pre hsorted.1
  have hposes2 : (mainLoop env icp pre).v_robotPoses ++
      [⟨sc.timestamp, (icp (mainLoop env icp pre).initialPose sc).1,
        (icp (mainLoop env icp pre).initialPose sc).2⟩] =
      rps ++ [rp1, ⟨sc.timestamp, (icp (mainLoop env icp pre).initialPose sc).1,
        (icp (mainLoop env icp pre).initialPose sc).2⟩] := by
    rw [hposes, List.append_assoc]
    rfl
  refine ⟨⟨sc.timestamp, (icp (mainLoop env icp pre).initialPose sc).1,
    (icp (mainLoop env icp pre).initialPose sc).2⟩, rfl, ?_, ?_, ?_⟩
  · rw [mainLoop_snoc, mainStep_robotPoses, if_pos hacc, hposes2]
  · rw [mainLoop_snoc, mainStep_scan_accept env icp _ sc hacc]
    by_cases he : (mainLoop env icp pre).v_pending3DRangeScans = []
    · rw [if_pos he, he]
      simp
    · rw [if_neg he, processPending_of_two env _ rps rp1 _ hposes2]
  · intro f hf
    have h1 : rp1.time ≤ f.timestamp :=
      hinv.pose_le_frame rp1 (by rw [hposes]; simp) f hf
    have h2 : f.timestamp ≤ sc.timestamp :=
      hsorted.2.2 f.timestamp (hinv.frame_seen f hf) sc.timestamp
        (by simp [CObservation.timestamp])
    exact ⟨h1, h2, fun hlt => interpolationFactor_unit rp1 _ f.timestamp h1 h2 hlt⟩

end PendingClaims

section PendingWitness

theorem sampleRawlog2D_poses :
    (mainLoop (MathEnv.mk id id 3 toFloat32) sampleAligner (sampleRawlog2D (K := ℚ))).v_robotPoses =
      [] ++ [⟨1, CPose2D.make (MathEnv.mk id id 3 toFloat32) (8 / 10) 0 0, 90⟩] := by
  have h1 : ((sampleAligner (K := ℚ)) (State.init (MathEnv.mk id id 3 toFloat32)).initialPose
      ⟨"LASER", 1, []⟩).2 > 80 := by
    simp [sampleAligner]
    norm_num
  simp only [sampleRawlog2D, mainLoop, mainLoopFrom, List.foldl_cons, List.foldl_nil]
  rw [(mainStep_range_frame _ _ _ _).1, mainStep_robotPoses]
  have h3 : ¬ ((sampleAligner (K := ℚ))
      (mainStep (MathEnv.mk id id 3 toFloat32) sampleAligner
        (mainStep (MathEnv.mk id id 3 toFloat32) sampleAligner (State.init (MathEnv.mk id id 3 toFloat32))
          (.scan2D ⟨"LASER", 1, []⟩))
        (.range3D ⟨"RGBD_1", 2, ⟨0, 0, 0, 0, 0, 0⟩⟩)).initialPose
      ⟨"LASER", 3, []⟩).2 > 80 := by
    simp [sampleAligner]
    norm_num
  rw [if_neg h3, (mainStep_range_frame _ _ _ _).1, mainStep_robotPoses, if_pos h1]
  rfl

/-- Witness of C25: an accepted scan at tick 1, a frame at 2, a rejected scan at
3, a frame at 4, and an accepted scan at 5: the frame that gets a pose is the
one buffered after the rejected scan, and its tick 4 lies between 1 and 5. -/
theorem pending_between_accepted_witness :
    ∃ rp2 : TRobotPose ℚ, rp2.time = 5 ∧
      ∀ f ∈ (mainLoop (MathEnv.mk id id 3 toFloat32) sampleAligner
          (sampleRawlog2D (K := ℚ))).v_pending3DRangeScans,
        1 ≤ f.timestamp ∧ f.timestamp ≤ rp2.time := by
  obtain ⟨rp2, h1, _, _, h4⟩ := pending_between_accepted (MathEnv.mk id id 3 toFloat32) sampleAligner
    (sampleRawlog2D (K := ℚ)) ⟨"LASER", 5, []⟩ []
    ⟨1, CPose2D.make (MathEnv.mk id id 3 toFloat32) (8 / 10) 0 0, 90⟩
    (by simp [sampleRawlog2D, CObservation.timestamp]) sampleRawlog2D_poses
    (by
      simp [sampleAligner]
      norm_num)
  exact ⟨rp2, h1, fun f hf => ⟨(h4 f hf).1, (h4 f hf).2.1⟩⟩

end PendingWitness

section StageWitness

/-- Witness of C27: a rawlog of eight frames from four RGBD sensors, with the
2D guess off and key poses on: the one-frame loop runs and calls the
registration function seven times. -/
theorem no_guess_one_frame_path_witness :
    ∃ s, pipeline
          { initialGuessICP2D := false, refineWithICP3D := true, useKeyPoses := true,
            ICP3D_method := "ICP" }
          sampleLib (MathEnv.mk id id 3 toFloat32) id sampleAligner (fun _ => ([], []))
          RefineGlobals.init (sampleRawlog3D (1 : ℚ)) = .oneFrame (some s) ∧
      s.refineCalls = 7 := by
  obtain ⟨s, h1, h2⟩ := (no_guess_one_frame_path
    { initialGuessICP2D := false, refineWithICP3D := true, useKeyPoses := true,
      ICP3D_method := "ICP" }
    sampleLib (MathEnv.mk id id 3 toFloat32) id sampleAligner (fun _ => ([], []))
    RefineGlobals.init (sampleRawlog3D (1 : ℚ)) rfl rfl
    (by simp [sampleRawlog3D, sampleHeap, collectFrames])).2.1
  exact ⟨s, h1, h2⟩

end StageWitness

section RoundingClaims

end RoundingClaims

end Localization
